import Mathlib

/-!
# Opus decoder element (`ext/opus/gstopusdec.c`): packet pipeline

A shallow embedding of the packet-processing functions of `gstopusdec.c`.

* The element instance `GstOpusDec` is a record; every function takes the
  record and returns the updated one (explicit state passing).
* The collaborators the element calls into (the Opus engine, the pad
  allocator, the audio-decoder base class, the peer caps) are not part of the
  element.  They are the fields of `Env`, arbitrary functions of the
  arguments the element passes.  One `Env` answers the calls of one
  invocation; each function below calls each collaborator at most once.
* Every call into a collaborator is recorded, in order, in a list of `Event`s,
  so that "the engine is called with flag 0" is a statement about that list.
* `guint`/`guint32` arithmetic is `Nat` arithmetic reduced `% 2^32`;
  `int` arithmetic is `Int` arithmetic (signed overflow has no meaning in C).

The last part embeds `gst_ssa_parse_remove_override_codes` of
`gst/subparse/gstssaparse.c`: a NUL-terminated text is the list of its bytes
before the NUL, and each `while` loop runs on fuel, `none` standing for a
loop that has not ended when the fuel has.
-/

namespace GstOpus

/-! ## Data model -/

/-- A byte (`guint8`). -/
abbrev guint8 := Fin 256

/-- The type `GstFlowReturn` is a C enumeration; its values are integers. -/
abbrev GstFlowReturn := Int

/-- The value `GST_FLOW_OK` of the GStreamer 0.10 enumeration. -/
def GST_FLOW_OK : GstFlowReturn := 0

/-- The value `GST_FLOW_ERROR` of the GStreamer 0.10 enumeration. -/
def GST_FLOW_ERROR : GstFlowReturn := -5

/-- The value `OPUS_OK` of the Opus error codes. -/
def OPUS_OK : Int := 0

/-- Conversion of an `int` to `unsigned int` (reduction modulo `2^32`). -/
def to_guint (x : Int) : Nat := (x % 4294967296).toNat

/-- An input `GstBuffer`: `GST_BUFFER_DATA` is `data`, `GST_BUFFER_SIZE` its
length.  Timestamps are only logged by the element and are left out. -/
structure GstBuffer where
  data : List guint8
deriving DecidableEq, Repr

/-- The accessor `GST_BUFFER_SIZE (buf)`. -/
def GstBuffer.size (buf : GstBuffer) : Nat := buf.data.length

/-- An output buffer.  `pcm` is what the engine wrote at `out_data`, `offset`
is how far `GST_BUFFER_DATA` has been advanced (in bytes) and `size` is
`GST_BUFFER_SIZE`. -/
structure OutBuf where
  pcm : List Int
  offset : Nat
  size : Nat
deriving DecidableEq, Repr

/-- The element instance (the fields of `struct _GstOpusDec` the functions
use).  `state` is the `OpusDecoder *` session handle, absent when `NULL`.
The header that declares the struct is not among the sources; the widths are
those the functions use the fields at: `packetno` a `guint64`, `sample_rate`
and `n_channels` `int`s (they are passed to `gst_structure_get_int`), and
`pre_skip` a `guint32` (printed with `%u`, computed with in `guint`). -/
structure GstOpusDec where
  state : Option Nat
  packetno : Nat
  streamheader : Option GstBuffer
  vorbiscomment : Option GstBuffer
  sample_rate : Int
  n_channels : Int
  pre_skip : Nat
  use_inband_fec : Bool
  last_buffer : Option GstBuffer
  primed : Bool
deriving DecidableEq, Repr

/-- What the engine answers to one `opus_decode` call: the return value `n`
and the samples it wrote to the output. -/
structure DecodeReply where
  n : Int
  pcm : List Int
deriving DecidableEq, Repr

/-- The collaborators of one invocation.
* `peer_caps`: `none` when the source pad has no peer, else the `channels`
  and `rate` fields of the fixated caps, each possibly missing;
* `opus_decoder_create rate channels`: the handle returned and `err`;
* `pad_alloc_buffer size`: the flow of `gst_pad_alloc_buffer_and_set_caps`;
* `opus_decode st data len frame_size decode_fec`;
* `finish_frame buf frames`: the flow of `gst_audio_decoder_finish_frame`. -/
structure Env where
  peer_caps : Option (Option Int × Option Int)
  opus_decoder_create : Int → Int → Option Nat × Int
  pad_alloc_buffer : Nat → GstFlowReturn
  opus_decode : Nat → Option (List guint8) → Int → Int → Int → DecodeReply
  finish_frame : Option OutBuf → Int → GstFlowReturn

/-- A call into a collaborator, with the arguments passed. -/
inductive Event where
  | decoder_create (rate channels : Int)
  | decoder_destroy (st : Nat)
  | pad_alloc_buffer (size : Nat)
  | opus_decode (st : Nat) (data : Option (List guint8)) (len : Int)
      (frame_size : Int) (decode_fec : Int)
  | element_error (n : Int)
  | finish_frame (buf : Option OutBuf) (frames : Int)
  | set_plc_aware (plc : Bool)
  | set_latency (min max : Nat)
deriving DecidableEq, Repr

/-- What a call leaves behind: the flow returned, the element afterwards and
the collaborator calls it made. -/
structure Outcome where
  res : GstFlowReturn
  dec : GstOpusDec
  trace : List Event
deriving DecidableEq, Repr

/-- The event is a call of the decode engine. -/
def Event.is_decode : Event → Bool
  | .opus_decode _ _ _ _ _ => true
  | _ => false

/-- The event is a call of `gst_audio_decoder_finish_frame`. -/
def Event.is_finish : Event → Bool
  | .finish_frame _ _ => true
  | _ => false

/-- The event is a call of `opus_decoder_create`. -/
def Event.is_create : Event → Bool
  | .decoder_create _ _ => true
  | _ => false

/-! ## Header helpers -/

/-- The magic of the identification packet, the bytes of `"OpusHead"`. -/
def OpusHead : List guint8 := [79, 112, 117, 115, 72, 101, 97, 100]

/-- The magic of the comment packet, the bytes of `"OpusTags"`. -/
def OpusTags : List guint8 := [79, 112, 117, 115, 84, 97, 103, 115]

/-- The libc `memcmp (a, b, n)`: the sign of the first difference among the first `n`
bytes.  Callers only pass `n` within both regions; past the end of a region
the model answers "different". -/
def memcmp : List guint8 → List guint8 → Nat → Int
  | _, _, 0 => 0
  | a :: as, b :: bs, n + 1 =>
    if a < b then -1 else if b < a then 1 else memcmp as bs n
  | _, _, _ + 1 => 1

/-- Modelled from the spec: `gst_opus_header_is_header` is defined in
`gstopusheader.c`, which is not among the sources.  The spec says a packet is
taken for a header packet when it "begins with 8-byte magic": it holds at
least `magic_size` bytes and the first `magic_size` of them are the magic. -/
def gst_opus_header_is_header (buf : GstBuffer) (magic : List guint8)
    (magic_size : Nat) : Bool :=
  decide (magic_size ≤ buf.size) && decide (memcmp magic buf.data magic_size = 0)

/-- Modelled from the spec: the byte offsets of the packet that
`gst_opus_header_is_header` (not among the sources) looks at: the
`magic_size` leading ones, and only when the packet is that long. -/
def gst_opus_header_is_header_reads (buf : GstBuffer) (magic_size : Nat) : List Nat :=
  if magic_size ≤ buf.size then List.range magic_size else []

/-- The byte reader `GST_READ_UINT16_LE (data + off)`: `data[off] | data[off + 1] << 8`. -/
def GST_READ_UINT16_LE (data : List guint8) (off : Nat) : Nat :=
  (data.getD off 0).val + 256 * (data.getD (off + 1) 0).val

/-- What `gst_opus_dec_parse_header` leaves behind; `reads` lists the byte
offsets of the packet that were looked at. -/
structure HeaderOutcome where
  res : GstFlowReturn
  dec : GstOpusDec
  reads : List Nat
deriving DecidableEq, Repr

/-! ## The element's functions -/

/-- The function `gst_opus_dec_reset`, with the engine calls it makes. -/
def gst_opus_dec_reset (dec : GstOpusDec) : GstOpusDec × List Event :=
  ({ dec with
      packetno := 0
      state := none
      streamheader := none
      vorbiscomment := none
      last_buffer := none
      primed := false
      pre_skip := 0 },
   match dec.state with
   | some st => [Event.decoder_destroy st]
   | none => [])

/-- The function `gst_opus_dec_parse_header`.  Each `g_return_val_if_fail` returns
`GST_FLOW_ERROR` when its condition is false (GLib checks enabled). -/
def gst_opus_dec_parse_header (dec : GstOpusDec) (buf : GstBuffer) : HeaderOutcome :=
  if !gst_opus_header_is_header buf OpusHead 8 then
    { res := GST_FLOW_ERROR, dec := dec, reads := gst_opus_header_is_header_reads buf 8 }
  else if !decide (19 ≤ buf.size) then
    { res := GST_FLOW_ERROR, dec := dec, reads := gst_opus_header_is_header_reads buf 8 }
  else
    { res := GST_FLOW_OK
      dec := { dec with pre_skip := GST_READ_UINT16_LE buf.data 10 }
      reads := gst_opus_header_is_header_reads buf 8 ++ [10, 10 + 1] }

/-- The function `gst_opus_dec_parse_comments`. -/
def gst_opus_dec_parse_comments (_dec : GstOpusDec) (_buf : GstBuffer) : GstFlowReturn :=
  GST_FLOW_OK

/-- The function `gst_opus_dec_setup_from_peer_caps`: with a peer, `channels` and `rate`
come from the fixated caps, defaulting to 2 and 48000; without one the
fields keep their values. -/
def gst_opus_dec_setup_from_peer_caps (env : Env) (dec : GstOpusDec) : GstOpusDec :=
  match env.peer_caps with
  | some (channels, rate) =>
    { dec with
        n_channels := (match channels with | some c => c | none => 2)
        sample_rate := (match rate with | some r => r | none => 48000) }
  | none => dec

/-- The local `scaled_pre_skip` of the block "Skip any samples that need
skipping" of `opus_dec_chain_parse_data`, a `guint`. -/
def scaled_pre_skip (dec : GstOpusDec) : Nat :=
  dec.pre_skip * to_guint dec.sample_rate % 4294967296 / 48000

/-- The local `skip` of the same block, a `guint`; `n` is converted to
`unsigned int` for the comparison. -/
def skip (dec : GstOpusDec) (n : Int) : Nat :=
  if to_guint n < scaled_pre_skip dec then to_guint n else scaled_pre_skip dec

/-- The local `scaled_skip` of the same block, a `guint`. -/
def scaled_skip (dec : GstOpusDec) (n : Int) : Nat :=
  skip dec n * 48000 % 4294967296 / to_guint dec.sample_rate

/-- The value `skip * 2 * dec->n_channels` of the same block, a `guint`. -/
def skip_bytes (dec : GstOpusDec) (n : Int) : Nat :=
  skip dec n * 2 % 4294967296 * to_guint dec.n_channels % 4294967296

/-- The block "Skip any samples that need skipping" of
`opus_dec_chain_parse_data`, on the element, the decoded count `n` and the
output buffer: the element afterwards and the buffer, `NULL` when its size
has become 0.  The subtractions are `guint` subtractions. -/
def skip_samples (dec : GstOpusDec) (n : Int) (outbuf : OutBuf) :
    GstOpusDec × Option OutBuf :=
  if 0 < dec.pre_skip then
    let size := (outbuf.size + 4294967296 - skip_bytes dec n) % 4294967296
    let dec1 :=
      { dec with pre_skip := (dec.pre_skip + 4294967296 - scaled_skip dec n) % 4294967296 }
    if size = 0 then (dec1, none)
    else (dec1, some { outbuf with size := size, offset := outbuf.offset + skip_bytes dec n })
  else (dec, some outbuf)

/-- The label `done:` of `opus_dec_chain_parse_data`. -/
def chain_done (dec : GstOpusDec) (buffer : Option GstBuffer) (res : GstFlowReturn)
    (trace : List Event) : Outcome :=
  if dec.use_inband_fec then
    { res := res, dec := { dec with last_buffer := buffer, primed := true }, trace := trace }
  else
    { res := res, dec := dec, trace := trace }

/-- The local `buf` of `opus_dec_chain_parse_data`: "the buffer we'll be
sending to the opus decoder". -/
def decode_buffer (dec : GstOpusDec) (buffer : Option GstBuffer) : Option GstBuffer :=
  if dec.use_inband_fec && dec.last_buffer.isSome then dec.last_buffer else buffer

/-- The locals `data` and `size` of `opus_dec_chain_parse_data`: those of
`buf`, or `NULL` and 0 without one. -/
def decode_data (buf : Option GstBuffer) : Option (List guint8) × Int :=
  match buf with
  | some b => (some b.data, (b.size : Int))
  | none => (none, 0)

/-- The local `samples` of `opus_dec_chain_parse_data` (`int` division). -/
def frame_samples (dec : GstOpusDec) : Int := (120 * dec.sample_rate).tdiv 1000

/-- The local `packet_size` of `opus_dec_chain_parse_data`, an `unsigned int`. -/
def packet_size (dec : GstOpusDec) : Nat := to_guint (frame_samples dec * dec.n_channels * 2)

/-- The last argument of the `opus_decode` call of `opus_dec_chain_parse_data`. -/
def decode_fec (dec : GstOpusDec) : Int :=
  if dec.use_inband_fec then (if dec.last_buffer.isSome then 0 else 1) else 0

/-- The `opus_decode` call of `opus_dec_chain_parse_data`, as an event. -/
def decode_call (dec : GstOpusDec) (st : Nat) (buffer : Option GstBuffer) : Event :=
  Event.opus_decode st (decode_data (decode_buffer dec buffer)).1
    (decode_data (decode_buffer dec buffer)).2 (frame_samples dec) (decode_fec dec)

/-- The engine's answer to the `opus_decode` call of `opus_dec_chain_parse_data`. -/
def decode_reply (env : Env) (dec : GstOpusDec) (st : Nat) (buffer : Option GstBuffer) :
    DecodeReply :=
  env.opus_decode st (decode_data (decode_buffer dec buffer)).1
    (decode_data (decode_buffer dec buffer)).2 (frame_samples dec) (decode_fec dec)

/-- The part of `opus_dec_chain_parse_data` after the session block: `st` is
the (non-`NULL`) `dec->state` and `pre` the calls made so far. -/
def chain_decode (env : Env) (dec : GstOpusDec) (st : Nat) (buffer : Option GstBuffer)
    (pre : List Event) : Outcome :=
  if dec.use_inband_fec && !dec.primed then
    chain_done dec buffer GST_FLOW_OK pre
  else
    let res := env.pad_alloc_buffer (packet_size dec)
    if res ≠ GST_FLOW_OK then
      { res := res, dec := dec, trace := pre ++ [Event.pad_alloc_buffer (packet_size dec)] }
    else
      let reply := decode_reply env dec st buffer
      let called := pre ++ [Event.pad_alloc_buffer (packet_size dec), decode_call dec st buffer]
      if reply.n < 0 then
        { res := GST_FLOW_ERROR, dec := dec, trace := called ++ [Event.element_error reply.n] }
      else
        let outbuf : OutBuf :=
          { pcm := reply.pcm, offset := 0, size := to_guint (reply.n * 2 * dec.n_channels) }
        let trimmed := skip_samples dec reply.n outbuf
        let res := env.finish_frame trimmed.2 1
        chain_done trimmed.1 buffer res (called ++ [Event.finish_frame trimmed.2 1])

/-- The function `opus_dec_chain_parse_data`. -/
def opus_dec_chain_parse_data (env : Env) (dec : GstOpusDec) (buffer : Option GstBuffer) :
    Outcome :=
  match dec.state with
  | some st => chain_decode env dec st buffer []
  | none =>
    let dec1 := gst_opus_dec_setup_from_peer_caps env dec
    let created := env.opus_decoder_create dec1.sample_rate dec1.n_channels
    let dec2 := { dec1 with state := created.1 }
    let pre := [Event.decoder_create dec1.sample_rate dec1.n_channels]
    match created.1 with
    | some st =>
      if created.2 ≠ OPUS_OK then { res := GST_FLOW_ERROR, dec := dec2, trace := pre }
      else chain_decode env dec2 st buffer pre
    | none => { res := GST_FLOW_ERROR, dec := dec2, trace := pre }

/-- The function `memcmp_buffers`. -/
def memcmp_buffers (buf1 buf2 : GstBuffer) : Bool :=
  if buf1.size ≠ buf2.size then false
  else decide (memcmp buf1.data buf2.data buf1.size = 0)

/-- The body of `gst_opus_dec_handle_frame` between the `NULL` check and
`dec->packetno++`, for a packet `buf`. -/
def handle_frame_dispatch (env : Env) (dec : GstOpusDec) (buf : GstBuffer) : Outcome :=
  match dec.streamheader, dec.vorbiscomment with
  | some streamheader, some vorbiscomment =>
    if memcmp_buffers streamheader buf then
      { res := GST_FLOW_OK, dec := dec, trace := [Event.finish_frame none 1] }
    else if memcmp_buffers vorbiscomment buf then
      { res := GST_FLOW_OK, dec := dec, trace := [Event.finish_frame none 1] }
    else opus_dec_chain_parse_data env dec (some buf)
  | _, _ =>
    match dec.packetno with
    | 0 =>
      if gst_opus_header_is_header buf OpusHead 8 then
        let parsed := gst_opus_dec_parse_header dec buf
        { res := parsed.res, dec := parsed.dec, trace := [Event.finish_frame none 1] }
      else opus_dec_chain_parse_data env dec (some buf)
    | 1 =>
      if gst_opus_header_is_header buf OpusTags 8 then
        { res := gst_opus_dec_parse_comments dec buf, dec := dec,
          trace := [Event.finish_frame none 1] }
      else opus_dec_chain_parse_data env dec (some buf)
    | _ => opus_dec_chain_parse_data env dec (some buf)

/-- The statement `dec->packetno++` at the end of `gst_opus_dec_handle_frame`;
`packetno` is a `guint64`. -/
def packetno_incr (r : Outcome) : Outcome :=
  { r with dec := { r.dec with packetno := (r.dec.packetno + 1) % 18446744073709551616 } }

/-- The function `gst_opus_dec_handle_frame`. -/
def gst_opus_dec_handle_frame (env : Env) (dec : GstOpusDec) (buf : Option GstBuffer) :
    Outcome :=
  match buf with
  | none => { res := GST_FLOW_OK, dec := dec, trace := [] }
  | some b => packetno_incr (handle_frame_dispatch env dec b)

/-- The function `gst_opus_dec_init`: the element as it is created. -/
def gst_opus_dec_init : GstOpusDec :=
  (gst_opus_dec_reset
    { state := none, packetno := 0, streamheader := none, vorbiscomment := none,
      sample_rate := 0, n_channels := 0, pre_skip := 0, use_inband_fec := false,
      last_buffer := none, primed := false }).1

/-- The constant `GST_MSECOND`, in nanoseconds. -/
def GST_MSECOND : Nat := 1000000

/-- The function `gst_opus_dec_start`: the value returned, the element
afterwards and the calls made. -/
def gst_opus_dec_start (dec : GstOpusDec) : Bool × GstOpusDec × List Event :=
  let odec := gst_opus_dec_reset dec
  (true, odec.1,
    odec.2 ++ [Event.set_plc_aware true] ++
      (if odec.1.use_inband_fec then
        [Event.set_latency (2 * GST_MSECOND + GST_MSECOND / 2) (120 * GST_MSECOND)]
       else []))

/-- The function `gst_opus_dec_stop`. -/
def gst_opus_dec_stop (dec : GstOpusDec) : Bool × GstOpusDec × List Event :=
  let odec := gst_opus_dec_reset dec
  (true, odec.1, odec.2)

/-- An element of the `streamheader` array of the caps: a value that holds a
buffer, or a value of another type. -/
inductive GValue where
  | buffer (buf : GstBuffer)
  | other
deriving DecidableEq, Repr

/-- The field `streamheader` of the first structure of the caps, as
`gst_opus_dec_set_format` looks at it: missing, of a type other than
`GST_TYPE_ARRAY`, or an array of values. -/
inductive StreamHeader where
  | missing
  | not_array
  | array (items : List GValue)
deriving DecidableEq, Repr

/-- The second half of `gst_opus_dec_set_format`, from
`vorbiscomment = gst_value_array_get_value (streamheader, 1)` to the return;
`ret` is the local of that name. -/
def set_format_vorbiscomment (dec : GstOpusDec) (vorbiscomment : GValue) (ret : Bool) :
    Bool × GstOpusDec :=
  match vorbiscomment with
  | GValue.buffer buf =>
    if gst_opus_dec_parse_comments dec buf ≠ GST_FLOW_OK then (ret, dec)
    else (ret, { dec with vorbiscomment := some buf })
  | GValue.other => (ret, dec)

/-- The function `gst_opus_dec_set_format`: the `gboolean` returned and the
element afterwards.  The local `ret` is initialised to `TRUE` and returned at
`done:`; no statement of the function assigns it. -/
def gst_opus_dec_set_format (dec : GstOpusDec) (streamheader : StreamHeader) :
    Bool × GstOpusDec :=
  let ret := true
  match streamheader with
  | StreamHeader.array (header :: vorbiscomment :: _) =>
    match header with
    | GValue.buffer buf =>
      if (gst_opus_dec_parse_header dec buf).res ≠ GST_FLOW_OK then
        (ret, (gst_opus_dec_parse_header dec buf).dec)
      else
        set_format_vorbiscomment
          { (gst_opus_dec_parse_header dec buf).dec with streamheader := some buf }
          vorbiscomment ret
    | GValue.other => set_format_vorbiscomment dec vorbiscomment ret
  | _ => (ret, dec)

/-- The function `gst_opus_dec_set_property` for `PROP_USE_INBAND_FEC`. -/
def gst_opus_dec_set_property (dec : GstOpusDec) (value : Bool) : GstOpusDec :=
  { dec with use_inband_fec := value }

/-- The collaborator calls of a run of `opus_dec_chain_parse_data` over
successive packets, in order. -/
def chain_run_trace (dec : GstOpusDec) : List (Env × Option GstBuffer) → List Event
  | [] => []
  | (env, buffer) :: rest =>
    (opus_dec_chain_parse_data env dec buffer).trace ++
      chain_run_trace (opus_dec_chain_parse_data env dec buffer).dec rest

/-- A run of `opus_dec_chain_parse_data` over successive packets, each with
the collaborators that answer it: the element after the last one. -/
def chain_run (dec : GstOpusDec) : List (Env × Option GstBuffer) → GstOpusDec
  | [] => dec
  | (env, buffer) :: rest => chain_run (opus_dec_chain_parse_data env dec buffer).dec rest

/-- The number of samples the trimmer block of `opus_dec_chain_parse_data`
removes from the front of a decode of `n` samples: the local `skip` when the
block runs, none when the budget is 0 and the block is passed over. -/
def samples_trimmed (dec : GstOpusDec) (n : Int) : Nat :=
  if 0 < dec.pre_skip then skip dec n else 0

/-- Successive decode cycles as the trimmer block sees them: each decoded
count in turn meets the budget the cycles before it left.  The result is the
total number of samples removed and the element after the last cycle. -/
def trim_run (dec : GstOpusDec) : List Int → Nat × GstOpusDec
  | [] => (0, dec)
  | n :: rest =>
    let next := (skip_samples dec n
      { pcm := [], offset := 0, size := to_guint (n * 2 * dec.n_channels) }).1
    (samples_trimmed dec n + (trim_run next rest).1, (trim_run next rest).2)

/-- What can happen to the element from outside: a packet (or no buffer)
handed to `gst_opus_dec_handle_frame`, with the collaborators that answer
that call; new caps; the property `use-inband-fec` being set; a reset, alone
or through `gst_opus_dec_start` and `gst_opus_dec_stop`. -/
inductive Op where
  | handle_frame (env : Env) (buf : Option GstBuffer)
  | set_format (streamheader : StreamHeader)
  | set_property (value : Bool)
  | reset
  | start
  | stop

/-- The element after one `Op`, and the collaborator calls made. -/
def run_op (dec : GstOpusDec) : Op → GstOpusDec × List Event
  | Op.handle_frame env buf =>
    ((gst_opus_dec_handle_frame env dec buf).dec, (gst_opus_dec_handle_frame env dec buf).trace)
  | Op.set_format streamheader => ((gst_opus_dec_set_format dec streamheader).2, [])
  | Op.set_property value => (gst_opus_dec_set_property dec value, [])
  | Op.reset => gst_opus_dec_reset dec
  | Op.start => ((gst_opus_dec_start dec).2.1, (gst_opus_dec_start dec).2.2)
  | Op.stop => ((gst_opus_dec_stop dec).2.1, (gst_opus_dec_stop dec).2.2)

/-- The element after a sequence of `Op`s, and all the collaborator calls
made, in order. -/
def run_ops (dec : GstOpusDec) : List Op → GstOpusDec × List Event
  | [] => (dec, [])
  | op :: rest =>
    ((run_ops (run_op dec op).1 rest).1, (run_op dec op).2 ++ (run_ops (run_op dec op).1 rest).2)

/-- The pending-packet invariant: an element that is primed holds a pending
packet. -/
def pending_when_primed (dec : GstOpusDec) : Prop :=
  dec.primed = true → dec.last_buffer ≠ none

/-! ## The session block, for the statements -/

/-- The element as the session block of `opus_dec_chain_parse_data` (its
first `if`) leaves it: untouched when a session is present, else with the
rate and channels of the peer caps and the handle the engine returned. -/
def after_session_block (env : Env) (dec : GstOpusDec) : GstOpusDec :=
  match dec.state with
  | some _ => dec
  | none =>
    { gst_opus_dec_setup_from_peer_caps env dec with
      state := (env.opus_decoder_create
        (gst_opus_dec_setup_from_peer_caps env dec).sample_rate
        (gst_opus_dec_setup_from_peer_caps env dec).n_channels).1 }

/-- The collaborator calls of the session block of `opus_dec_chain_parse_data`. -/
def session_trace (env : Env) (dec : GstOpusDec) : List Event :=
  match dec.state with
  | some _ => []
  | none =>
    [Event.decoder_create (gst_opus_dec_setup_from_peer_caps env dec).sample_rate
      (gst_opus_dec_setup_from_peer_caps env dec).n_channels]

/-- The session block of `opus_dec_chain_parse_data` goes on with handle `st`:
the session `st` is present, or there is none and `opus_decoder_create`
returns `st` with `OPUS_OK`. -/
def session_ok (env : Env) (dec : GstOpusDec) (st : Nat) : Prop :=
  match dec.state with
  | some s => s = st
  | none =>
    env.opus_decoder_create (gst_opus_dec_setup_from_peer_caps env dec).sample_rate
      (gst_opus_dec_setup_from_peer_caps env dec).n_channels = (some st, OPUS_OK)

instance (env : Env) (dec : GstOpusDec) (st : Nat) : Decidable (session_ok env dec st) := by
  unfold session_ok
  cases dec.state <;> infer_instance

/-! ## Subtitle text clean-up (`gst/subparse/gstssaparse.c`) -/

/-- The libc `strchr (txt, c)` on a text: the offset of the first byte equal
to `c`, or `none` for `NULL`. -/
def strchr : List guint8 → guint8 → Option Nat
  | [], _ => none
  | x :: rest, c => if x = c then some 0 else (strchr rest c).map (fun i => i + 1)

/-- The libc `strstr (txt, needle)` on a text: the offset of the first
occurrence of `needle`, or `none` for `NULL`. -/
def strstr : List guint8 → List guint8 → Option Nat
  | [], needle => if needle = [] then some 0 else none
  | x :: rest, needle =>
    if (x :: rest).take needle.length = needle then some 0
    else (strstr rest needle).map (fun i => i + 1)

/-- The text after `g_memmove (t, end + 1, strlen (end + 1) + 1)`, for `t`
and `end` at offsets `t` and `e`: the bytes before `t` stay, and the bytes
after `end`, the NUL included, are copied to `t` (as through a temporary
copy, the regions may overlap). -/
def g_memmove_tail (txt : List guint8) (t e : Nat) : List guint8 :=
  txt.take t ++ txt.drop (e + 1)

/-- The first `while` loop of `gst_ssa_parse_remove_override_codes`, on
fuel: `t` is the first `'{'` (byte 123) of the text and `end` the first `'}'`
(byte 125) of the text.  The result is `none` when the fuel is used up, else
whether the function returns from inside the loop, `removed_any`, and the
text. -/
def brace_loop : Nat → List guint8 → Bool → Option (Bool × Bool × List guint8)
  | 0, _, _ => none
  | fuel + 1, txt, removed_any =>
    match strchr txt 123 with
    | none => some (false, removed_any, txt)
    | some t =>
      match strchr txt 125 with
      | none => some (true, removed_any, txt)
      | some e => brace_loop fuel (g_memmove_tail txt t e) true

/-- One of the three marker loops of `gst_ssa_parse_remove_override_codes`,
on fuel: while `strstr` finds `needle` at `t`, `t[0] = c0` and `t[1] = c1`.
The result is `none` when the fuel is used up. -/
def marker_loop : Nat → List guint8 → List guint8 → guint8 → guint8 → Option (List guint8)
  | 0, _, _, _, _ => none
  | fuel + 1, txt, needle, c0, c1 =>
    match strstr txt needle with
    | none => some txt
    | some t => marker_loop fuel ((txt.set t c0).set (t + 1) c1) needle c0 c1

/-- The function `gst_ssa_parse_remove_override_codes`, each loop on `fuel`:
the value returned and the text left, or `none` when a loop has not ended.
The markers are backslash (92) followed by `n` (110), `N` (78) or `h` (104);
they become a space (32) and a newline (10), or two spaces. -/
def gst_ssa_parse_remove_override_codes (fuel : Nat) (txt : List guint8) :
    Option (Bool × List guint8) :=
  match brace_loop fuel txt false with
  | none => none
  | some (true, removed_any, txt1) => some (removed_any, txt1)
  | some (false, removed_any, txt1) =>
    match marker_loop fuel txt1 [92, 110] 32 10 with
    | none => none
    | some txt2 =>
      match marker_loop fuel txt2 [92, 78] 32 10 with
      | none => none
      | some txt3 =>
        match marker_loop fuel txt3 [92, 104] 32 32 with
        | none => none
        | some txt4 => some (removed_any, txt4)

/-! ## Sample data -/

/-- An identification packet of 19 bytes announcing a pre-skip of 312
(bytes 10 and 11 are 56 and 1). -/
def ident_packet_312 : GstBuffer :=
  { data := [79, 112, 117, 115, 72, 101, 97, 100, 1, 2, 56, 1, 128, 187, 0, 0, 0, 0, 0] }

/-- A packet of 12 bytes that starts with the magic "OpusHead" and stops
before the end of the fixed header. -/
def short_ident_packet : GstBuffer :=
  { data := [79, 112, 117, 115, 72, 101, 97, 100, 1, 2, 56, 1] }

/-- A comment packet: the magic "OpusTags" and an empty vendor string. -/
def comment_packet : GstBuffer :=
  { data := [79, 112, 117, 115, 84, 97, 103, 115, 0, 0, 0, 0, 0, 0, 0, 0] }

/-- A payload packet. -/
def payload_a : GstBuffer := { data := [8, 11, 22, 33] }

/-- Another payload packet. -/
def payload_b : GstBuffer := { data := [8, 44, 55] }

/-- Collaborators that grant every request: the peer asks for 2 channels at
48000 Hz, the engine hands out session 1 and decodes every packet to 960
samples, allocation and `finish_frame` answer `GST_FLOW_OK`. -/
def env_ok : Env :=
  { peer_caps := some (some 2, some 48000)
    opus_decoder_create := fun _ _ => (some 1, OPUS_OK)
    pad_alloc_buffer := fun _ => GST_FLOW_OK
    opus_decode := fun _ _ _ _ _ => { n := 960, pcm := [] }
    finish_frame := fun _ _ => GST_FLOW_OK }

/-- Collaborators as `env_ok`, but the engine rejects the packet with
`OPUS_INVALID_PACKET` (-4). -/
def env_decode_error : Env :=
  { env_ok with opus_decode := fun _ _ _ _ _ => { n := -4, pcm := [] } }

/-- An element in FEC mode that has not seen a payload packet yet. -/
def dec_fec_fresh : GstOpusDec :=
  { gst_opus_dec_init with use_inband_fec := true }

/-- An element in FEC mode with session 1 at 48000 Hz stereo, primed, holding
`payload_a` as its pending packet. -/
def dec_fec_ready : GstOpusDec :=
  { gst_opus_dec_init with
    state := some 1, sample_rate := 48000, n_channels := 2, use_inband_fec := true,
    last_buffer := some payload_a, primed := true }

/-- An element in FEC mode with session 1 at 48000 Hz stereo, primed, whose
pending packet is absent. -/
def dec_fec_lost : GstOpusDec :=
  { dec_fec_ready with last_buffer := none }

/-- An element to which `ident_packet_312` and `comment_packet` were given
out of band. -/
def dec_oob : GstOpusDec :=
  { gst_opus_dec_init with
    streamheader := some ident_packet_312, vorbiscomment := some comment_packet }

/-- An identification packet of 19 bytes other than `ident_packet_312`: its
pre-skip is 0. -/
def ident_packet_0 : GstBuffer :=
  { data := [79, 112, 117, 115, 72, 101, 97, 100, 1, 2, 0, 0, 128, 187, 0, 0, 0, 0, 0] }

/-- An element with session 1 at 48000 Hz stereo, FEC off, and a skip budget
of 312 samples. -/
def dec_skip_312 : GstOpusDec :=
  { gst_opus_dec_init with
    state := some 1, sample_rate := 48000, n_channels := 2, pre_skip := 312 }

/-- An element with session 1 at 24000 Hz mono, FEC off, and a skip budget of
312 samples. -/
def dec_skip_312_at_24000 : GstOpusDec :=
  { gst_opus_dec_init with
    state := some 1, sample_rate := 24000, n_channels := 1, pre_skip := 312 }

/-- Collaborators as `env_ok`, but the engine decodes the packet to 100
samples. -/
def env_short_frame : Env :=
  { env_ok with opus_decode := fun _ _ _ _ _ => { n := 100, pcm := [] } }

/-- An identification packet of 19 bytes announcing a pre-skip of 313
(bytes 10 and 11 are 57 and 1). -/
def ident_packet_313 : GstBuffer :=
  { data := [79, 112, 117, 115, 72, 101, 97, 100, 1, 1, 57, 1, 128, 187, 0, 0, 0, 0, 0] }

/-- Collaborators of a mono 24000 Hz stream: the peer asks for 1 channel at
24000 Hz, the engine hands out session 1 and decodes every packet to 960
samples, allocation and `finish_frame` answer `GST_FLOW_OK`. -/
def env_24000 : Env :=
  { env_ok with peer_caps := some (some 1, some 24000) }

/-- A `streamheader` array whose identification buffer is `short_ident_packet`
(magic present, 12 bytes) and whose comment buffer is `comment_packet`. -/
def streamheader_short_ident : StreamHeader :=
  StreamHeader.array [GValue.buffer short_ident_packet, GValue.buffer comment_packet]

/-- The text `}{`: a closing brace, then an opening one. -/
def text_close_open : List guint8 := [125, 123]

/-- The text `}a{`. -/
def text_close_a_open : List guint8 := [125, 97, 123]

/-- The text `a{x}b`, one override code between two letters. -/
def text_one_code : List guint8 := [97, 123, 120, 125, 98]

/-! ## Header recognition -/

theorem flow_ok_ne_error : GST_FLOW_OK ≠ GST_FLOW_ERROR := by decide

theorem memcmp_eq_zero_iff (a b : List guint8) (n : Nat) (ha : n ≤ a.length)
    (hb : n ≤ b.length) : memcmp a b n = 0 ↔ a.take n = b.take n := by
  induction n generalizing a b with
  | zero => simp [memcmp]
  | succ k ih =>
    cases a with
    | nil => simp at ha
    | cons x xs =>
      cases b with
      | nil => simp at hb
      | cons y ys =>
        simp only [List.length_cons, Nat.add_le_add_iff_right] at ha hb
        simp only [memcmp, List.take_succ_cons, List.cons.injEq]
        by_cases h1 : x < y
        · simp only [h1, if_true]
          constructor
          · intro h; omega
          · rintro ⟨h, _⟩; subst h; exact absurd h1 (lt_irrefl _)
        · by_cases h2 : y < x
          · simp only [h1, h2, if_true, if_false]
            constructor
            · intro h; omega
            · rintro ⟨h, _⟩; subst h; exact absurd h2 (lt_irrefl _)
          · have hxy : x = y := le_antisymm (not_lt.mp h2) (not_lt.mp h1)
            subst hxy
            simp only [lt_irrefl, if_false, true_and]
            exact ih xs ys ha hb

theorem is_header_iff (buf : GstBuffer) (magic : List guint8) (hm : magic.length = 8) :
    gst_opus_header_is_header buf magic 8 = true ↔
      8 ≤ buf.size ∧ buf.data.take 8 = magic := by
  unfold gst_opus_header_is_header
  simp only [Bool.and_eq_true, decide_eq_true_eq]
  constructor
  · rintro ⟨h8, hc⟩
    refine ⟨h8, ?_⟩
    have := (memcmp_eq_zero_iff magic buf.data 8 (by omega) h8).mp hc
    rw [← this, List.take_of_length_le (by omega)]
  · rintro ⟨h8, ht⟩
    refine ⟨h8, ?_⟩
    apply (memcmp_eq_zero_iff magic buf.data 8 (by omega) h8).mpr
    rw [ht, List.take_of_length_le (by omega)]

theorem memcmp_buffers_iff (buf1 buf2 : GstBuffer) :
    memcmp_buffers buf1 buf2 = true ↔ buf1 = buf2 := by
  unfold memcmp_buffers GstBuffer.size
  by_cases hlen : buf1.data.length = buf2.data.length
  · simp only [hlen, ne_eq, not_true_eq_false, if_false, decide_eq_true_eq]
    rw [← hlen, memcmp_eq_zero_iff buf1.data buf2.data buf1.data.length le_rfl (by omega)]
    rw [List.take_of_length_le le_rfl, List.take_of_length_le (by omega)]
    constructor
    · intro h; cases buf1; cases buf2; simp_all
    · intro h; rw [h]
  · simp only [ne_eq, hlen, not_false_eq_true, if_true]
    constructor
    · intro h; cases h
    · intro h; rw [h] at hlen; exact absurd rfl hlen

/-! ## The paths of `opus_dec_chain_parse_data` -/

theorem setup_from_peer_caps_frame (env : Env) (dec : GstOpusDec) :
    (gst_opus_dec_setup_from_peer_caps env dec).state = dec.state ∧
    (gst_opus_dec_setup_from_peer_caps env dec).packetno = dec.packetno ∧
    (gst_opus_dec_setup_from_peer_caps env dec).streamheader = dec.streamheader ∧
    (gst_opus_dec_setup_from_peer_caps env dec).vorbiscomment = dec.vorbiscomment ∧
    (gst_opus_dec_setup_from_peer_caps env dec).pre_skip = dec.pre_skip ∧
    (gst_opus_dec_setup_from_peer_caps env dec).use_inband_fec = dec.use_inband_fec ∧
    (gst_opus_dec_setup_from_peer_caps env dec).last_buffer = dec.last_buffer ∧
    (gst_opus_dec_setup_from_peer_caps env dec).primed = dec.primed := by
  unfold gst_opus_dec_setup_from_peer_caps
  cases env.peer_caps with
  | none => simp
  | some p => simp

theorem after_session_block_frame (env : Env) (dec : GstOpusDec) :
    (after_session_block env dec).packetno = dec.packetno ∧
    (after_session_block env dec).streamheader = dec.streamheader ∧
    (after_session_block env dec).vorbiscomment = dec.vorbiscomment ∧
    (after_session_block env dec).pre_skip = dec.pre_skip ∧
    (after_session_block env dec).use_inband_fec = dec.use_inband_fec ∧
    (after_session_block env dec).last_buffer = dec.last_buffer ∧
    (after_session_block env dec).primed = dec.primed := by
  have h := setup_from_peer_caps_frame env dec
  unfold after_session_block
  cases dec.state with
  | some s => simp
  | none => simp [h]

theorem after_session_block_state (env : Env) (dec : GstOpusDec) (st : Nat)
    (hs : session_ok env dec st) : (after_session_block env dec).state = some st := by
  unfold session_ok at hs
  unfold after_session_block
  cases hst : dec.state with
  | some s => rw [hst] at hs; simp only at hs; simp [hst, hs]
  | none => rw [hst] at hs; simp only at hs; simp [hs]

theorem chain_of_session_ok (env : Env) (dec : GstOpusDec) (buffer : Option GstBuffer)
    (st : Nat) (hs : session_ok env dec st) :
    opus_dec_chain_parse_data env dec buffer =
      chain_decode env (after_session_block env dec) st buffer (session_trace env dec) := by
  unfold session_ok at hs
  unfold opus_dec_chain_parse_data after_session_block session_trace
  cases hst : dec.state with
  | some s => rw [hst] at hs; simp only at hs; simp [hs]
  | none => rw [hst] at hs; simp only at hs; simp [hs, OPUS_OK]

theorem chain_of_session_failed (env : Env) (dec : GstOpusDec) (buffer : Option GstBuffer)
    (hs : ∀ st, ¬ session_ok env dec st) :
    opus_dec_chain_parse_data env dec buffer =
      { res := GST_FLOW_ERROR, dec := after_session_block env dec,
        trace := session_trace env dec } := by
  unfold opus_dec_chain_parse_data after_session_block session_trace
  cases hst : dec.state with
  | some s => exact absurd (by unfold session_ok; rw [hst]) (hs s)
  | none =>
    simp only
    cases hc : (env.opus_decoder_create
        (gst_opus_dec_setup_from_peer_caps env dec).sample_rate
        (gst_opus_dec_setup_from_peer_caps env dec).n_channels) with
    | mk h err =>
      cases h with
      | none => simp
      | some s =>
        by_cases herr : err = OPUS_OK
        · exact absurd (by unfold session_ok; rw [hst]; simp only; rw [hc, herr]) (hs s)
        · simp [herr]

theorem chain_decode_priming (env : Env) (dec : GstOpusDec) (st : Nat)
    (buffer : Option GstBuffer) (pre : List Event)
    (hfec : dec.use_inband_fec = true) (hprimed : dec.primed = false) :
    chain_decode env dec st buffer pre =
      { res := GST_FLOW_OK, dec := { dec with last_buffer := buffer, primed := true },
        trace := pre } := by
  simp [chain_decode, chain_done, hfec, hprimed]

theorem chain_decode_alloc_failed (env : Env) (dec : GstOpusDec) (st : Nat)
    (buffer : Option GstBuffer) (pre : List Event)
    (hgo : dec.use_inband_fec = false ∨ dec.primed = true)
    (halloc : env.pad_alloc_buffer (packet_size dec) ≠ GST_FLOW_OK) :
    chain_decode env dec st buffer pre =
      { res := env.pad_alloc_buffer (packet_size dec), dec := dec,
        trace := pre ++ [Event.pad_alloc_buffer (packet_size dec)] } := by
  rcases hgo with h | h <;> simp [chain_decode, h, halloc]

theorem chain_decode_error (env : Env) (dec : GstOpusDec) (st : Nat)
    (buffer : Option GstBuffer) (pre : List Event)
    (hgo : dec.use_inband_fec = false ∨ dec.primed = true)
    (halloc : env.pad_alloc_buffer (packet_size dec) = GST_FLOW_OK)
    (hn : (decode_reply env dec st buffer).n < 0) :
    chain_decode env dec st buffer pre =
      { res := GST_FLOW_ERROR, dec := dec,
        trace := pre ++ [Event.pad_alloc_buffer (packet_size dec), decode_call dec st buffer,
          Event.element_error (decode_reply env dec st buffer).n] } := by
  rcases hgo with h | h <;> simp [chain_decode, h, halloc, hn]

theorem chain_decode_finished (env : Env) (dec : GstOpusDec) (st : Nat)
    (buffer : Option GstBuffer) (pre : List Event)
    (hgo : dec.use_inband_fec = false ∨ dec.primed = true)
    (halloc : env.pad_alloc_buffer (packet_size dec) = GST_FLOW_OK)
    (hn : 0 ≤ (decode_reply env dec st buffer).n) :
    chain_decode env dec st buffer pre =
      chain_done
        (skip_samples dec (decode_reply env dec st buffer).n
          { pcm := (decode_reply env dec st buffer).pcm, offset := 0,
            size := to_guint ((decode_reply env dec st buffer).n * 2 * dec.n_channels) }).1
        buffer
        (env.finish_frame
          (skip_samples dec (decode_reply env dec st buffer).n
            { pcm := (decode_reply env dec st buffer).pcm, offset := 0,
              size := to_guint ((decode_reply env dec st buffer).n * 2 * dec.n_channels) }).2 1)
        (pre ++ [Event.pad_alloc_buffer (packet_size dec), decode_call dec st buffer,
          Event.finish_frame
            (skip_samples dec (decode_reply env dec st buffer).n
              { pcm := (decode_reply env dec st buffer).pcm, offset := 0,
                size := to_guint ((decode_reply env dec st buffer).n * 2 * dec.n_channels) }).2
            1]) := by
  have hn2 : ¬ (decode_reply env dec st buffer).n < 0 := by omega
  rcases hgo with h | h <;> simp [chain_decode, h, halloc, hn2]

theorem skip_samples_frame (dec : GstOpusDec) (n : Int) (outbuf : OutBuf) :
    (skip_samples dec n outbuf).1.state = dec.state ∧
    (skip_samples dec n outbuf).1.packetno = dec.packetno ∧
    (skip_samples dec n outbuf).1.streamheader = dec.streamheader ∧
    (skip_samples dec n outbuf).1.vorbiscomment = dec.vorbiscomment ∧
    (skip_samples dec n outbuf).1.sample_rate = dec.sample_rate ∧
    (skip_samples dec n outbuf).1.n_channels = dec.n_channels ∧
    (skip_samples dec n outbuf).1.use_inband_fec = dec.use_inband_fec ∧
    (skip_samples dec n outbuf).1.last_buffer = dec.last_buffer ∧
    (skip_samples dec n outbuf).1.primed = dec.primed := by
  simp only [skip_samples]
  split_ifs <;> simp

theorem chain_done_proj (dec : GstOpusDec) (buffer : Option GstBuffer) (res : GstFlowReturn)
    (trace : List Event) :
    (chain_done dec buffer res trace).res = res ∧
    (chain_done dec buffer res trace).trace = trace ∧
    (chain_done dec buffer res trace).dec.pre_skip = dec.pre_skip ∧
    (chain_done dec buffer res trace).dec.state = dec.state ∧
    (chain_done dec buffer res trace).dec.use_inband_fec = dec.use_inband_fec := by
  unfold chain_done
  split <;> simp

theorem chain_done_fec (dec : GstOpusDec) (buffer : Option GstBuffer) (res : GstFlowReturn)
    (trace : List Event) (hfec : dec.use_inband_fec = true) :
    (chain_done dec buffer res trace).dec.last_buffer = buffer ∧
    (chain_done dec buffer res trace).dec.primed = true := by
  simp [chain_done, hfec]

theorem chain_done_no_fec (dec : GstOpusDec) (buffer : Option GstBuffer) (res : GstFlowReturn)
    (trace : List Event) (hfec : dec.use_inband_fec = false) :
    (chain_done dec buffer res trace).dec = dec := by
  simp [chain_done, hfec]

theorem session_trace_no_decode (env : Env) (dec : GstOpusDec) :
    (session_trace env dec).filter Event.is_decode = [] ∧
    (session_trace env dec).filter Event.is_finish = [] := by
  unfold session_trace
  cases dec.state <;> simp [Event.is_decode, Event.is_finish]

@[simp] theorem is_decode_alloc (size : Nat) :
    (Event.pad_alloc_buffer size).is_decode = false := rfl

@[simp] theorem is_finish_alloc (size : Nat) :
    (Event.pad_alloc_buffer size).is_finish = false := rfl

@[simp] theorem is_decode_error (n : Int) :
    (Event.element_error n).is_decode = false := rfl

@[simp] theorem is_finish_error (n : Int) :
    (Event.element_error n).is_finish = false := rfl

@[simp] theorem is_decode_finish (buf : Option OutBuf) (frames : Int) :
    (Event.finish_frame buf frames).is_decode = false := rfl

@[simp] theorem is_finish_finish (buf : Option OutBuf) (frames : Int) :
    (Event.finish_frame buf frames).is_finish = true := rfl

@[simp] theorem is_decode_create (rate channels : Int) :
    (Event.decoder_create rate channels).is_decode = false := rfl

@[simp] theorem is_finish_create (rate channels : Int) :
    (Event.decoder_create rate channels).is_finish = false := rfl

theorem decode_call_is_decode (dec : GstOpusDec) (st : Nat) (buffer : Option GstBuffer) :
    (decode_call dec st buffer).is_decode = true ∧
    (decode_call dec st buffer).is_finish = false := by
  simp [decode_call, Event.is_decode, Event.is_finish]

/-- The four shapes of the calls `opus_dec_chain_parse_data` makes: the
session block only; then a refused allocation; then a decode that fails; then
a decode followed by `finish_frame`. -/
theorem chain_trace_shape (env : Env) (dec : GstOpusDec) (buffer : Option GstBuffer) :
    (opus_dec_chain_parse_data env dec buffer).trace = session_trace env dec ∨
    (opus_dec_chain_parse_data env dec buffer).trace =
      session_trace env dec ++
        [Event.pad_alloc_buffer (packet_size (after_session_block env dec))] ∨
    ∃ st, session_ok env dec st ∧
      env.pad_alloc_buffer (packet_size (after_session_block env dec)) = GST_FLOW_OK ∧
      ((decode_reply env (after_session_block env dec) st buffer).n < 0 ∧
        (opus_dec_chain_parse_data env dec buffer).trace =
          session_trace env dec ++
            [Event.pad_alloc_buffer (packet_size (after_session_block env dec)),
             decode_call (after_session_block env dec) st buffer,
             Event.element_error (decode_reply env (after_session_block env dec) st buffer).n] ∨
       0 ≤ (decode_reply env (after_session_block env dec) st buffer).n ∧
        (opus_dec_chain_parse_data env dec buffer).trace =
          session_trace env dec ++
            [Event.pad_alloc_buffer (packet_size (after_session_block env dec)),
             decode_call (after_session_block env dec) st buffer,
             Event.finish_frame
              (skip_samples (after_session_block env dec)
                (decode_reply env (after_session_block env dec) st buffer).n
                { pcm := (decode_reply env (after_session_block env dec) st buffer).pcm,
                  offset := 0,
                  size := to_guint ((decode_reply env (after_session_block env dec) st buffer).n
                    * 2 * (after_session_block env dec).n_channels) }).2 1]) := by
  by_cases hex : ∃ st, session_ok env dec st
  · obtain ⟨st, hs⟩ := hex
    rw [chain_of_session_ok env dec buffer st hs]
    by_cases hgo : (after_session_block env dec).use_inband_fec = false ∨
        (after_session_block env dec).primed = true
    · by_cases halloc :
          env.pad_alloc_buffer (packet_size (after_session_block env dec)) = GST_FLOW_OK
      · right; right
        refine ⟨st, hs, halloc, ?_⟩
        by_cases hn : (decode_reply env (after_session_block env dec) st buffer).n < 0
        · left
          exact ⟨hn, by rw [chain_decode_error env _ st buffer _ hgo halloc hn]⟩
        · right
          have hn2 : 0 ≤ (decode_reply env (after_session_block env dec) st buffer).n := by
            omega
          exact ⟨hn2, by
            rw [chain_decode_finished env _ st buffer _ hgo halloc hn2]
            exact (chain_done_proj _ _ _ _).2.1⟩
      · right; left
        rw [chain_decode_alloc_failed env _ st buffer _ hgo halloc]
    · left
      have hfec : (after_session_block env dec).use_inband_fec = true := by
        cases h : (after_session_block env dec).use_inband_fec
        · exact absurd (Or.inl h) hgo
        · rfl
      have hprimed : (after_session_block env dec).primed = false := by
        cases h : (after_session_block env dec).primed
        · rfl
        · exact absurd (Or.inr h) hgo
      rw [chain_decode_priming env _ st buffer _ hfec hprimed]
  · left
    rw [chain_of_session_failed env dec buffer (fun st h => hex ⟨st, h⟩)]

theorem session_ok_unique (env : Env) (dec : GstOpusDec) (st st2 : Nat)
    (h1 : session_ok env dec st) (h2 : session_ok env dec st2) : st = st2 := by
  have a := after_session_block_state env dec st h1
  have b := after_session_block_state env dec st2 h2
  rw [a] at b
  exact Option.some.inj b

theorem mem_session_trace (env : Env) (dec : GstOpusDec) (e : Event)
    (he : e ∈ session_trace env dec) : e.is_decode = false ∧ e.is_finish = false := by
  unfold session_trace at he
  cases hst : dec.state with
  | some s => rw [hst] at he; simp at he
  | none =>
    rw [hst] at he
    simp only [List.mem_singleton] at he
    subst he
    simp [Event.is_decode, Event.is_finish]

/-- The frame handed to `finish_frame` after a decode that answered `reply`:
the output buffer of `reply.n * 2 * n_channels` bytes, trimmed. -/
theorem chain_decode_calls (env : Env) (dec : GstOpusDec) (buffer : Option GstBuffer)
    (hgo : dec.use_inband_fec = false ∨ dec.primed = true) :
    (∀ e ∈ (opus_dec_chain_parse_data env dec buffer).trace, e.is_decode = true →
      ∃ st, session_ok env dec st ∧ e = decode_call (after_session_block env dec) st buffer) ∧
    (∀ st, session_ok env dec st →
      env.pad_alloc_buffer (packet_size (after_session_block env dec)) = GST_FLOW_OK →
      (opus_dec_chain_parse_data env dec buffer).trace.filter Event.is_decode =
        [decode_call (after_session_block env dec) st buffer] ∧
      ((decode_reply env (after_session_block env dec) st buffer).n < 0 →
        (opus_dec_chain_parse_data env dec buffer).trace.filter Event.is_finish = []) ∧
      (0 ≤ (decode_reply env (after_session_block env dec) st buffer).n →
        (opus_dec_chain_parse_data env dec buffer).trace.filter Event.is_finish =
          [Event.finish_frame
            (skip_samples (after_session_block env dec)
              (decode_reply env (after_session_block env dec) st buffer).n
              { pcm := (decode_reply env (after_session_block env dec) st buffer).pcm,
                offset := 0,
                size := to_guint ((decode_reply env (after_session_block env dec) st buffer).n
                  * 2 * (after_session_block env dec).n_channels) }).2 1])) := by
  have hfr := after_session_block_frame env dec
  have hgo2 : (after_session_block env dec).use_inband_fec = false ∨
      (after_session_block env dec).primed = true := by
    rw [hfr.2.2.2.2.1, hfr.2.2.2.2.2.2]; exact hgo
  have hst := session_trace_no_decode env dec
  by_cases hex : ∃ st, session_ok env dec st
  · obtain ⟨st, hs⟩ := hex
    rw [chain_of_session_ok env dec buffer st hs]
    by_cases halloc :
        env.pad_alloc_buffer (packet_size (after_session_block env dec)) = GST_FLOW_OK
    · by_cases hn : (decode_reply env (after_session_block env dec) st buffer).n < 0
      · rw [chain_decode_error env _ st buffer _ hgo2 halloc hn]
        constructor
        · intro e he hd
          simp only [List.mem_append, List.mem_cons, List.mem_singleton, List.not_mem_nil,
            or_false] at he
          rcases he with he | he | he | he
          · rw [(mem_session_trace env dec e he).1] at hd; cases hd
          · subst he; simp at hd
          · exact ⟨st, hs, he⟩
          · subst he; simp at hd
        · intro st2 hs2 _
          have := session_ok_unique env dec st st2 hs hs2
          subst this
          refine ⟨?_, ?_, ?_⟩
          · simp [List.filter_append, hst.1, List.filter_cons,
              (decode_call_is_decode _ st buffer).1]
          · intro _
            simp [List.filter_append, hst.2, List.filter_cons,
              (decode_call_is_decode _ st buffer).2]
          · intro h; omega
      · have hn2 : 0 ≤ (decode_reply env (after_session_block env dec) st buffer).n := by
          omega
        rw [chain_decode_finished env _ st buffer _ hgo2 halloc hn2, (chain_done_proj _ _ _ _).2.1]
        constructor
        · intro e he hd
          simp only [List.mem_append, List.mem_cons, List.mem_singleton, List.not_mem_nil,
            or_false] at he
          rcases he with he | he | he | he
          · rw [(mem_session_trace env dec e he).1] at hd; cases hd
          · subst he; simp at hd
          · exact ⟨st, hs, he⟩
          · subst he; simp at hd
        · intro st2 hs2 _
          have := session_ok_unique env dec st st2 hs hs2
          subst this
          refine ⟨?_, ?_, ?_⟩
          · simp [List.filter_append, hst.1, List.filter_cons,
              (decode_call_is_decode _ st buffer).1]
          · intro h; omega
          · intro _
            simp [List.filter_append, hst.2, List.filter_cons,
              (decode_call_is_decode _ st buffer).2]
    · rw [chain_decode_alloc_failed env _ st buffer _ hgo2 halloc]
      constructor
      · intro e he hd
        simp only [List.mem_append, List.mem_singleton] at he
        rcases he with he | he
        · rw [(mem_session_trace env dec e he).1] at hd; cases hd
        · subst he; simp at hd
      · intro st2 _ h; exact absurd h halloc
  · rw [chain_of_session_failed env dec buffer (fun st h => hex ⟨st, h⟩)]
    constructor
    · intro e he hd
      rw [(mem_session_trace env dec e he).1] at hd; cases hd
    · intro st hs; exact absurd ⟨st, hs⟩ hex

theorem decode_call_fec_pending (env : Env) (dec : GstOpusDec) (st : Nat)
    (buffer : Option GstBuffer) (last : GstBuffer) (hfec : dec.use_inband_fec = true)
    (hlast : dec.last_buffer = some last) :
    decode_call dec st buffer =
      Event.opus_decode st (some last.data) (last.size : Int) (frame_samples dec) 0 ∧
    decode_reply env dec st buffer =
      env.opus_decode st (some last.data) (last.size : Int) (frame_samples dec) 0 := by
  simp [decode_call, decode_reply, decode_buffer, decode_data, decode_fec, hfec, hlast]

theorem decode_call_fec_lost (env : Env) (dec : GstOpusDec) (st : Nat) (b : GstBuffer)
    (hfec : dec.use_inband_fec = true) (hlast : dec.last_buffer = none) :
    decode_call dec st (some b) =
      Event.opus_decode st (some b.data) (b.size : Int) (frame_samples dec) 1 ∧
    decode_reply env dec st (some b) =
      env.opus_decode st (some b.data) (b.size : Int) (frame_samples dec) 1 := by
  simp [decode_call, decode_reply, decode_buffer, decode_data, decode_fec, hfec, hlast]

theorem chain_finish_needs_decode (env : Env) (dec : GstOpusDec) (buffer : Option GstBuffer)
    (e : Event) (he : e ∈ (opus_dec_chain_parse_data env dec buffer).trace)
    (hf : e.is_finish = true) :
    ∃ e2 ∈ (opus_dec_chain_parse_data env dec buffer).trace, e2.is_decode = true := by
  rcases chain_trace_shape env dec buffer with h | h | ⟨st, _, _, h | h⟩
  · rw [h] at he
    rw [(mem_session_trace env dec e he).2] at hf; cases hf
  · rw [h] at he
    simp only [List.mem_append, List.mem_singleton] at he
    rcases he with he | he
    · rw [(mem_session_trace env dec e he).2] at hf; cases hf
    · subst he; simp at hf
  · rw [h.2]
    exact ⟨decode_call (after_session_block env dec) st buffer, by simp,
      (decode_call_is_decode _ st buffer).1⟩
  · rw [h.2]
    exact ⟨decode_call (after_session_block env dec) st buffer, by simp,
      (decode_call_is_decode _ st buffer).1⟩

theorem packetno_incr_proj (r : Outcome) :
    (packetno_incr r).res = r.res ∧ (packetno_incr r).trace = r.trace ∧
    (packetno_incr r).dec.packetno = (r.dec.packetno + 1) % 18446744073709551616 := by
  simp [packetno_incr]

/-- A packet handled as a header packet is told from one sent to the decode
scheduler by the calls made: a `NULL` frame finished and no engine call. -/
theorem header_handling_observable (env : Env) (dec : GstOpusDec) (b : GstBuffer)
    (r : Outcome) (hr : r.trace = [Event.finish_frame none 1]) :
    ((∀ e ∈ (packetno_incr r).trace, e.is_decode = false) ∧
      Event.finish_frame none 1 ∈ (packetno_incr r).trace) ∧
    ¬ ((∀ e ∈ (packetno_incr (opus_dec_chain_parse_data env dec (some b))).trace,
          e.is_decode = false) ∧
      Event.finish_frame none 1 ∈
        (packetno_incr (opus_dec_chain_parse_data env dec (some b))).trace) := by
  constructor
  · simp [packetno_incr, hr]
  · rw [(packetno_incr_proj _).2.1]
    rintro ⟨hnd, hfin⟩
    obtain ⟨e2, he2, hd⟩ := chain_finish_needs_decode env dec (some b) _ hfin rfl
    rw [hnd e2 he2] at hd
    cases hd

/-! ## Arithmetic of the pre-skip trimmer -/

theorem to_guint_natCast (k : Nat) (hk : k < 4294967296) : to_guint (k : Int) = k := by
  unfold to_guint
  omega

theorem allowed_rate_bounds (R : Nat) (hR : R ∈ [8000, 12000, 16000, 24000, 48000]) :
    8000 ≤ R ∧ R ≤ 48000 := by
  simp only [List.mem_cons, List.mem_singleton, List.not_mem_nil, or_false] at hR
  omega

/-- The amount one trim step takes from the budget never exceeds the budget
(exact arithmetic). -/
theorem rescaled_skip_le (B R m : Nat) :
    min m (B * R / 48000) * 48000 / R ≤ B := by
  apply Nat.div_le_of_le_mul
  calc min m (B * R / 48000) * 48000
      ≤ B * R / 48000 * 48000 := Nat.mul_le_mul_right _ (min_le_right _ _)
    _ ≤ B * R := Nat.div_mul_le_self _ _
    _ = R * B := Nat.mul_comm _ _

/-- The locals of the trimmer block, for a budget within the 16 bits
`gst_opus_dec_parse_header` stores, an allowed rate and a decoded count whose
byte size fits an `int`: the `guint` computations are the exact ones. -/
theorem trimmer_values (d : GstOpusDec) (B R c m : Nat) (hB : d.pre_skip = B)
    (hB16 : B ≤ 65535) (hR : d.sample_rate = (R : Int))
    (hRa : R ∈ [8000, 12000, 16000, 24000, 48000]) (hc : d.n_channels = (c : Int))
    (hc1 : 1 ≤ c) (hrep : m * 2 * c < 2147483648) :
    scaled_pre_skip d = B * R / 48000 ∧
    skip d (m : Int) = min m (B * R / 48000) ∧
    scaled_skip d (m : Int) = min m (B * R / 48000) * 48000 / R ∧
    skip_bytes d (m : Int) = min m (B * R / 48000) * 2 * c ∧
    to_guint ((m : Int) * 2 * d.n_channels) = m * 2 * c := by
  have hRb := allowed_rate_bounds R hRa
  have hBR : B * R ≤ 65535 * 48000 := Nat.mul_le_mul hB16 hRb.2
  have hm2 : m * 2 * 1 ≤ m * 2 * c := Nat.mul_le_mul_left _ hc1
  have hc2 : 1 * c ≤ m * 2 * c ∨ m = 0 := by
    by_cases hm0 : m = 0
    · right; exact hm0
    · left; exact Nat.mul_le_mul_right _ (by omega)
  have hgR : to_guint d.sample_rate = R := by rw [hR]; exact to_guint_natCast R (by omega)
  have hgm : to_guint (m : Int) = m := to_guint_natCast m (by omega)
  have h1 : scaled_pre_skip d = B * R / 48000 := by
    unfold scaled_pre_skip
    rw [hgR, hB, Nat.mod_eq_of_lt (by omega)]
  have h2 : skip d (m : Int) = min m (B * R / 48000) := by
    unfold skip
    rw [h1, hgm]
    split_ifs with h
    · exact (min_eq_left (le_of_lt h)).symm
    · exact (min_eq_right (not_lt.mp h)).symm
  have hsk : min m (B * R / 48000) * 48000 ≤ B * R :=
    le_trans (Nat.mul_le_mul_right _ (min_le_right _ _)) (Nat.div_mul_le_self _ _)
  have hskm : min m (B * R / 48000) ≤ m := min_le_left _ _
  have hbytes : min m (B * R / 48000) * 2 * c ≤ m * 2 * c :=
    Nat.mul_le_mul_right _ (Nat.mul_le_mul_right _ hskm)
  refine ⟨h1, h2, ?_, ?_, ?_⟩
  · unfold scaled_skip
    rw [h2, hgR, Nat.mod_eq_of_lt (by omega)]
  · unfold skip_bytes
    rcases hc2 with hcm | hm0
    · have hi : min m (B * R / 48000) * 2 % 4294967296 = min m (B * R / 48000) * 2 :=
        Nat.mod_eq_of_lt (by omega)
      rw [h2, hc, to_guint_natCast c (by omega), hi]
      exact Nat.mod_eq_of_lt (by omega)
    · subst hm0
      rw [h2]
      simp
  · rw [hc]
    have : ((m : Int) * 2 * (c : Int)) = ((m * 2 * c : Nat) : Int) := by push_cast; ring
    rw [this]
    exact to_guint_natCast _ (by omega)

/-- The trimmer block on a fresh output buffer, under the conditions of
`trimmer_values` and with budget left. -/
theorem skip_samples_exact (d : GstOpusDec) (B R c m : Nat) (pcm : List Int)
    (hB : d.pre_skip = B) (hB0 : 0 < B)
    (hB16 : B ≤ 65535) (hR : d.sample_rate = (R : Int))
    (hRa : R ∈ [8000, 12000, 16000, 24000, 48000]) (hc : d.n_channels = (c : Int))
    (hc1 : 1 ≤ c) (hrep : m * 2 * c < 2147483648) :
    skip_samples d (m : Int)
        { pcm := pcm, offset := 0, size := to_guint ((m : Int) * 2 * d.n_channels) } =
      ({ d with pre_skip := B - min m (B * R / 48000) * 48000 / R },
       if (m - min m (B * R / 48000)) * 2 * c = 0 then none
       else some { pcm := pcm, offset := min m (B * R / 48000) * 2 * c,
                   size := (m - min m (B * R / 48000)) * 2 * c }) := by
  obtain ⟨_, _, h3, h4, h5⟩ := trimmer_values d B R c m hB hB16 hR hRa hc hc1 hrep
  have hle := rescaled_skip_le B R m
  have hskm : min m (B * R / 48000) ≤ m := min_le_left _ _
  have hbytes : min m (B * R / 48000) * 2 * c ≤ m * 2 * c :=
    Nat.mul_le_mul_right _ (Nat.mul_le_mul_right _ hskm)
  have hsub : (m - min m (B * R / 48000)) * 2 * c =
      m * 2 * c - min m (B * R / 48000) * 2 * c := by
    rw [Nat.sub_mul, Nat.sub_mul]
  have hsize : (m * 2 * c + 4294967296 - min m (B * R / 48000) * 2 * c) % 4294967296 =
      (m - min m (B * R / 48000)) * 2 * c := by
    rw [hsub]; omega
  have hpre : (B + 4294967296 - min m (B * R / 48000) * 48000 / R) % 4294967296 =
      B - min m (B * R / 48000) * 48000 / R := by omega
  have hpos : 0 < d.pre_skip := by rw [hB]; exact hB0
  simp only [skip_samples, hpos, if_true, h3, h4, h5, hsize, hpre, hB, Nat.zero_add]
  split_ifs <;> rfl

/-- Whatever the decoded count, the `guint` amount the trimmer takes from a
`guint32` budget does not exceed it, so the subtraction does not wrap. -/
theorem scaled_skip_le_budget (d : GstOpusDec) (n : Int) (R : Nat)
    (hR : d.sample_rate = (R : Int)) (hRa : R ∈ [8000, 12000, 16000, 24000, 48000]) :
    scaled_skip d n ≤ d.pre_skip := by
  have hRb := allowed_rate_bounds R hRa
  have hgR : to_guint d.sample_rate = R := by rw [hR]; exact to_guint_natCast R (by omega)
  have h1 : skip d n ≤ scaled_pre_skip d := by
    unfold skip
    split_ifs with h
    · exact le_of_lt h
    · exact le_rfl
  have h2 : scaled_pre_skip d * 48000 ≤ d.pre_skip * R % 4294967296 := by
    unfold scaled_pre_skip
    rw [hgR]
    exact Nat.div_mul_le_self _ _
  have h3 : d.pre_skip * R % 4294967296 < 4294967296 := Nat.mod_lt _ (by omega)
  have h4 : skip d n * 48000 ≤ d.pre_skip * R % 4294967296 :=
    le_trans (Nat.mul_le_mul_right _ h1) h2
  unfold scaled_skip
  rw [hgR, Nat.mod_eq_of_lt (by omega)]
  apply Nat.div_le_of_le_mul
  calc skip d n * 48000 ≤ d.pre_skip * R % 4294967296 := h4
    _ ≤ d.pre_skip * R := Nat.mod_le _ _
    _ = R * d.pre_skip := Nat.mul_comm _ _

/-- The bound of `scaled_skip_le_budget` for any value of `sample_rate`. -/
theorem scaled_skip_le_any (d : GstOpusDec) (n : Int) : scaled_skip d n ≤ d.pre_skip := by
  have h1 : skip d n ≤ scaled_pre_skip d := by
    unfold skip
    split_ifs with h
    · exact le_of_lt h
    · exact le_rfl
  have h2 : scaled_pre_skip d * 48000 ≤ d.pre_skip * to_guint d.sample_rate % 4294967296 := by
    unfold scaled_pre_skip
    exact Nat.div_mul_le_self _ _
  have h3 : d.pre_skip * to_guint d.sample_rate % 4294967296 < 4294967296 :=
    Nat.mod_lt _ (by omega)
  have h4 : skip d n * 48000 ≤ d.pre_skip * to_guint d.sample_rate % 4294967296 :=
    le_trans (Nat.mul_le_mul_right _ h1) h2
  unfold scaled_skip
  rw [Nat.mod_eq_of_lt (by omega)]
  by_cases hr : to_guint d.sample_rate = 0
  · rw [hr, Nat.div_zero]; exact Nat.zero_le _
  · apply Nat.div_le_of_le_mul
    calc skip d n * 48000 ≤ d.pre_skip * to_guint d.sample_rate % 4294967296 := h4
      _ ≤ d.pre_skip * to_guint d.sample_rate := Nat.mod_le _ _
      _ = to_guint d.sample_rate * d.pre_skip := Nat.mul_comm _ _

theorem skip_samples_pre_skip (d : GstOpusDec) (n : Int) (outbuf : OutBuf) :
    (skip_samples d n outbuf).1.pre_skip =
      if 0 < d.pre_skip then (d.pre_skip + 4294967296 - scaled_skip d n) % 4294967296
      else d.pre_skip := by
  simp only [skip_samples]
  split_ifs <;> rfl

theorem skip_samples_zero (d : GstOpusDec) (n : Int) (outbuf : OutBuf)
    (h0 : d.pre_skip = 0) : skip_samples d n outbuf = (d, some outbuf) := by
  simp [skip_samples, h0]

/-- The skip budget after `opus_dec_chain_parse_data` is the one before, or
the one the trimmer block leaves. -/
theorem chain_pre_skip (env : Env) (dec : GstOpusDec) (buffer : Option GstBuffer) :
    (opus_dec_chain_parse_data env dec buffer).dec.pre_skip = dec.pre_skip ∨
    ∃ n outbuf, (opus_dec_chain_parse_data env dec buffer).dec.pre_skip =
      (skip_samples (after_session_block env dec) n outbuf).1.pre_skip := by
  have hfr := after_session_block_frame env dec
  by_cases hex : ∃ st, session_ok env dec st
  · obtain ⟨st, hs⟩ := hex
    rw [chain_of_session_ok env dec buffer st hs]
    by_cases hgo : (after_session_block env dec).use_inband_fec = false ∨
        (after_session_block env dec).primed = true
    · by_cases halloc :
          env.pad_alloc_buffer (packet_size (after_session_block env dec)) = GST_FLOW_OK
      · by_cases hn : (decode_reply env (after_session_block env dec) st buffer).n < 0
        · left
          rw [chain_decode_error env _ st buffer _ hgo halloc hn]
          exact hfr.2.2.2.1
        · right
          rw [chain_decode_finished env _ st buffer _ hgo halloc (by omega),
            (chain_done_proj _ _ _ _).2.2.1]
          exact ⟨_, _, rfl⟩
      · left
        rw [chain_decode_alloc_failed env _ st buffer _ hgo halloc]
        exact hfr.2.2.2.1
    · left
      have hfec : (after_session_block env dec).use_inband_fec = true := by
        cases h : (after_session_block env dec).use_inband_fec
        · exact absurd (Or.inl h) hgo
        · rfl
      have hprimed : (after_session_block env dec).primed = false := by
        cases h : (after_session_block env dec).primed
        · rfl
        · exact absurd (Or.inr h) hgo
      rw [chain_decode_priming env _ st buffer _ hfec hprimed]
      exact hfr.2.2.2.1
  · left
    rw [chain_of_session_failed env dec buffer (fun st h => hex ⟨st, h⟩)]
    exact hfr.2.2.2.1

/-- A skip budget that fits a `guint32` is never raised by
`opus_dec_chain_parse_data`. -/
theorem chain_pre_skip_le (env : Env) (dec : GstOpusDec) (buffer : Option GstBuffer)
    (h32 : dec.pre_skip < 4294967296) :
    (opus_dec_chain_parse_data env dec buffer).dec.pre_skip ≤ dec.pre_skip := by
  rcases chain_pre_skip env dec buffer with h | ⟨n, outbuf, h⟩
  · rw [h]
  · have hd : (after_session_block env dec).pre_skip = dec.pre_skip :=
      (after_session_block_frame env dec).2.2.2.1
    have hle := scaled_skip_le_any (after_session_block env dec) n
    rw [h, skip_samples_pre_skip, hd]
    rw [hd] at hle
    split_ifs <;> omega

/-- The skip budget `gst_opus_dec_parse_header` leaves fits 16 bits when the
one before did. -/
theorem parse_header_pre_skip_range (dec : GstOpusDec) (buf : GstBuffer)
    (h16 : dec.pre_skip ≤ 65535) : (gst_opus_dec_parse_header dec buf).dec.pre_skip ≤ 65535 := by
  unfold gst_opus_dec_parse_header
  split_ifs
  · exact h16
  · exact h16
  · have h10 := (buf.data.getD 10 0).isLt
    have h11 := (buf.data.getD (10 + 1) 0).isLt
    simp only [GST_READ_UINT16_LE]
    omega

/-- The skip budget fits 16 bits after `gst_opus_dec_handle_frame` when it
did before. -/
theorem handle_frame_pre_skip_range (env : Env) (dec : GstOpusDec) (buf : Option GstBuffer)
    (h16 : dec.pre_skip ≤ 65535) :
    (gst_opus_dec_handle_frame env dec buf).dec.pre_skip ≤ 65535 := by
  have hchain : ∀ b, (opus_dec_chain_parse_data env dec b).dec.pre_skip ≤ 65535 :=
    fun b => le_trans (chain_pre_skip_le env dec b (by omega)) h16
  cases buf with
  | none => exact h16
  | some b =>
    simp only [gst_opus_dec_handle_frame, packetno_incr, handle_frame_dispatch]
    split
    · split_ifs
      · exact h16
      · exact h16
      · exact hchain _
    · split
      · split_ifs
        · exact parse_header_pre_skip_range dec b h16
        · exact hchain _
      · split_ifs
        · exact h16
        · exact hchain _
      · exact hchain _

theorem chain_run_pre_skip_zero (dec : GstOpusDec) (calls : List (Env × Option GstBuffer))
    (h0 : dec.pre_skip = 0) : (chain_run dec calls).pre_skip = 0 := by
  induction calls generalizing dec with
  | nil => exact h0
  | cons call rest ih =>
    obtain ⟨env, buffer⟩ := call
    simp only [chain_run]
    apply ih
    rcases chain_pre_skip env dec buffer with h | ⟨n, outbuf, h⟩
    · rw [h, h0]
    · have hd : (after_session_block env dec).pre_skip = 0 := by
        rw [(after_session_block_frame env dec).2.2.2.1]; exact h0
      rw [h, skip_samples_zero _ n outbuf hd]
      exact hd

/-! ## What a decode cycle leaves of the element -/

theorem chain_done_frame (dec : GstOpusDec) (buffer : Option GstBuffer) (res : GstFlowReturn)
    (trace : List Event) :
    (chain_done dec buffer res trace).dec.state = dec.state ∧
    (chain_done dec buffer res trace).dec.packetno = dec.packetno ∧
    (chain_done dec buffer res trace).dec.streamheader = dec.streamheader ∧
    (chain_done dec buffer res trace).dec.vorbiscomment = dec.vorbiscomment ∧
    (chain_done dec buffer res trace).dec.sample_rate = dec.sample_rate ∧
    (chain_done dec buffer res trace).dec.n_channels = dec.n_channels ∧
    (chain_done dec buffer res trace).dec.use_inband_fec = dec.use_inband_fec := by
  unfold chain_done
  split <;> simp

/-- The fields `opus_dec_chain_parse_data` leaves as the session block left
them, on every path. -/
theorem chain_fields (env : Env) (dec : GstOpusDec) (buffer : Option GstBuffer) :
    (opus_dec_chain_parse_data env dec buffer).dec.state =
      (after_session_block env dec).state ∧
    (opus_dec_chain_parse_data env dec buffer).dec.sample_rate =
      (after_session_block env dec).sample_rate ∧
    (opus_dec_chain_parse_data env dec buffer).dec.n_channels =
      (after_session_block env dec).n_channels ∧
    (opus_dec_chain_parse_data env dec buffer).dec.packetno = dec.packetno ∧
    (opus_dec_chain_parse_data env dec buffer).dec.streamheader = dec.streamheader ∧
    (opus_dec_chain_parse_data env dec buffer).dec.vorbiscomment = dec.vorbiscomment ∧
    (opus_dec_chain_parse_data env dec buffer).dec.use_inband_fec = dec.use_inband_fec := by
  have hfr := after_session_block_frame env dec
  by_cases hex : ∃ st, session_ok env dec st
  · obtain ⟨st, hs⟩ := hex
    rw [chain_of_session_ok env dec buffer st hs]
    by_cases hgo : (after_session_block env dec).use_inband_fec = false ∨
        (after_session_block env dec).primed = true
    · by_cases halloc :
          env.pad_alloc_buffer (packet_size (after_session_block env dec)) = GST_FLOW_OK
      · by_cases hn : (decode_reply env (after_session_block env dec) st buffer).n < 0
        · rw [chain_decode_error env _ st buffer _ hgo halloc hn]
          exact ⟨rfl, rfl, rfl, hfr.1, hfr.2.1, hfr.2.2.1, hfr.2.2.2.2.1⟩
        · rw [chain_decode_finished env _ st buffer _ hgo halloc (by omega)]
          have hd := chain_done_frame
            (skip_samples (after_session_block env dec)
              (decode_reply env (after_session_block env dec) st buffer).n
              { pcm := (decode_reply env (after_session_block env dec) st buffer).pcm,
                offset := 0,
                size := to_guint ((decode_reply env (after_session_block env dec) st buffer).n
                  * 2 * (after_session_block env dec).n_channels) }).1
            buffer
            (env.finish_frame
              (skip_samples (after_session_block env dec)
                (decode_reply env (after_session_block env dec) st buffer).n
                { pcm := (decode_reply env (after_session_block env dec) st buffer).pcm,
                  offset := 0,
                  size := to_guint ((decode_reply env (after_session_block env dec) st
                    buffer).n * 2 * (after_session_block env dec).n_channels) }).2 1)
            (session_trace env dec ++
              [Event.pad_alloc_buffer (packet_size (after_session_block env dec)),
               decode_call (after_session_block env dec) st buffer,
               Event.finish_frame
                (skip_samples (after_session_block env dec)
                  (decode_reply env (after_session_block env dec) st buffer).n
                  { pcm := (decode_reply env (after_session_block env dec) st buffer).pcm,
                    offset := 0,
                    size := to_guint ((decode_reply env (after_session_block env dec) st
                      buffer).n * 2 * (after_session_block env dec).n_channels) }).2 1])
          have hsk := skip_samples_frame (after_session_block env dec)
            (decode_reply env (after_session_block env dec) st buffer).n
            { pcm := (decode_reply env (after_session_block env dec) st buffer).pcm,
              offset := 0,
              size := to_guint ((decode_reply env (after_session_block env dec) st buffer).n
                * 2 * (after_session_block env dec).n_channels) }
          refine ⟨hd.1.trans hsk.1, hd.2.2.2.2.1.trans hsk.2.2.2.2.1,
            hd.2.2.2.2.2.1.trans hsk.2.2.2.2.2.1, (hd.2.1.trans hsk.2.1).trans hfr.1,
            (hd.2.2.1.trans hsk.2.2.1).trans hfr.2.1,
            (hd.2.2.2.1.trans hsk.2.2.2.1).trans hfr.2.2.1,
            (hd.2.2.2.2.2.2.trans hsk.2.2.2.2.2.2.1).trans hfr.2.2.2.2.1⟩
      · rw [chain_decode_alloc_failed env _ st buffer _ hgo halloc]
        exact ⟨rfl, rfl, rfl, hfr.1, hfr.2.1, hfr.2.2.1, hfr.2.2.2.2.1⟩
    · have hfec : (after_session_block env dec).use_inband_fec = true := by
        cases h : (after_session_block env dec).use_inband_fec
        · exact absurd (Or.inl h) hgo
        · rfl
      have hprimed : (after_session_block env dec).primed = false := by
        cases h : (after_session_block env dec).primed
        · rfl
        · exact absurd (Or.inr h) hgo
      rw [chain_decode_priming env _ st buffer _ hfec hprimed]
      exact ⟨rfl, rfl, rfl, hfr.1, hfr.2.1, hfr.2.2.1, hfr.2.2.2.2.1⟩
  · rw [chain_of_session_failed env dec buffer (fun st h => hex ⟨st, h⟩)]
    exact ⟨rfl, rfl, rfl, hfr.1, hfr.2.1, hfr.2.2.1, hfr.2.2.2.2.1⟩

/-- With FEC off, `opus_dec_chain_parse_data` leaves `last_buffer` and
`primed` alone on every path. -/
theorem chain_no_fec_buffers (env : Env) (dec : GstOpusDec) (buffer : Option GstBuffer)
    (hfec : dec.use_inband_fec = false) :
    (opus_dec_chain_parse_data env dec buffer).dec.last_buffer = dec.last_buffer ∧
    (opus_dec_chain_parse_data env dec buffer).dec.primed = dec.primed := by
  have hfr := after_session_block_frame env dec
  have hfec2 : (after_session_block env dec).use_inband_fec = false := by
    rw [hfr.2.2.2.2.1]; exact hfec
  by_cases hex : ∃ st, session_ok env dec st
  · obtain ⟨st, hs⟩ := hex
    rw [chain_of_session_ok env dec buffer st hs]
    by_cases halloc :
        env.pad_alloc_buffer (packet_size (after_session_block env dec)) = GST_FLOW_OK
    · by_cases hn : (decode_reply env (after_session_block env dec) st buffer).n < 0
      · rw [chain_decode_error env _ st buffer _ (Or.inl hfec2) halloc hn]
        exact ⟨hfr.2.2.2.2.2.1, hfr.2.2.2.2.2.2⟩
      · rw [chain_decode_finished env _ st buffer _ (Or.inl hfec2) halloc (by omega)]
        rw [chain_done_no_fec _ _ _ _
          (by rw [(skip_samples_frame _ _ _).2.2.2.2.2.2.1]; exact hfec2)]
        exact ⟨((skip_samples_frame _ _ _).2.2.2.2.2.2.2.1).trans hfr.2.2.2.2.2.1,
          ((skip_samples_frame _ _ _).2.2.2.2.2.2.2.2).trans hfr.2.2.2.2.2.2⟩
    · rw [chain_decode_alloc_failed env _ st buffer _ (Or.inl hfec2) halloc]
      exact ⟨hfr.2.2.2.2.2.1, hfr.2.2.2.2.2.2⟩
  · rw [chain_of_session_failed env dec buffer (fun st h => hex ⟨st, h⟩)]
    exact ⟨hfr.2.2.2.2.2.1, hfr.2.2.2.2.2.2⟩

/-- The element with a session present: the session block leaves it alone
and makes no call. -/
theorem session_present (env : Env) (dec : GstOpusDec) (st : Nat) (hst : dec.state = some st) :
    after_session_block env dec = dec ∧ session_trace env dec = [] ∧ session_ok env dec st := by
  unfold after_session_block session_trace session_ok
  rw [hst]
  exact ⟨rfl, rfl, rfl⟩

theorem decode_call_handle (dec : GstOpusDec) (st : Nat) (buffer : Option GstBuffer) :
    ∃ data len frame_size fec, decode_call dec st buffer =
      Event.opus_decode st data len frame_size fec :=
  ⟨_, _, _, _, rfl⟩

/-- With session `st` present, `opus_dec_chain_parse_data` keeps it, creates
none, and passes `st` to every engine call. -/
theorem chain_with_session (env : Env) (dec : GstOpusDec) (buffer : Option GstBuffer)
    (st : Nat) (hst : dec.state = some st) :
    (opus_dec_chain_parse_data env dec buffer).dec.state = some st ∧
    (opus_dec_chain_parse_data env dec buffer).trace.filter Event.is_create = [] ∧
    (∀ e ∈ (opus_dec_chain_parse_data env dec buffer).trace, e.is_decode = true →
      ∃ data len frame_size fec, e = Event.opus_decode st data len frame_size fec) := by
  obtain ⟨h1, h2, h3⟩ := session_present env dec st hst
  refine ⟨?_, ?_, ?_⟩
  · rw [(chain_fields env dec buffer).1, h1, hst]
  · rcases chain_trace_shape env dec buffer with h | h | ⟨s2, _, _, h | h⟩
    · rw [h, h2]; rfl
    · rw [h, h2]; rfl
    · rw [h.2, h2]
      obtain ⟨a, b, c, d, hd⟩ := decode_call_handle (after_session_block env dec) s2 buffer
      rw [hd]; rfl
    · rw [h.2, h2]
      obtain ⟨a, b, c, d, hd⟩ := decode_call_handle (after_session_block env dec) s2 buffer
      rw [hd]; rfl
  · intro e he hd
    by_cases hgo : dec.use_inband_fec = false ∨ dec.primed = true
    · obtain ⟨s2, hs2, hcall⟩ := (chain_decode_calls env dec buffer hgo).1 e he hd
      have := session_ok_unique env dec st s2 h3 hs2
      subst this
      rw [hcall]
      exact decode_call_handle _ _ _
    · have hfec : dec.use_inband_fec = true := by
        cases h : dec.use_inband_fec
        · exact absurd (Or.inl h) hgo
        · rfl
      have hprimed : dec.primed = false := by
        cases h : dec.primed
        · rfl
        · exact absurd (Or.inr h) hgo
      rw [chain_of_session_ok env dec buffer st h3, h1,
        chain_decode_priming env dec st buffer _ hfec hprimed, h2] at he
      cases he

@[simp] theorem is_create_alloc (size : Nat) :
    (Event.pad_alloc_buffer size).is_create = false := rfl

@[simp] theorem is_create_error (n : Int) :
    (Event.element_error n).is_create = false := rfl

@[simp] theorem is_create_finish (buf : Option OutBuf) (frames : Int) :
    (Event.finish_frame buf frames).is_create = false := rfl

@[simp] theorem is_create_create (rate channels : Int) :
    (Event.decoder_create rate channels).is_create = true := rfl

theorem decode_call_not_create (dec : GstOpusDec) (st : Nat) (buffer : Option GstBuffer) :
    (decode_call dec st buffer).is_create = false := rfl

/-- The creations among the calls of `opus_dec_chain_parse_data` are those
of its session block. -/
theorem chain_creations (env : Env) (dec : GstOpusDec) (buffer : Option GstBuffer) :
    (opus_dec_chain_parse_data env dec buffer).trace.filter Event.is_create =
      session_trace env dec := by
  have hst : (session_trace env dec).filter Event.is_create = session_trace env dec := by
    unfold session_trace
    cases dec.state <;> simp
  rcases chain_trace_shape env dec buffer with h | h | ⟨st, _, _, h | h⟩
  · rw [h, hst]
  · rw [h, List.filter_append, hst]; simp
  · rw [h.2, List.filter_append, hst]
    simp [List.filter_cons, decode_call_not_create]
  · rw [h.2, List.filter_append, hst]
    simp [List.filter_cons, decode_call_not_create]

/-- A run of decode cycles that starts with session `st` present keeps it,
creates none, and passes `st` to every engine call. -/
theorem chain_run_with_session (st : Nat) (calls : List (Env × Option GstBuffer)) :
    ∀ dec : GstOpusDec, dec.state = some st →
      (chain_run dec calls).state = some st ∧
      (chain_run_trace dec calls).filter Event.is_create = [] ∧
      (∀ e ∈ chain_run_trace dec calls, e.is_decode = true →
        ∃ data len frame_size fec, e = Event.opus_decode st data len frame_size fec) := by
  induction calls with
  | nil =>
    intro dec hst
    exact ⟨hst, rfl, fun e he => by cases he⟩
  | cons call rest ih =>
    intro dec hst
    obtain ⟨env, buffer⟩ := call
    obtain ⟨h1, h2, h3⟩ := chain_with_session env dec buffer st hst
    obtain ⟨i1, i2, i3⟩ := ih _ h1
    simp only [chain_run, chain_run_trace]
    refine ⟨i1, ?_, ?_⟩
    · rw [List.filter_append, h2, i2]; rfl
    · intro e he hd
      rw [List.mem_append] at he
      rcases he with he | he
      · exact h3 e he hd
      · exact i3 e he hd

theorem reset_destroys (dec : GstOpusDec) (st : Nat) (hst : dec.state = some st) :
    (gst_opus_dec_reset dec).2 = [Event.decoder_destroy st] := by
  unfold gst_opus_dec_reset
  simp only
  rw [hst]

theorem set_format_vorbiscomment_ret (dec : GstOpusDec) (v : GValue) (ret : Bool) :
    (set_format_vorbiscomment dec v ret).1 = ret := by
  unfold set_format_vorbiscomment
  cases v with
  | buffer buf => simp only; split_ifs <;> rfl
  | other => rfl

/-- The function `gst_opus_dec_set_format` returns `TRUE` whatever the caps
hold. -/
theorem set_format_returns_true (dec : GstOpusDec) (streamheader : StreamHeader) :
    (gst_opus_dec_set_format dec streamheader).1 = true := by
  unfold gst_opus_dec_set_format
  split
  · split
    · simp only
      split_ifs
      · rfl
      · exact set_format_vorbiscomment_ret _ _ _
    · exact set_format_vorbiscomment_ret _ _ _
  · rfl

/-- At packet index 0 without out-of-band headers, a packet that carries the
magic "OpusHead" and fails to parse makes `gst_opus_dec_handle_frame` return
the error of `gst_opus_dec_parse_header`. -/
theorem handle_frame_reports_parse_failure (env : Env) (dec : GstOpusDec) (b : GstBuffer)
    (hoob : dec.streamheader = none ∨ dec.vorbiscomment = none) (h0 : dec.packetno = 0)
    (hmagic : b.data.take 8 = OpusHead) (hshort : b.size < 19) :
    (gst_opus_dec_handle_frame env dec (some b)).res = GST_FLOW_ERROR := by
  have h8 : 8 ≤ b.size := by
    have hl : (b.data.take 8).length = 8 := by rw [hmagic]; rfl
    rw [List.length_take] at hl
    unfold GstBuffer.size
    omega
  have hh : gst_opus_header_is_header b OpusHead 8 = true :=
    (is_header_iff b OpusHead rfl).mpr ⟨h8, hmagic⟩
  have h19 : ¬ 19 ≤ b.size := by omega
  have hp : (gst_opus_dec_parse_header dec b).res = GST_FLOW_ERROR := by
    simp [gst_opus_dec_parse_header, hh, h19]
  simp only [gst_opus_dec_handle_frame, packetno_incr, handle_frame_dispatch]
  rcases hoob with h | h
  · simp [h, h0, hh, hp]
  · cases hsh : dec.streamheader <;> simp [h, h0, hh, hp]

/-- A decode cycle that ends in `finish_frame`, with budget left: the budget
afterwards, the frame handed over and the flow returned. -/
theorem chain_finished_trim (env : Env) (dec : GstOpusDec) (buffer : Option GstBuffer)
    (st : Nat) (B R c m : Nat) (hs : session_ok env dec st)
    (hgo : dec.use_inband_fec = false ∨ dec.primed = true)
    (halloc : env.pad_alloc_buffer (packet_size (after_session_block env dec)) = GST_FLOW_OK)
    (hn : (decode_reply env (after_session_block env dec) st buffer).n = (m : Int))
    (hB : dec.pre_skip = B) (hB0 : 0 < B) (hB16 : B ≤ 65535)
    (hR : (after_session_block env dec).sample_rate = (R : Int))
    (hRa : R ∈ [8000, 12000, 16000, 24000, 48000])
    (hc : (after_session_block env dec).n_channels = (c : Int)) (hc1 : 1 ≤ c)
    (hrep : m * 2 * c < 2147483648) :
    (opus_dec_chain_parse_data env dec buffer).dec.pre_skip =
      B - min m (B * R / 48000) * 48000 / R ∧
    (opus_dec_chain_parse_data env dec buffer).trace.filter Event.is_finish =
      [Event.finish_frame
        (if (m - min m (B * R / 48000)) * 2 * c = 0 then none
         else some { pcm := (decode_reply env (after_session_block env dec) st buffer).pcm,
                     offset := min m (B * R / 48000) * 2 * c,
                     size := (m - min m (B * R / 48000)) * 2 * c }) 1] ∧
    (opus_dec_chain_parse_data env dec buffer).res =
      env.finish_frame
        (if (m - min m (B * R / 48000)) * 2 * c = 0 then none
         else some { pcm := (decode_reply env (after_session_block env dec) st buffer).pcm,
                     offset := min m (B * R / 48000) * 2 * c,
                     size := (m - min m (B * R / 48000)) * 2 * c }) 1 := by
  have hfr := after_session_block_frame env dec
  have hgo2 : (after_session_block env dec).use_inband_fec = false ∨
      (after_session_block env dec).primed = true := by
    rw [hfr.2.2.2.2.1, hfr.2.2.2.2.2.2]; exact hgo
  have hB2 : (after_session_block env dec).pre_skip = B := by rw [hfr.2.2.2.1]; exact hB
  have hex := skip_samples_exact (after_session_block env dec) B R c m
    (decode_reply env (after_session_block env dec) st buffer).pcm hB2 hB0 hB16 hR hRa hc hc1
    hrep
  have hn0 : 0 ≤ (decode_reply env (after_session_block env dec) st buffer).n := by
    rw [hn]; exact Int.natCast_nonneg m
  refine ⟨?_, ?_, ?_⟩
  · rw [chain_of_session_ok env dec buffer st hs,
      chain_decode_finished env _ st buffer _ hgo2 halloc hn0, (chain_done_proj _ _ _ _).2.2.1,
      hn, hex]
  · have h := ((chain_decode_calls env dec buffer hgo).2 st hs halloc).2.2 hn0
    rw [h, hn, hex]
  · rw [chain_of_session_ok env dec buffer st hs,
      chain_decode_finished env _ st buffer _ hgo2 halloc hn0, (chain_done_proj _ _ _ _).1,
      hn, hex]

/-- A decode cycle that ends in `finish_frame`, with no budget left: the
frame handed over is the whole output and the flow returned is the answer. -/
theorem chain_finished_untrimmed (env : Env) (dec : GstOpusDec) (buffer : Option GstBuffer)
    (st : Nat) (hs : session_ok env dec st)
    (hgo : dec.use_inband_fec = false ∨ dec.primed = true)
    (halloc : env.pad_alloc_buffer (packet_size (after_session_block env dec)) = GST_FLOW_OK)
    (hn : 0 ≤ (decode_reply env (after_session_block env dec) st buffer).n)
    (hB : dec.pre_skip = 0) :
    (opus_dec_chain_parse_data env dec buffer).trace.filter Event.is_finish =
      [Event.finish_frame
        (some { pcm := (decode_reply env (after_session_block env dec) st buffer).pcm,
                offset := 0,
                size := to_guint ((decode_reply env (after_session_block env dec) st buffer).n
                  * 2 * (after_session_block env dec).n_channels) }) 1] ∧
    (opus_dec_chain_parse_data env dec buffer).res =
      env.finish_frame
        (some { pcm := (decode_reply env (after_session_block env dec) st buffer).pcm,
                offset := 0,
                size := to_guint ((decode_reply env (after_session_block env dec) st buffer).n
                  * 2 * (after_session_block env dec).n_channels) }) 1 := by
  have hfr := after_session_block_frame env dec
  have hgo2 : (after_session_block env dec).use_inband_fec = false ∨
      (after_session_block env dec).primed = true := by
    rw [hfr.2.2.2.2.1, hfr.2.2.2.2.2.2]; exact hgo
  have hB2 : (after_session_block env dec).pre_skip = 0 := by rw [hfr.2.2.2.1]; exact hB
  refine ⟨?_, ?_⟩
  · have h := ((chain_decode_calls env dec buffer hgo).2 st hs halloc).2.2 hn
    rw [h, skip_samples_zero _ _ _ hB2]
  · rw [chain_of_session_ok env dec buffer st hs,
      chain_decode_finished env _ st buffer _ hgo2 halloc hn, (chain_done_proj _ _ _ _).1,
      skip_samples_zero _ _ _ hB2]

/-- Packet 0 without out-of-band headers, a well-formed identification
packet: what `gst_opus_dec_handle_frame` leaves. -/
theorem handle_frame_ident (env : Env) (dec : GstOpusDec) (b : GstBuffer)
    (hoob : dec.streamheader = none ∨ dec.vorbiscomment = none) (h0 : dec.packetno = 0)
    (hlen : 19 ≤ b.size) (hmagic : b.data.take 8 = OpusHead) :
    gst_opus_dec_handle_frame env dec (some b) =
      { res := GST_FLOW_OK,
        dec := { dec with pre_skip := GST_READ_UINT16_LE b.data 10, packetno := 1 },
        trace := [Event.finish_frame none 1] } := by
  have hh : gst_opus_header_is_header b OpusHead 8 = true :=
    (is_header_iff b OpusHead rfl).mpr ⟨by omega, hmagic⟩
  have hp : gst_opus_dec_parse_header dec b =
      { res := GST_FLOW_OK
        dec := { dec with pre_skip := GST_READ_UINT16_LE b.data 10 }
        reads := gst_opus_header_is_header_reads b 8 ++ [10, 10 + 1] } := by
    simp [gst_opus_dec_parse_header, hh, hlen]
  simp only [gst_opus_dec_handle_frame, packetno_incr, handle_frame_dispatch]
  rcases hoob with h | h
  · simp [h, h0, hh, hp]
  · cases hsh : dec.streamheader <;> simp [h, h0, hh, hp, hsh]

/-- Packet 1 without out-of-band headers, a comment packet: what
`gst_opus_dec_handle_frame` leaves. -/
theorem handle_frame_comment (env : Env) (dec : GstOpusDec) (b : GstBuffer)
    (hoob : dec.streamheader = none ∨ dec.vorbiscomment = none) (h1 : dec.packetno = 1)
    (hmagic : b.data.take 8 = OpusTags) :
    gst_opus_dec_handle_frame env dec (some b) =
      { res := GST_FLOW_OK, dec := { dec with packetno := 2 },
        trace := [Event.finish_frame none 1] } := by
  have h8 : 8 ≤ b.size := by
    have hl : (b.data.take 8).length = 8 := by rw [hmagic]; rfl
    rw [List.length_take] at hl
    unfold GstBuffer.size
    omega
  have hh : gst_opus_header_is_header b OpusTags 8 = true :=
    (is_header_iff b OpusTags rfl).mpr ⟨h8, hmagic⟩
  simp only [gst_opus_dec_handle_frame, packetno_incr, handle_frame_dispatch]
  rcases hoob with h | h
  · simp [h, h1, hh, gst_opus_dec_parse_comments]
  · cases hsh : dec.streamheader <;> simp [h, h1, hh, gst_opus_dec_parse_comments, hsh]

/-- From packet 2 on without out-of-band headers, every packet goes to the
decode scheduler. -/
theorem handle_frame_payload (env : Env) (dec : GstOpusDec) (b : GstBuffer)
    (hoob : dec.streamheader = none ∨ dec.vorbiscomment = none) (h2 : 2 ≤ dec.packetno) :
    gst_opus_dec_handle_frame env dec (some b) =
      packetno_incr (opus_dec_chain_parse_data env dec (some b)) := by
  obtain ⟨k, hk⟩ : ∃ k, dec.packetno = k + 2 := ⟨dec.packetno - 2, by omega⟩
  simp only [gst_opus_dec_handle_frame, handle_frame_dispatch]
  rcases hoob with h | h
  · simp [h, hk]
  · cases hsh : dec.streamheader <;> simp [h, hk]

/-! ## The skip budget over several decode cycles -/

/-- One run of the trimmer block, for a budget within 16 bits, an allowed
rate `R` and a decoded count `m`: with `k = 48000 / R`, it removes
`min m (B / k)` samples and takes `k` times as much from the budget, so the
rescaled budget drops by the samples removed and `B % k` stays. -/
theorem trim_step_values (d : GstOpusDec) (B R m : Nat) (outbuf : OutBuf)
    (hB : d.pre_skip = B) (hB16 : B ≤ 65535) (hR : d.sample_rate = (R : Int))
    (hRa : R ∈ [8000, 12000, 16000, 24000, 48000]) (hm : m < 2147483648) :
    B * R / 48000 = B / (48000 / R) ∧
    samples_trimmed d (m : Int) = min m (B * R / 48000) ∧
    (skip_samples d (m : Int) outbuf).1.pre_skip =
      B - min m (B * R / 48000) * (48000 / R) ∧
    (skip_samples d (m : Int) outbuf).1.pre_skip ≤ B ∧
    (skip_samples d (m : Int) outbuf).1.pre_skip * R / 48000 =
      B * R / 48000 - min m (B * R / 48000) ∧
    (skip_samples d (m : Int) outbuf).1.pre_skip % (48000 / R) = B % (48000 / R) ∧
    (skip_samples d (m : Int) outbuf).1.sample_rate = d.sample_rate := by
  have hRb := allowed_rate_bounds R hRa
  have hBR : B * R ≤ 65535 * 48000 := Nat.mul_le_mul hB16 hRb.2
  have hgR : to_guint d.sample_rate = R := by rw [hR]; exact to_guint_natCast R (by omega)
  have hgm : to_guint (m : Int) = m := to_guint_natCast m (by omega)
  have h1 : scaled_pre_skip d = B * R / 48000 := by
    unfold scaled_pre_skip
    rw [hgR, hB, Nat.mod_eq_of_lt (by omega)]
  have h2 : skip d (m : Int) = min m (B * R / 48000) := by
    unfold skip
    rw [h1, hgm]
    split_ifs with h
    · exact (min_eq_left (le_of_lt h)).symm
    · exact (min_eq_right (not_lt.mp h)).symm
  have hsk : min m (B * R / 48000) * 48000 ≤ B * R :=
    le_trans (Nat.mul_le_mul_right _ (min_le_right _ _)) (Nat.div_mul_le_self _ _)
  have h3 : scaled_skip d (m : Int) = min m (B * R / 48000) * 48000 / R := by
    unfold scaled_skip
    rw [h2, hgR, Nat.mod_eq_of_lt (by omega)]
  have hst : samples_trimmed d (m : Int) = min m (B * R / 48000) := by
    unfold samples_trimmed
    split_ifs with h
    · exact h2
    · have hB0 : B = 0 := by omega
      subst hB0
      simp
  have hpre : (skip_samples d (m : Int) outbuf).1.pre_skip =
      B - min m (B * R / 48000) * 48000 / R := by
    have hle := rescaled_skip_le B R m
    rw [skip_samples_pre_skip, h3, hB]
    split_ifs with h
    · omega
    · omega
  rw [hpre]
  refine ⟨?_, hst, ?_, ?_, ?_, ?_, (skip_samples_frame d _ outbuf).2.2.2.2.1⟩
  all_goals
    simp only [List.mem_cons, List.mem_singleton, List.not_mem_nil, or_false] at hRa
    rcases hRa with h | h | h | h | h <;> subst h <;> omega

/-- The cycles of `trim_run` over the counts `ns`, from budget `B` at an
allowed rate `R`: `min (B * R / 48000) (sum of ns)` samples are removed in
all, and the budget loses `48000 / R` for each. -/
theorem trim_run_values (R : Nat) (hRa : R ∈ [8000, 12000, 16000, 24000, 48000])
    (ns : List Nat) :
    ∀ (d : GstOpusDec) (B : Nat), d.pre_skip = B → B ≤ 65535 → d.sample_rate = (R : Int) →
      (∀ n ∈ ns, n < 2147483648) →
      (trim_run d (ns.map (fun n : Nat => (n : Int)))).1 = min (B * R / 48000) ns.sum ∧
      (trim_run d (ns.map (fun n : Nat => (n : Int)))).2.pre_skip =
        B - min (B * R / 48000) ns.sum * (48000 / R) ∧
      (trim_run d (ns.map (fun n : Nat => (n : Int)))).2.sample_rate = d.sample_rate := by
  induction ns with
  | nil =>
    intro d B hB _ _ _
    simp [trim_run, hB]
  | cons n rest ih =>
    intro d B hB hB16 hR hns
    have hn : n < 2147483648 := hns n (List.mem_cons_self _ _)
    have hrest : ∀ x ∈ rest, x < 2147483648 := fun x hx => hns x (List.mem_cons_of_mem _ hx)
    obtain ⟨_, h2, h3, h4, h5, _, h7⟩ := trim_step_values d B R n
      { pcm := [], offset := 0, size := to_guint ((n : Int) * 2 * d.n_channels) }
      hB hB16 hR hRa hn
    obtain ⟨i1, i2, i3⟩ := ih _ _ rfl (le_trans h4 hB16) (h7.trans hR) hrest
    simp only [List.map_cons, trim_run, List.sum_cons]
    rw [i1, i2, i3, h2, h5, h3, h7]
    refine ⟨?_, ?_, rfl⟩
    · omega
    · simp only [List.mem_cons, List.mem_singleton, List.not_mem_nil, or_false] at hRa
      rcases hRa with h | h | h | h | h <;> subst h <;> omega

/-- A budget below `48000 / R` rescales to 0 samples: the trimmer block takes
nothing from it, whatever the decoded count. -/
theorem skip_samples_below_unit (d : GstOpusDec) (n : Int) (outbuf : OutBuf) (B R : Nat)
    (hB : d.pre_skip = B) (hR : d.sample_rate = (R : Int))
    (hRa : R ∈ [8000, 12000, 16000, 24000, 48000]) (hlt : B < 48000 / R) :
    (skip_samples d n outbuf).1.pre_skip = B := by
  have hRb := allowed_rate_bounds R hRa
  have hgR : to_guint d.sample_rate = R := by rw [hR]; exact to_guint_natCast R (by omega)
  have hBk : B < 7 := by
    have : 48000 / R ≤ 48000 / 8000 := Nat.div_le_div_left hRb.1 (by omega)
    omega
  have hBR : B * R ≤ 6 * 48000 := Nat.mul_le_mul (by omega) hRb.2
  have hzero : B * R / 48000 = 0 := by
    simp only [List.mem_cons, List.mem_singleton, List.not_mem_nil, or_false] at hRa
    rcases hRa with h | h | h | h | h <;> subst h <;> omega
  have h1 : scaled_pre_skip d = 0 := by
    unfold scaled_pre_skip
    rw [hgR, hB, Nat.mod_eq_of_lt (by omega), hzero]
  have h2 : skip d n = 0 := by
    unfold skip
    rw [h1]
    split_ifs with h
    · omega
    · rfl
  have h3 : scaled_skip d n = 0 := by
    unfold scaled_skip
    rw [h2]
    simp
  rw [skip_samples_pre_skip, h3, hB]
  split_ifs <;> omega

/-- With a session present and a budget below `48000 / R`, no run of decode
cycles changes the budget. -/
theorem chain_run_below_unit (st B R : Nat) (hRa : R ∈ [8000, 12000, 16000, 24000, 48000])
    (hlt : B < 48000 / R) (calls : List (Env × Option GstBuffer)) :
    ∀ d : GstOpusDec, d.state = some st → d.pre_skip = B → d.sample_rate = (R : Int) →
      (chain_run d calls).pre_skip = B := by
  induction calls with
  | nil => intro d _ hB _; exact hB
  | cons call rest ih =>
    intro d hst hB hR
    obtain ⟨env, buffer⟩ := call
    have hsp := session_present env d st hst
    simp only [chain_run]
    apply ih
    · exact (chain_with_session env d buffer st hst).1
    · rcases chain_pre_skip env d buffer with h | ⟨n, outbuf, h⟩
      · rw [h, hB]
      · rw [h, hsp.1]
        exact skip_samples_below_unit d n outbuf B R hB hR hRa hlt
    · rw [(chain_fields env d buffer).2.1, hsp.1]
      exact hR

/-! ## The pending packet over a run -/

/-- After `opus_dec_chain_parse_data`, `last_buffer` and `primed` are what
they were, or the incoming buffer and true. -/
theorem chain_buffers (env : Env) (dec : GstOpusDec) (buffer : Option GstBuffer) :
    ((opus_dec_chain_parse_data env dec buffer).dec.last_buffer = dec.last_buffer ∧
      (opus_dec_chain_parse_data env dec buffer).dec.primed = dec.primed) ∨
    ((opus_dec_chain_parse_data env dec buffer).dec.last_buffer = buffer ∧
      (opus_dec_chain_parse_data env dec buffer).dec.primed = true) := by
  have hfr := after_session_block_frame env dec
  cases hfec : dec.use_inband_fec with
  | false => exact Or.inl (chain_no_fec_buffers env dec buffer hfec)
  | true =>
    have hfec2 : (after_session_block env dec).use_inband_fec = true := by
      rw [hfr.2.2.2.2.1]; exact hfec
    by_cases hex : ∃ st, session_ok env dec st
    · obtain ⟨st, hs⟩ := hex
      rw [chain_of_session_ok env dec buffer st hs]
      cases hprimed : (after_session_block env dec).primed with
      | false =>
        right
        rw [chain_decode_priming env _ st buffer _ hfec2 hprimed]
        exact ⟨rfl, rfl⟩
      | true =>
        by_cases halloc :
            env.pad_alloc_buffer (packet_size (after_session_block env dec)) = GST_FLOW_OK
        · by_cases hn : (decode_reply env (after_session_block env dec) st buffer).n < 0
          · left
            rw [chain_decode_error env _ st buffer _ (Or.inr hprimed) halloc hn]
            exact ⟨hfr.2.2.2.2.2.1, by rw [hprimed, ← hfr.2.2.2.2.2.2, hprimed]⟩
          · right
            rw [chain_decode_finished env _ st buffer _ (Or.inr hprimed) halloc (by omega)]
            exact chain_done_fec _ _ _ _
              (by rw [(skip_samples_frame _ _ _).2.2.2.2.2.2.1]; exact hfec2)
        · left
          rw [chain_decode_alloc_failed env _ st buffer _ (Or.inr hprimed) halloc]
          exact ⟨hfr.2.2.2.2.2.1, by rw [hprimed, ← hfr.2.2.2.2.2.2, hprimed]⟩
    · left
      rw [chain_of_session_failed env dec buffer (fun st h => hex ⟨st, h⟩)]
      exact ⟨hfr.2.2.2.2.2.1, hfr.2.2.2.2.2.2⟩

/-- In FEC mode before priming, `opus_dec_chain_parse_data` makes the calls
of its session block and no other. -/
theorem chain_unprimed_trace (env : Env) (dec : GstOpusDec) (buffer : Option GstBuffer)
    (hfec : dec.use_inband_fec = true) (hprimed : dec.primed = false) :
    (opus_dec_chain_parse_data env dec buffer).trace = session_trace env dec := by
  have hfr := after_session_block_frame env dec
  by_cases hex : ∃ st, session_ok env dec st
  · obtain ⟨st, hs⟩ := hex
    rw [chain_of_session_ok env dec buffer st hs,
      chain_decode_priming env _ st buffer _ (by rw [hfr.2.2.2.2.1]; exact hfec)
        (by rw [hfr.2.2.2.2.2.2]; exact hprimed)]
  · rw [chain_of_session_failed env dec buffer (fun st h => hex ⟨st, h⟩)]

/-- When a primed element holds a pending packet, every engine call of
`opus_dec_chain_parse_data` carries FEC flag 0. -/
theorem chain_flag_zero (env : Env) (dec : GstOpusDec) (buffer : Option GstBuffer)
    (hinv : pending_when_primed dec) :
    ∀ e ∈ (opus_dec_chain_parse_data env dec buffer).trace,
      ∀ (st : Nat) (data : Option (List guint8)) (len frame_size fec : Int),
        e = Event.opus_decode st data len frame_size fec → fec = 0 := by
  intro e he st data len frame_size fec heq
  have hd : e.is_decode = true := by rw [heq]; rfl
  have hfr := after_session_block_frame env dec
  by_cases hgo : dec.use_inband_fec = false ∨ dec.primed = true
  · obtain ⟨s2, _, hcall⟩ := (chain_decode_calls env dec buffer hgo).1 e he hd
    rw [heq] at hcall
    unfold decode_call at hcall
    have hflag : fec = decode_fec (after_session_block env dec) := by
      injection hcall
    rw [hflag]
    unfold decode_fec
    rw [hfr.2.2.2.2.1, hfr.2.2.2.2.2.1]
    cases hfec : dec.use_inband_fec with
    | false => rfl
    | true =>
      have hprimed : dec.primed = true := by
        rcases hgo with h | h
        · rw [hfec] at h; cases h
        · exact h
      have hsome := hinv hprimed
      cases hl : dec.last_buffer with
      | none => exact absurd hl hsome
      | some b => rfl
  · have hfec : dec.use_inband_fec = true := by
      cases h : dec.use_inband_fec
      · exact absurd (Or.inl h) hgo
      · rfl
    have hprimed : dec.primed = false := by
      cases h : dec.primed
      · rfl
      · exact absurd (Or.inr h) hgo
    rw [chain_unprimed_trace env dec buffer hfec hprimed] at he
    rw [(mem_session_trace env dec e he).1] at hd
    cases hd

/-- The function `opus_dec_chain_parse_data` on a packet keeps the
pending-packet invariant. -/
theorem chain_keeps_pending (env : Env) (dec : GstOpusDec) (b : GstBuffer)
    (hinv : pending_when_primed dec) :
    pending_when_primed (opus_dec_chain_parse_data env dec (some b)).dec := by
  unfold pending_when_primed at *
  rcases chain_buffers env dec (some b) with ⟨h1, h2⟩ | ⟨h1, _⟩
  · rw [h1, h2]; exact hinv
  · intro _
    rw [h1]
    exact Option.some_ne_none b

theorem parse_header_buffers (dec : GstOpusDec) (buf : GstBuffer) :
    (gst_opus_dec_parse_header dec buf).dec.last_buffer = dec.last_buffer ∧
    (gst_opus_dec_parse_header dec buf).dec.primed = dec.primed := by
  unfold gst_opus_dec_parse_header
  split_ifs <;> exact ⟨rfl, rfl⟩

/-- The function `gst_opus_dec_handle_frame` keeps the pending-packet
invariant, and under it requests FEC flag 0 only. -/
theorem handle_frame_keeps_pending (env : Env) (dec : GstOpusDec) (buf : Option GstBuffer)
    (hinv : pending_when_primed dec) :
    pending_when_primed (gst_opus_dec_handle_frame env dec buf).dec ∧
    ∀ e ∈ (gst_opus_dec_handle_frame env dec buf).trace,
      ∀ (st : Nat) (data : Option (List guint8)) (len frame_size fec : Int),
        e = Event.opus_decode st data len frame_size fec → fec = 0 := by
  cases buf with
  | none => exact ⟨hinv, fun e he => by cases he⟩
  | some b =>
    have hchain : pending_when_primed (packetno_incr (opus_dec_chain_parse_data env dec
          (some b))).dec ∧
        ∀ e ∈ (packetno_incr (opus_dec_chain_parse_data env dec (some b))).trace,
          ∀ (st : Nat) (data : Option (List guint8)) (len frame_size fec : Int),
            e = Event.opus_decode st data len frame_size fec → fec = 0 :=
      ⟨chain_keeps_pending env dec b hinv, chain_flag_zero env dec (some b) hinv⟩
    have hheader : ∀ (res : GstFlowReturn) (d2 : GstOpusDec), d2.last_buffer = dec.last_buffer →
        d2.primed = dec.primed →
        pending_when_primed
          (packetno_incr ⟨res, d2, [Event.finish_frame none 1]⟩).dec ∧
        ∀ e ∈ (packetno_incr ⟨res, d2, [Event.finish_frame none 1]⟩).trace,
          ∀ (st : Nat) (data : Option (List guint8)) (len frame_size fec : Int),
            e = Event.opus_decode st data len frame_size fec → fec = 0 := by
      intro res d2 hl hp
      constructor
      · unfold pending_when_primed at *
        simp only [packetno_incr]
        rw [hl, hp]
        exact hinv
      · intro e he st data len frame_size fec heq
        simp only [packetno_incr, List.mem_singleton] at he
        rw [he] at heq
        cases heq
    simp only [gst_opus_dec_handle_frame, handle_frame_dispatch]
    split
    · split_ifs
      · exact hheader _ _ rfl rfl
      · exact hheader _ _ rfl rfl
      · exact hchain
    · split
      · split_ifs
        · exact hheader _ _ (parse_header_buffers dec b).1 (parse_header_buffers dec b).2
        · exact hchain
      · split_ifs
        · exact hheader _ _ rfl rfl
        · exact hchain
      · exact hchain

theorem set_format_buffers (dec : GstOpusDec) (streamheader : StreamHeader) :
    (gst_opus_dec_set_format dec streamheader).2.last_buffer = dec.last_buffer ∧
    (gst_opus_dec_set_format dec streamheader).2.primed = dec.primed := by
  have hv : ∀ (d : GstOpusDec) (v : GValue) (ret : Bool),
      (set_format_vorbiscomment d v ret).2.last_buffer = d.last_buffer ∧
      (set_format_vorbiscomment d v ret).2.primed = d.primed := by
    intro d v ret
    unfold set_format_vorbiscomment
    cases v with
    | buffer buf => simp only; split_ifs <;> exact ⟨rfl, rfl⟩
    | other => exact ⟨rfl, rfl⟩
  have hp := fun buf => parse_header_buffers dec buf
  unfold gst_opus_dec_set_format
  split
  · split
    · simp only
      split_ifs
      · exact hp _
      · exact ⟨(hv _ _ _).1.trans (hp _).1, (hv _ _ _).2.trans (hp _).2⟩
    · exact hv _ _ _
  · exact ⟨rfl, rfl⟩

/-- Every `Op` keeps the pending-packet invariant, and under it requests FEC
flag 0 only. -/
theorem run_op_keeps_pending (dec : GstOpusDec) (op : Op) (hinv : pending_when_primed dec) :
    pending_when_primed (run_op dec op).1 ∧
    ∀ e ∈ (run_op dec op).2,
      ∀ (st : Nat) (data : Option (List guint8)) (len frame_size fec : Int),
        e = Event.opus_decode st data len frame_size fec → fec = 0 := by
  have hreset : pending_when_primed (gst_opus_dec_reset dec).1 := by
    intro h; cases h
  have hreset_trace : ∀ e ∈ (gst_opus_dec_reset dec).2,
      ∀ (st : Nat) (data : Option (List guint8)) (len frame_size fec : Int),
        e = Event.opus_decode st data len frame_size fec → fec = 0 := by
    intro e he st data len frame_size fec heq
    unfold gst_opus_dec_reset at he
    simp only at he
    cases hs : dec.state with
    | none => rw [hs] at he; cases he
    | some s =>
      rw [hs] at he
      simp only [List.mem_singleton] at he
      rw [he] at heq
      cases heq
  cases op with
  | handle_frame env buf => exact handle_frame_keeps_pending env dec buf hinv
  | set_format streamheader =>
    refine ⟨?_, fun e he => by cases he⟩
    unfold pending_when_primed at *
    simp only [run_op]
    rw [(set_format_buffers dec streamheader).1, (set_format_buffers dec streamheader).2]
    exact hinv
  | set_property value => exact ⟨hinv, fun e he => by cases he⟩
  | reset => exact ⟨hreset, hreset_trace⟩
  | start =>
    refine ⟨hreset, ?_⟩
    intro e he st data len frame_size fec heq
    simp only [run_op, gst_opus_dec_start, List.mem_append, List.mem_singleton] at he
    rcases he with (he | he) | he
    · exact hreset_trace e he st data len frame_size fec heq
    · rw [he] at heq; cases heq
    · split_ifs at he
      · simp only [List.mem_singleton] at he
        rw [he] at heq; cases heq
      · cases he
  | stop => exact ⟨hreset, hreset_trace⟩

/-- Every run of `Op`s keeps the pending-packet invariant, and from a state
that has it requests FEC flag 0 only. -/
theorem run_ops_keeps_pending (ops : List Op) :
    ∀ dec : GstOpusDec, pending_when_primed dec →
      pending_when_primed (run_ops dec ops).1 ∧
      ∀ e ∈ (run_ops dec ops).2,
        ∀ (st : Nat) (data : Option (List guint8)) (len frame_size fec : Int),
          e = Event.opus_decode st data len frame_size fec → fec = 0 := by
  induction ops with
  | nil => intro dec hinv; exact ⟨hinv, fun e he => by cases he⟩
  | cons op rest ih =>
    intro dec hinv
    obtain ⟨h1, h2⟩ := run_op_keeps_pending dec op hinv
    obtain ⟨i1, i2⟩ := ih _ h1
    refine ⟨i1, ?_⟩
    intro e he
    simp only [run_ops, List.mem_append] at he
    rcases he with he | he
    · exact h2 e he
    · exact i2 e he

/-! ## Braces in a subtitle text -/

theorem strchr_lt (txt : List guint8) (c : guint8) (i : Nat) (h : strchr txt c = some i) :
    i < txt.length := by
  induction txt generalizing i with
  | nil => simp [strchr] at h
  | cons x rest ih =>
    simp only [strchr] at h
    split_ifs at h with hx
    · simp only [Option.some.injEq] at h
      subst h
      simp
    · cases hr : strchr rest c with
      | none => rw [hr] at h; simp at h
      | some j =>
        rw [hr] at h
        simp only [Option.map_some', Option.some.injEq] at h
        have := ih j hr
        simp only [List.length_cons]
        omega

/-- The search of `strchr` in a text cut before offset `k`, when the first
`c` of the text is at `i`. -/
theorem strchr_take (txt : List guint8) (c : guint8) (i k : Nat)
    (h : strchr txt c = some i) :
    strchr (txt.take k) c = if i < k then some i else none := by
  induction txt generalizing i k with
  | nil => simp [strchr] at h
  | cons x rest ih =>
    cases k with
    | zero => simp [strchr]
    | succ k =>
      simp only [strchr] at h
      simp only [List.take_succ_cons, strchr]
      split_ifs at h with hx
      · simp only [Option.some.injEq] at h
        subst h
        simp [hx]
      · cases hr : strchr rest c with
        | none => rw [hr] at h; simp at h
        | some j =>
          rw [hr] at h
          simp only [Option.map_some', Option.some.injEq] at h
          subst h
          rw [if_neg hx, ih j k hr]
          by_cases hjk : j < k
          · simp [hjk]
          · simp [hjk]

/-- The search of `strchr` from offset `k` on, when the first `c` of the
text is at `i`, not before `k`. -/
theorem strchr_drop (txt : List guint8) (c : guint8) (i k : Nat)
    (h : strchr txt c = some i) (hk : k ≤ i) :
    strchr (txt.drop k) c = some (i - k) := by
  induction txt generalizing i k with
  | nil => simp [strchr] at h
  | cons x rest ih =>
    cases k with
    | zero => simpa using h
    | succ k =>
      simp only [strchr] at h
      split_ifs at h with hx
      · simp only [Option.some.injEq] at h
        omega
      · cases hr : strchr rest c with
        | none => rw [hr] at h; simp at h
        | some j =>
          rw [hr] at h
          simp only [Option.map_some', Option.some.injEq] at h
          subst h
          simp only [List.drop_succ_cons]
          rw [ih j k hr (by omega)]
          congr 1
          omega

theorem strchr_append (a b : List guint8) (c : guint8) :
    strchr (a ++ b) c =
      match strchr a c with
      | some i => some i
      | none => (strchr b c).map (fun i => i + a.length) := by
  induction a with
  | nil =>
    simp only [List.nil_append, strchr, List.length_nil, Nat.add_zero]
    cases strchr b c <;> rfl
  | cons x rest ih =>
    simp only [List.cons_append, strchr, List.append_eq]
    split_ifs with hx
    · rfl
    · rw [ih]
      cases strchr rest c with
      | some i => rfl
      | none =>
        cases strchr b c with
        | none => rfl
        | some j => simp only [Option.map_some', List.length_cons]; congr 1

/-- One iteration of the brace loop when the first closing brace comes
before the first opening brace: the same holds of the text it leaves. -/
theorem close_before_open_persists (txt : List guint8) (t e : Nat)
    (ht : strchr txt 123 = some t) (he : strchr txt 125 = some e) (hlt : e < t) :
    strchr (g_memmove_tail txt t e) 123 = some (t + (t - e - 1)) ∧
    strchr (g_memmove_tail txt t e) 125 = some e ∧
    txt.length ≤ (g_memmove_tail txt t e).length := by
  have htl := strchr_lt txt 123 t ht
  have hlen : (txt.take t).length = t := by rw [List.length_take]; omega
  unfold g_memmove_tail
  refine ⟨?_, ?_, ?_⟩
  · rw [strchr_append, strchr_take txt 123 t t ht, if_neg (lt_irrefl t)]
    simp only
    rw [strchr_drop txt 123 t (e + 1) ht (by omega), hlen]
    simp only [Option.map_some', Option.some.injEq]
    omega
  · rw [strchr_append, strchr_take txt 125 e t he, if_pos hlt]
  · rw [List.length_append, hlen, List.length_drop]
    omega

/-- The brace loop does not end, whatever the fuel, on a text whose first
closing brace comes before its first opening brace. -/
theorem brace_loop_diverges (fuel : Nat) :
    ∀ (txt : List guint8) (removed_any : Bool) (t e : Nat),
      strchr txt 123 = some t → strchr txt 125 = some e → e < t →
      brace_loop fuel txt removed_any = none := by
  induction fuel with
  | zero => intro txt removed_any t e _ _ _; rfl
  | succ fuel ih =>
    intro txt removed_any t e ht he hlt
    obtain ⟨h1, h2, _⟩ := close_before_open_persists txt t e ht he hlt
    simp only [brace_loop, ht, he]
    exact ih _ true _ _ h1 h2 (by omega)

/-- One iteration of the brace loop when the first closing brace comes after
the first opening brace: the text gets shorter. -/
theorem open_before_close_shortens (txt : List guint8) (t e : Nat)
    (_ht : strchr txt 123 = some t) (he : strchr txt 125 = some e) (hlt : t < e) :
    (g_memmove_tail txt t e).length < txt.length := by
  have hel := strchr_lt txt 125 e he
  unfold g_memmove_tail
  rw [List.length_append, List.length_take, List.length_drop]
  omega

/-- One iteration of a marker loop keeps the length of the text. -/
theorem marker_step_length (txt : List guint8) (t : Nat) (c0 c1 : guint8) :
    ((txt.set t c0).set (t + 1) c1).length = txt.length := by
  rw [List.length_set, List.length_set]

/-! ## The header interpreter -/

/-- C7: for a packet of at least 19 bytes whose first 8 bytes are "OpusHead",
`gst_opus_dec_parse_header` returns `GST_FLOW_OK` and leaves the element with
`pre_skip` set to byte 10 plus 256 times byte 11 and nothing else changed; any
other such packet with the same bytes 10 and 11 gives the same result,
whatever its other bytes and its length. -/
theorem parse_header_reads_pre_skip (dec : GstOpusDec) (buf : GstBuffer)
    (hlen : 19 ≤ buf.size) (hmagic : buf.data.take 8 = OpusHead) :
    (gst_opus_dec_parse_header dec buf).res = GST_FLOW_OK ∧
    (gst_opus_dec_parse_header dec buf).dec =
      { dec with pre_skip := (buf.data.getD 10 0).val + 256 * (buf.data.getD 11 0).val } ∧
    buf.data[10]? = some (buf.data.getD 10 0) ∧ buf.data[11]? = some (buf.data.getD 11 0) ∧
    ∀ other : GstBuffer, 19 ≤ other.size → other.data.take 8 = OpusHead →
      other.data[10]? = buf.data[10]? → other.data[11]? = buf.data[11]? →
      (gst_opus_dec_parse_header dec other).res = (gst_opus_dec_parse_header dec buf).res ∧
      (gst_opus_dec_parse_header dec other).dec = (gst_opus_dec_parse_header dec buf).dec := by
  have key : ∀ b : GstBuffer, 19 ≤ b.size → b.data.take 8 = OpusHead →
      (gst_opus_dec_parse_header dec b).res = GST_FLOW_OK ∧
      (gst_opus_dec_parse_header dec b).dec =
        { dec with pre_skip := (b.data.getD 10 0).val + 256 * (b.data.getD 11 0).val } := by
    intro b hb hm
    have hh : gst_opus_header_is_header b OpusHead 8 = true :=
      (is_header_iff b OpusHead rfl).mpr ⟨by omega, hm⟩
    simp [gst_opus_dec_parse_header, hh, hb, GST_READ_UINT16_LE]
  have hsz : 19 ≤ buf.data.length := hlen
  refine ⟨(key buf hlen hmagic).1, (key buf hlen hmagic).2, ?_, ?_, ?_⟩
  · rw [List.getD_eq_getElem?_getD, List.getElem?_eq_getElem (by omega)]; rfl
  · rw [List.getD_eq_getElem?_getD, List.getElem?_eq_getElem (by omega)]; rfl
  · intro other ho hm h10 h11
    rw [(key other ho hm).1, (key other ho hm).2, (key buf hlen hmagic).1,
      (key buf hlen hmagic).2]
    simp only [List.getD_eq_getElem?_getD, h10, h11, and_self]

theorem parse_header_reads_pre_skip_witness :
    (gst_opus_dec_parse_header gst_opus_dec_init ident_packet_312).res = GST_FLOW_OK ∧
    (gst_opus_dec_parse_header gst_opus_dec_init ident_packet_312).dec.pre_skip = 312 :=
  ⟨(parse_header_reads_pre_skip gst_opus_dec_init ident_packet_312
      (by decide) (by decide)).1,
    by rw [(parse_header_reads_pre_skip gst_opus_dec_init ident_packet_312
      (by decide) (by decide)).2.1]; rfl⟩

/-- C8: `gst_opus_dec_parse_header` returns `GST_FLOW_ERROR` exactly when the
packet is shorter than 19 bytes or its first 8 bytes are not "OpusHead" (and
`GST_FLOW_OK` otherwise); on the error the element is unchanged; every byte
offset it looks at lies inside the packet, and offsets 10 and 11 are looked at
only in a packet of at least 19 bytes. -/
theorem parse_header_error_iff (dec : GstOpusDec) (buf : GstBuffer) :
    ((gst_opus_dec_parse_header dec buf).res = GST_FLOW_ERROR ↔
      (buf.size < 19 ∨ buf.data.take 8 ≠ OpusHead)) ∧
    ((gst_opus_dec_parse_header dec buf).res ≠ GST_FLOW_ERROR →
      (gst_opus_dec_parse_header dec buf).res = GST_FLOW_OK) ∧
    ((gst_opus_dec_parse_header dec buf).res = GST_FLOW_ERROR →
      (gst_opus_dec_parse_header dec buf).dec = dec) ∧
    (∀ i ∈ (gst_opus_dec_parse_header dec buf).reads, i < buf.size) ∧
    (∀ i ∈ (gst_opus_dec_parse_header dec buf).reads, 8 ≤ i → 19 ≤ buf.size) := by
  have hreads : ∀ i ∈ gst_opus_header_is_header_reads buf 8, i < buf.size ∧ i < 8 := by
    intro i hi
    unfold gst_opus_header_is_header_reads at hi
    split at hi
    · rw [List.mem_range] at hi; omega
    · simp at hi
  by_cases hh : gst_opus_header_is_header buf OpusHead 8 = true
  · have hm := (is_header_iff buf OpusHead rfl).mp hh
    by_cases h19 : 19 ≤ buf.size
    · have hres : gst_opus_dec_parse_header dec buf =
          { res := GST_FLOW_OK
            dec := { dec with pre_skip := GST_READ_UINT16_LE buf.data 10 }
            reads := gst_opus_header_is_header_reads buf 8 ++ [10, 10 + 1] } := by
        simp [gst_opus_dec_parse_header, hh, h19]
      rw [hres]
      refine ⟨?_, ?_, ?_, ?_, ?_⟩
      · constructor
        · intro h; exact absurd h flow_ok_ne_error
        · rintro (h | h)
          · omega
          · exact absurd hm.2 h
      · intro _; rfl
      · intro h; exact absurd h flow_ok_ne_error
      · intro i hi
        simp only [List.mem_append, List.mem_cons, List.mem_singleton, List.not_mem_nil,
          or_false] at hi
        rcases hi with hi | hi | hi
        · exact (hreads i hi).1
        · omega
        · omega
      · intro i _ _; exact h19
    · have hres : gst_opus_dec_parse_header dec buf =
          { res := GST_FLOW_ERROR, dec := dec,
            reads := gst_opus_header_is_header_reads buf 8 } := by
        simp [gst_opus_dec_parse_header, hh, h19]
      rw [hres]
      refine ⟨?_, ?_, ?_, ?_, ?_⟩
      · constructor
        · intro _; left; omega
        · intro _; rfl
      · intro h; exact absurd rfl h
      · intro _; rfl
      · intro i hi; exact (hreads i hi).1
      · intro i hi h8; have := (hreads i hi).2; omega
  · have hres : gst_opus_dec_parse_header dec buf =
        { res := GST_FLOW_ERROR, dec := dec,
          reads := gst_opus_header_is_header_reads buf 8 } := by
      simp [gst_opus_dec_parse_header, hh]
    have hm : ¬ (8 ≤ buf.size ∧ buf.data.take 8 = OpusHead) :=
      fun h => hh ((is_header_iff buf OpusHead rfl).mpr h)
    rw [hres]
    refine ⟨?_, ?_, ?_, ?_, ?_⟩
    · constructor
      · intro _
        by_cases h19 : buf.size < 19
        · left; exact h19
        · right; intro ht; exact hm ⟨by omega, ht⟩
      · intro _; rfl
    · intro h; exact absurd rfl h
    · intro _; rfl
    · intro i hi; exact (hreads i hi).1
    · intro i hi h8; have := (hreads i hi).2; omega

/-! ## The decode scheduler in FEC mode -/

/-- C1: in `opus_dec_chain_parse_data` with `use_inband_fec` set and `primed`
true, for a payload packet `b`.  With a pending packet `last`: every engine
call of the invocation is on the bytes of `last` with FEC flag 0, and when the
session block and the allocation succeed there is exactly one such call and
the frame handed to `finish_frame` (on a non-negative result) is the trimmed
output of that decode of `last`.  Without a pending packet: every engine call
is on the bytes of `b` with FEC flag 1, and there is exactly one when the
session block and the allocation succeed. -/
theorem fec_primed_decode_choice (env : Env) (dec : GstOpusDec) (b : GstBuffer)
    (hfec : dec.use_inband_fec = true) (hprimed : dec.primed = true) :
    (∀ last, dec.last_buffer = some last →
      (∀ e ∈ (opus_dec_chain_parse_data env dec (some b)).trace, e.is_decode = true →
        ∃ st, e = Event.opus_decode st (some last.data) (last.size : Int)
          (frame_samples (after_session_block env dec)) 0) ∧
      (∀ st, session_ok env dec st →
        env.pad_alloc_buffer (packet_size (after_session_block env dec)) = GST_FLOW_OK →
        (opus_dec_chain_parse_data env dec (some b)).trace.filter Event.is_decode =
          [Event.opus_decode st (some last.data) (last.size : Int)
            (frame_samples (after_session_block env dec)) 0] ∧
        (0 ≤ (env.opus_decode st (some last.data) (last.size : Int)
            (frame_samples (after_session_block env dec)) 0).n →
          (opus_dec_chain_parse_data env dec (some b)).trace.filter Event.is_finish =
            [Event.finish_frame
              (skip_samples (after_session_block env dec)
                (env.opus_decode st (some last.data) (last.size : Int)
                  (frame_samples (after_session_block env dec)) 0).n
                { pcm := (env.opus_decode st (some last.data) (last.size : Int)
                    (frame_samples (after_session_block env dec)) 0).pcm,
                  offset := 0,
                  size := to_guint ((env.opus_decode st (some last.data) (last.size : Int)
                    (frame_samples (after_session_block env dec)) 0).n
                    * 2 * (after_session_block env dec).n_channels) }).2 1]))) ∧
    (dec.last_buffer = none →
      (∀ e ∈ (opus_dec_chain_parse_data env dec (some b)).trace, e.is_decode = true →
        ∃ st, e = Event.opus_decode st (some b.data) (b.size : Int)
          (frame_samples (after_session_block env dec)) 1) ∧
      (∀ st, session_ok env dec st →
        env.pad_alloc_buffer (packet_size (after_session_block env dec)) = GST_FLOW_OK →
        (opus_dec_chain_parse_data env dec (some b)).trace.filter Event.is_decode =
          [Event.opus_decode st (some b.data) (b.size : Int)
            (frame_samples (after_session_block env dec)) 1])) := by
  have hfr := after_session_block_frame env dec
  have hfec2 : (after_session_block env dec).use_inband_fec = true := by
    rw [hfr.2.2.2.2.1]; exact hfec
  have core := chain_decode_calls env dec (some b) (Or.inr hprimed)
  constructor
  · intro last hlast
    have hlast2 : (after_session_block env dec).last_buffer = some last := by
      rw [hfr.2.2.2.2.2.1]; exact hlast
    constructor
    · intro e he hd
      obtain ⟨st, _, hst⟩ := core.1 e he hd
      exact ⟨st, by rw [hst, (decode_call_fec_pending env _ st (some b) last hfec2 hlast2).1]⟩
    · intro st hs halloc
      have h := core.2 st hs halloc
      have hc := decode_call_fec_pending env _ st (some b) last hfec2 hlast2
      rw [hc.1, hc.2] at h
      exact ⟨h.1, h.2.2⟩
  · intro hlast
    have hlast2 : (after_session_block env dec).last_buffer = none := by
      rw [hfr.2.2.2.2.2.1]; exact hlast
    constructor
    · intro e he hd
      obtain ⟨st, _, hst⟩ := core.1 e he hd
      exact ⟨st, by rw [hst, (decode_call_fec_lost env _ st b hfec2 hlast2).1]⟩
    · intro st hs halloc
      have h := core.2 st hs halloc
      rw [(decode_call_fec_lost env _ st b hfec2 hlast2).1] at h
      exact h.1

theorem fec_primed_decode_choice_witness :
    (opus_dec_chain_parse_data env_ok dec_fec_ready (some payload_b)).trace.filter
        Event.is_decode = [Event.opus_decode 1 (some payload_a.data) 4 5760 0] ∧
    (opus_dec_chain_parse_data env_ok dec_fec_lost (some payload_b)).trace.filter
        Event.is_decode = [Event.opus_decode 1 (some payload_b.data) 3 5760 1] :=
  ⟨((((fec_primed_decode_choice env_ok dec_fec_ready payload_b rfl rfl).1
      payload_a rfl).2 1 rfl rfl).1 : _),
   (((fec_primed_decode_choice env_ok dec_fec_lost payload_b rfl rfl).2 rfl).2 1 rfl rfl : _)⟩

/-- C2: with `use_inband_fec` set and `primed` false, and the session present
or created without error, `opus_dec_chain_parse_data` on any packet makes no
call of the decode engine and none of `finish_frame` (its only call, if any,
is the creation of the session), returns `GST_FLOW_OK`, stores the packet as
`last_buffer`, sets `primed`, and leaves the skip budget as it was. -/
theorem fec_first_packet_primes (env : Env) (dec : GstOpusDec) (buffer : Option GstBuffer)
    (st : Nat) (hfec : dec.use_inband_fec = true) (hprimed : dec.primed = false)
    (hs : session_ok env dec st) :
    (∀ e ∈ (opus_dec_chain_parse_data env dec buffer).trace,
      e.is_decode = false ∧ e.is_finish = false) ∧
    (opus_dec_chain_parse_data env dec buffer).trace = session_trace env dec ∧
    (opus_dec_chain_parse_data env dec buffer).res = GST_FLOW_OK ∧
    (opus_dec_chain_parse_data env dec buffer).dec.last_buffer = buffer ∧
    (opus_dec_chain_parse_data env dec buffer).dec.primed = true ∧
    (opus_dec_chain_parse_data env dec buffer).dec.pre_skip = dec.pre_skip ∧
    (opus_dec_chain_parse_data env dec buffer).dec.state = some st := by
  have hfr := after_session_block_frame env dec
  have hfec2 : (after_session_block env dec).use_inband_fec = true := by
    rw [hfr.2.2.2.2.1]; exact hfec
  have hprimed2 : (after_session_block env dec).primed = false := by
    rw [hfr.2.2.2.2.2.2]; exact hprimed
  rw [chain_of_session_ok env dec buffer st hs,
    chain_decode_priming env _ st buffer _ hfec2 hprimed2]
  refine ⟨fun e he => mem_session_trace env dec e he, rfl, rfl, rfl, rfl, hfr.2.2.2.1, ?_⟩
  exact after_session_block_state env dec st hs

theorem fec_first_packet_primes_witness :
    (opus_dec_chain_parse_data env_ok dec_fec_fresh (some payload_a)).res = GST_FLOW_OK ∧
    (opus_dec_chain_parse_data env_ok dec_fec_fresh (some payload_a)).dec.last_buffer =
      some payload_a ∧
    (opus_dec_chain_parse_data env_ok dec_fec_fresh (some payload_a)).dec.primed = true :=
  ⟨(fec_first_packet_primes env_ok dec_fec_fresh (some payload_a) 1 rfl rfl rfl).2.2.1,
   (fec_first_packet_primes env_ok dec_fec_fresh (some payload_a) 1 rfl rfl rfl).2.2.2.1,
   (fec_first_packet_primes env_ok dec_fec_fresh (some payload_a) 1 rfl rfl rfl).2.2.2.2.1⟩

/-- C3, as stated, fails on the decode-error return: the element is in FEC
mode and primed with `payload_a` pending, the engine rejects the decode, and
after the call `last_buffer` still holds `payload_a`, not the incoming
`payload_b`. -/
theorem fec_last_buffer_kept_on_decode_error :
    dec_fec_ready.use_inband_fec = true ∧
    (opus_dec_chain_parse_data env_decode_error dec_fec_ready (some payload_b)).res =
      GST_FLOW_ERROR ∧
    (opus_dec_chain_parse_data env_decode_error dec_fec_ready (some payload_b)).dec.last_buffer =
      some payload_a ∧
    ¬ ((opus_dec_chain_parse_data env_decode_error dec_fec_ready
        (some payload_b)).dec.last_buffer = some payload_b) := by
  refine ⟨rfl, rfl, rfl, ?_⟩
  decide

/-- C3, amended: with `use_inband_fec` set, `opus_dec_chain_parse_data` leaves
the incoming packet in `last_buffer` and `primed` true on every path that
reaches the label `done` (the session is present or created and either the
element was not primed, or the allocation is granted and the decode result is
not negative, whatever `finish_frame` answers); on the three error returns
(session creation failed, allocation refused, negative decode result)
`last_buffer` and `primed` keep their values and the flow returned is not
`GST_FLOW_OK`. -/
theorem fec_last_buffer_replaced_at_done (env : Env) (dec : GstOpusDec)
    (buffer : Option GstBuffer) (hfec : dec.use_inband_fec = true) :
    (∀ st, session_ok env dec st →
      (dec.primed = false ∨
        (env.pad_alloc_buffer (packet_size (after_session_block env dec)) = GST_FLOW_OK ∧
          0 ≤ (decode_reply env (after_session_block env dec) st buffer).n)) →
      (opus_dec_chain_parse_data env dec buffer).dec.last_buffer = buffer ∧
      (opus_dec_chain_parse_data env dec buffer).dec.primed = true) ∧
    (((∀ st, ¬ session_ok env dec st) ∨
      (dec.primed = true ∧
        (env.pad_alloc_buffer (packet_size (after_session_block env dec)) ≠ GST_FLOW_OK ∨
          ∃ st, session_ok env dec st ∧
            (decode_reply env (after_session_block env dec) st buffer).n < 0))) →
      (opus_dec_chain_parse_data env dec buffer).dec.last_buffer = dec.last_buffer ∧
      (opus_dec_chain_parse_data env dec buffer).dec.primed = dec.primed ∧
      (opus_dec_chain_parse_data env dec buffer).res ≠ GST_FLOW_OK) := by
  have hfr := after_session_block_frame env dec
  have hfec2 : (after_session_block env dec).use_inband_fec = true := by
    rw [hfr.2.2.2.2.1]; exact hfec
  have hfail : (∀ st, ¬ session_ok env dec st) →
      (opus_dec_chain_parse_data env dec buffer).dec.last_buffer = dec.last_buffer ∧
      (opus_dec_chain_parse_data env dec buffer).dec.primed = dec.primed ∧
      (opus_dec_chain_parse_data env dec buffer).res ≠ GST_FLOW_OK := by
    intro h
    rw [chain_of_session_failed env dec buffer h]
    exact ⟨hfr.2.2.2.2.2.1, hfr.2.2.2.2.2.2, fun h => flow_ok_ne_error h.symm⟩
  constructor
  · intro st hs hpath
    rw [chain_of_session_ok env dec buffer st hs]
    by_cases hprimed : dec.primed = true
    · have hgo : (after_session_block env dec).use_inband_fec = false ∨
          (after_session_block env dec).primed = true := by
        right; rw [hfr.2.2.2.2.2.2]; exact hprimed
      rcases hpath with h | ⟨halloc, hn⟩
      · rw [h] at hprimed; cases hprimed
      · rw [chain_decode_finished env _ st buffer _ hgo halloc hn]
        exact chain_done_fec _ _ _ _
          (by rw [(skip_samples_frame _ _ _).2.2.2.2.2.2.1]; exact hfec2)
    · have hprimed2 : (after_session_block env dec).primed = false := by
        rw [hfr.2.2.2.2.2.2]; simpa using hprimed
      rw [chain_decode_priming env _ st buffer _ hfec2 hprimed2]
      exact ⟨rfl, rfl⟩
  · intro hpath
    by_cases hex : ∃ st, session_ok env dec st
    · obtain ⟨st, hs⟩ := hex
      rcases hpath with h | ⟨hprimed, h⟩
      · exact hfail h
      · have hgo : (after_session_block env dec).use_inband_fec = false ∨
            (after_session_block env dec).primed = true := by
          right; rw [hfr.2.2.2.2.2.2]; exact hprimed
        rw [chain_of_session_ok env dec buffer st hs]
        by_cases halloc :
            env.pad_alloc_buffer (packet_size (after_session_block env dec)) = GST_FLOW_OK
        · rcases h with h | ⟨st2, hs2, hn⟩
          · exact absurd halloc h
          · have := session_ok_unique env dec st st2 hs hs2
            subst this
            rw [chain_decode_error env _ st buffer _ hgo halloc hn]
            exact ⟨hfr.2.2.2.2.2.1, hfr.2.2.2.2.2.2, fun h => flow_ok_ne_error h.symm⟩
        · rw [chain_decode_alloc_failed env _ st buffer _ hgo halloc]
          exact ⟨hfr.2.2.2.2.2.1, hfr.2.2.2.2.2.2, halloc⟩
    · exact hfail (fun st h => hex ⟨st, h⟩)

theorem fec_last_buffer_replaced_at_done_witness :
    (opus_dec_chain_parse_data env_ok dec_fec_ready (some payload_b)).dec.last_buffer =
      some payload_b ∧
    (opus_dec_chain_parse_data env_ok dec_fec_ready (some payload_b)).dec.primed = true :=
  (fec_last_buffer_replaced_at_done env_ok dec_fec_ready (some payload_b) rfl).1 1 rfl
    (Or.inr ⟨rfl, by decide⟩)

/-! ## The packet classifier -/

/-- C4, as stated, fails: `gst_opus_dec_handle_frame` on an absent buffer does
not advance the packet index and makes no call at all, in FEC mode with a
pending packet as elsewhere; the pending packet stays. -/
theorem handle_frame_null_does_not_advance :
    ¬ ((gst_opus_dec_handle_frame env_ok dec_fec_ready none).dec.packetno =
        dec_fec_ready.packetno + 1) ∧
    (gst_opus_dec_handle_frame env_ok dec_fec_ready none).trace = [] ∧
    (gst_opus_dec_handle_frame env_ok dec_fec_ready none).dec.last_buffer =
      some payload_a ∧
    (opus_dec_chain_parse_data env_ok dec_fec_ready none).dec.last_buffer = none := by
  refine ⟨by decide, rfl, rfl, rfl⟩

/-- C4, amended: for every decoder state, `gst_opus_dec_handle_frame` called
with an absent buffer returns `GST_FLOW_OK` at once ("no fancy draining"): it
makes no call (the decode scheduler is not entered), and the element, packet
index and pending packet included, is unchanged. -/
theorem handle_frame_null_is_noop (env : Env) (dec : GstOpusDec) :
    gst_opus_dec_handle_frame env dec none =
      { res := GST_FLOW_OK, dec := dec, trace := [] } := rfl

/-- C5: when the two out-of-band headers are not both stored,
`gst_opus_dec_handle_frame` on a packet `b` goes by the packet index.  At
index 0 the packet is handled as the identification packet (result and
element of `gst_opus_dec_parse_header`, a `NULL` frame finished, no engine
call) if and only if it has at least 8 bytes and its first 8 bytes are
"OpusHead", else it goes to the decode scheduler; at index 1 it is handled as
the comment packet if and only if its first 8 bytes are "OpusTags", else it
goes to the decode scheduler; at every index from 2 on it goes to the decode
scheduler.  In each case the packet index is then incremented. -/
theorem classify_by_packet_index (env : Env) (dec : GstOpusDec) (b : GstBuffer)
    (hoob : dec.streamheader = none ∨ dec.vorbiscomment = none) :
    (dec.packetno = 0 →
      ((8 ≤ b.size ∧ b.data.take 8 = OpusHead) →
        gst_opus_dec_handle_frame env dec (some b) =
          packetno_incr { res := (gst_opus_dec_parse_header dec b).res,
                          dec := (gst_opus_dec_parse_header dec b).dec,
                          trace := [Event.finish_frame none 1] }) ∧
      (¬ (8 ≤ b.size ∧ b.data.take 8 = OpusHead) →
        gst_opus_dec_handle_frame env dec (some b) =
          packetno_incr (opus_dec_chain_parse_data env dec (some b))) ∧
      (((∀ e ∈ (gst_opus_dec_handle_frame env dec (some b)).trace, e.is_decode = false) ∧
          Event.finish_frame none 1 ∈ (gst_opus_dec_handle_frame env dec (some b)).trace) ↔
        (8 ≤ b.size ∧ b.data.take 8 = OpusHead))) ∧
    (dec.packetno = 1 →
      (b.data.take 8 = OpusTags →
        gst_opus_dec_handle_frame env dec (some b) =
          packetno_incr { res := GST_FLOW_OK, dec := dec,
                          trace := [Event.finish_frame none 1] }) ∧
      (b.data.take 8 ≠ OpusTags →
        gst_opus_dec_handle_frame env dec (some b) =
          packetno_incr (opus_dec_chain_parse_data env dec (some b))) ∧
      (((∀ e ∈ (gst_opus_dec_handle_frame env dec (some b)).trace, e.is_decode = false) ∧
          Event.finish_frame none 1 ∈ (gst_opus_dec_handle_frame env dec (some b)).trace) ↔
        b.data.take 8 = OpusTags)) ∧
    (2 ≤ dec.packetno →
      gst_opus_dec_handle_frame env dec (some b) =
        packetno_incr (opus_dec_chain_parse_data env dec (some b))) := by
  have hdisp : handle_frame_dispatch env dec b =
      match dec.packetno with
      | 0 =>
        if gst_opus_header_is_header b OpusHead 8 then
          { res := (gst_opus_dec_parse_header dec b).res,
            dec := (gst_opus_dec_parse_header dec b).dec,
            trace := [Event.finish_frame none 1] }
        else opus_dec_chain_parse_data env dec (some b)
      | 1 =>
        if gst_opus_header_is_header b OpusTags 8 then
          { res := gst_opus_dec_parse_comments dec b, dec := dec,
            trace := [Event.finish_frame none 1] }
        else opus_dec_chain_parse_data env dec (some b)
      | _ => opus_dec_chain_parse_data env dec (some b) := by
    unfold handle_frame_dispatch
    rcases hoob with h | h
    · rw [h]
    · rw [h]; cases dec.streamheader <;> rfl
  have hhead := is_header_iff b OpusHead rfl
  have htags := is_header_iff b OpusTags rfl
  have htags2 : gst_opus_header_is_header b OpusTags 8 = true ↔ b.data.take 8 = OpusTags := by
    rw [htags]
    constructor
    · exact fun h => h.2
    · intro h
      refine ⟨?_, h⟩
      have hl : (b.data.take 8).length = 8 := by rw [h]; rfl
      rw [List.length_take] at hl
      unfold GstBuffer.size
      omega
  refine ⟨?_, ?_, ?_⟩
  · intro h0
    have hyes : (8 ≤ b.size ∧ b.data.take 8 = OpusHead) →
        gst_opus_dec_handle_frame env dec (some b) =
          packetno_incr { res := (gst_opus_dec_parse_header dec b).res,
                          dec := (gst_opus_dec_parse_header dec b).dec,
                          trace := [Event.finish_frame none 1] } := by
      intro hc
      have := hhead.mpr hc
      simp only [gst_opus_dec_handle_frame, hdisp, h0, this, if_true]
    have hno : ¬ (8 ≤ b.size ∧ b.data.take 8 = OpusHead) →
        gst_opus_dec_handle_frame env dec (some b) =
          packetno_incr (opus_dec_chain_parse_data env dec (some b)) := by
      intro hc
      have : gst_opus_header_is_header b OpusHead 8 = false := by
        cases hx : gst_opus_header_is_header b OpusHead 8
        · rfl
        · exact absurd (hhead.mp hx) hc
      simp [gst_opus_dec_handle_frame, hdisp, h0, this]
    refine ⟨hyes, hno, ?_⟩
    constructor
    · intro hobs
      by_contra hc
      rw [hno hc] at hobs
      exact (header_handling_observable env dec b ⟨0, dec, [Event.finish_frame none 1]⟩ rfl).2 hobs
    · intro hc
      rw [hyes hc]
      exact (header_handling_observable env dec b _ rfl).1
  · intro h1
    have hyes : b.data.take 8 = OpusTags →
        gst_opus_dec_handle_frame env dec (some b) =
          packetno_incr { res := GST_FLOW_OK, dec := dec,
                          trace := [Event.finish_frame none 1] } := by
      intro hc
      have := htags2.mpr hc
      simp only [gst_opus_dec_handle_frame, hdisp, h1, this, if_true,
        gst_opus_dec_parse_comments]
    have hno : b.data.take 8 ≠ OpusTags →
        gst_opus_dec_handle_frame env dec (some b) =
          packetno_incr (opus_dec_chain_parse_data env dec (some b)) := by
      intro hc
      have : gst_opus_header_is_header b OpusTags 8 = false := by
        cases hx : gst_opus_header_is_header b OpusTags 8
        · rfl
        · exact absurd (htags2.mp hx) hc
      simp [gst_opus_dec_handle_frame, hdisp, h1, this]
    refine ⟨hyes, hno, ?_⟩
    constructor
    · intro hobs
      by_contra hc
      rw [hno hc] at hobs
      exact (header_handling_observable env dec b ⟨0, dec, [Event.finish_frame none 1]⟩ rfl).2 hobs
    · intro hc
      rw [hyes hc]
      exact (header_handling_observable env dec b _ rfl).1
  · intro h2
    obtain ⟨k, hk⟩ : ∃ k, dec.packetno = k + 2 := ⟨dec.packetno - 2, by omega⟩
    simp only [gst_opus_dec_handle_frame, hdisp, hk]

theorem classify_by_packet_index_witness :
    gst_opus_dec_handle_frame env_ok gst_opus_dec_init (some ident_packet_312) =
      packetno_incr
        { res := (gst_opus_dec_parse_header gst_opus_dec_init ident_packet_312).res,
          dec := (gst_opus_dec_parse_header gst_opus_dec_init ident_packet_312).dec,
          trace := [Event.finish_frame none 1] } :=
  ((classify_by_packet_index env_ok gst_opus_dec_init ident_packet_312 (Or.inl rfl)).1 rfl).1
    ⟨by decide, by decide⟩

/-- C6: when both out-of-band buffers are stored, for every packet `b` and
every packet index, `gst_opus_dec_handle_frame` finishes a `NULL` frame,
makes no engine call and returns `GST_FLOW_OK`, leaving all but the packet
index as it was, when `b` has the length and the bytes of the stored
identification buffer or of the stored comment buffer; every other packet
goes to the decode scheduler, whatever its leading bytes.  A `NULL` frame
finished without an engine call happens for the matching packets only. -/
theorem classify_by_stored_headers (env : Env) (dec : GstOpusDec) (b sh vc : GstBuffer)
    (hsh : dec.streamheader = some sh) (hvc : dec.vorbiscomment = some vc) :
    (((b.size = sh.size ∧ b.data = sh.data) ∨ (b.size = vc.size ∧ b.data = vc.data)) →
      gst_opus_dec_handle_frame env dec (some b) =
        packetno_incr { res := GST_FLOW_OK, dec := dec,
                        trace := [Event.finish_frame none 1] }) ∧
    (¬ ((b.size = sh.size ∧ b.data = sh.data) ∨ (b.size = vc.size ∧ b.data = vc.data)) →
      gst_opus_dec_handle_frame env dec (some b) =
        packetno_incr (opus_dec_chain_parse_data env dec (some b))) ∧
    (((∀ e ∈ (gst_opus_dec_handle_frame env dec (some b)).trace, e.is_decode = false) ∧
        Event.finish_frame none 1 ∈ (gst_opus_dec_handle_frame env dec (some b)).trace) ↔
      ((b.size = sh.size ∧ b.data = sh.data) ∨ (b.size = vc.size ∧ b.data = vc.data))) := by
  have hb : ∀ x : GstBuffer, (b.size = x.size ∧ b.data = x.data) ↔ memcmp_buffers x b = true := by
    intro x
    rw [memcmp_buffers_iff]
    constructor
    · rintro ⟨_, h⟩; cases x; cases b; simp_all
    · intro h; subst h; exact ⟨rfl, rfl⟩
  have hyes : ((b.size = sh.size ∧ b.data = sh.data) ∨ (b.size = vc.size ∧ b.data = vc.data)) →
      gst_opus_dec_handle_frame env dec (some b) =
        packetno_incr { res := GST_FLOW_OK, dec := dec,
                        trace := [Event.finish_frame none 1] } := by
    intro hc
    rw [hb sh, hb vc] at hc
    simp only [gst_opus_dec_handle_frame, handle_frame_dispatch, hsh, hvc]
    rcases hc with h | h
    · simp [h]
    · by_cases h2 : memcmp_buffers sh b = true <;> simp [h, h2]
  have hno : ¬ ((b.size = sh.size ∧ b.data = sh.data) ∨ (b.size = vc.size ∧ b.data = vc.data)) →
      gst_opus_dec_handle_frame env dec (some b) =
        packetno_incr (opus_dec_chain_parse_data env dec (some b)) := by
    intro hc
    rw [hb sh, hb vc, not_or] at hc
    simp only [gst_opus_dec_handle_frame, handle_frame_dispatch, hsh, hvc]
    simp [hc.1, hc.2]
  refine ⟨hyes, hno, ?_⟩
  constructor
  · intro hobs
    by_contra hc
    rw [hno hc] at hobs
    exact (header_handling_observable env dec b ⟨0, dec, [Event.finish_frame none 1]⟩ rfl).2 hobs
  · intro hc
    rw [hyes hc]
    exact (header_handling_observable env dec b _ rfl).1

theorem classify_by_stored_headers_witness :
    gst_opus_dec_handle_frame env_ok dec_oob (some ident_packet_312) =
      packetno_incr { res := GST_FLOW_OK, dec := dec_oob,
                      trace := [Event.finish_frame none 1] } ∧
    gst_opus_dec_handle_frame env_ok dec_oob (some ident_packet_0) =
      packetno_incr (opus_dec_chain_parse_data env_ok dec_oob (some ident_packet_0)) :=
  ⟨(classify_by_stored_headers env_ok dec_oob ident_packet_312 ident_packet_312
      comment_packet rfl rfl).1 (Or.inl ⟨rfl, rfl⟩),
   (classify_by_stored_headers env_ok dec_oob ident_packet_0 ident_packet_312
      comment_packet rfl rfl).2.1 (by decide)⟩

/-! ## The pre-skip trimmer -/

/-- C9: for a decode that returns `m ≥ 0` samples with skip budget `B > 0`
(within the 16 bits `gst_opus_dec_parse_header` stores), negotiated rate `R`
among 8000, 12000, 16000, 24000, 48000 and `c ≥ 1` channels (the byte size
`m * 2 * c` fitting an `int`), the trimmer of `opus_dec_chain_parse_data`
computes `scaled_pre_skip = B * R / 48000`, `skip = min m scaled_pre_skip` and
`scaled_skip = skip * 48000 / R`, leaves the budget `B - scaled_skip`,
advances the start of the output by `skip * 2 * c` bytes and sets its byte
length to `(m - skip) * 2 * c`; that buffer (or `NULL` when the length is 0)
is the one handed to `finish_frame`. -/
theorem trimmer_step (env : Env) (dec : GstOpusDec) (buffer : Option GstBuffer) (st : Nat)
    (B R c m : Nat) (hs : session_ok env dec st)
    (hgo : dec.use_inband_fec = false ∨ dec.primed = true)
    (halloc : env.pad_alloc_buffer (packet_size (after_session_block env dec)) = GST_FLOW_OK)
    (hn : (decode_reply env (after_session_block env dec) st buffer).n = (m : Int))
    (hB : dec.pre_skip = B) (hB0 : 0 < B) (hB16 : B ≤ 65535)
    (hR : (after_session_block env dec).sample_rate = (R : Int))
    (hRa : R ∈ [8000, 12000, 16000, 24000, 48000])
    (hc : (after_session_block env dec).n_channels = (c : Int)) (hc1 : 1 ≤ c)
    (hrep : m * 2 * c < 2147483648) :
    scaled_pre_skip (after_session_block env dec) = B * R / 48000 ∧
    skip (after_session_block env dec) (m : Int) = min m (B * R / 48000) ∧
    scaled_skip (after_session_block env dec) (m : Int) =
      min m (B * R / 48000) * 48000 / R ∧
    (opus_dec_chain_parse_data env dec buffer).dec.pre_skip =
      B - min m (B * R / 48000) * 48000 / R ∧
    skip_bytes (after_session_block env dec) (m : Int) = min m (B * R / 48000) * 2 * c ∧
    (to_guint ((m : Int) * 2 * (after_session_block env dec).n_channels) + 4294967296 -
        skip_bytes (after_session_block env dec) (m : Int)) % 4294967296 =
      (m - min m (B * R / 48000)) * 2 * c ∧
    (opus_dec_chain_parse_data env dec buffer).trace.filter Event.is_finish =
      [Event.finish_frame
        (if (m - min m (B * R / 48000)) * 2 * c = 0 then none
         else some { pcm := (decode_reply env (after_session_block env dec) st buffer).pcm,
                     offset := min m (B * R / 48000) * 2 * c,
                     size := (m - min m (B * R / 48000)) * 2 * c }) 1] := by
  have hfr := after_session_block_frame env dec
  have hgo2 : (after_session_block env dec).use_inband_fec = false ∨
      (after_session_block env dec).primed = true := by
    rw [hfr.2.2.2.2.1, hfr.2.2.2.2.2.2]; exact hgo
  have hB2 : (after_session_block env dec).pre_skip = B := by rw [hfr.2.2.2.1]; exact hB
  obtain ⟨h1, h2, h3, h4, h5⟩ :=
    trimmer_values (after_session_block env dec) B R c m hB2 hB16 hR hRa hc hc1 hrep
  have hex := skip_samples_exact (after_session_block env dec) B R c m
    (decode_reply env (after_session_block env dec) st buffer).pcm hB2 hB0 hB16 hR hRa hc hc1
    hrep
  have hn0 : 0 ≤ (decode_reply env (after_session_block env dec) st buffer).n := by
    rw [hn]; exact Int.natCast_nonneg m
  have hskm : min m (B * R / 48000) ≤ m := min_le_left _ _
  have hbytes : min m (B * R / 48000) * 2 * c ≤ m * 2 * c :=
    Nat.mul_le_mul_right _ (Nat.mul_le_mul_right _ hskm)
  have hsub : (m - min m (B * R / 48000)) * 2 * c =
      m * 2 * c - min m (B * R / 48000) * 2 * c := by
    rw [Nat.sub_mul, Nat.sub_mul]
  refine ⟨h1, h2, h3, ?_, h4, ?_, ?_⟩
  · rw [chain_of_session_ok env dec buffer st hs,
      chain_decode_finished env _ st buffer _ hgo2 halloc hn0, (chain_done_proj _ _ _ _).2.2.1,
      hn, hex]
  · rw [h4, h5, hsub]; omega
  · have h := ((chain_decode_calls env dec buffer hgo).2 st hs halloc).2.2 hn0
    rw [h, hn, hex]

theorem trimmer_step_witness :
    ((opus_dec_chain_parse_data env_ok dec_skip_312 (some payload_a)).dec.pre_skip = 0 ∧
      (opus_dec_chain_parse_data env_ok dec_skip_312 (some payload_a)).trace.filter
          Event.is_finish =
        [Event.finish_frame (some { pcm := [], offset := 1248, size := 2592 }) 1]) ∧
    ((opus_dec_chain_parse_data env_short_frame dec_skip_312_at_24000
        (some payload_a)).dec.pre_skip = 112 ∧
      (opus_dec_chain_parse_data env_short_frame dec_skip_312_at_24000
          (some payload_a)).trace.filter Event.is_finish = [Event.finish_frame none 1]) :=
  ⟨⟨(trimmer_step env_ok dec_skip_312 (some payload_a) 1 312 48000 2 960 rfl (Or.inl rfl) rfl
      rfl rfl (by decide) (by decide) rfl (by decide) rfl (by decide) (by decide)).2.2.2.1,
    (trimmer_step env_ok dec_skip_312 (some payload_a) 1 312 48000 2 960 rfl (Or.inl rfl) rfl
      rfl rfl (by decide) (by decide) rfl (by decide) rfl (by decide)
      (by decide)).2.2.2.2.2.2⟩,
   ⟨(trimmer_step env_short_frame dec_skip_312_at_24000 (some payload_a) 1 312 24000 1 100 rfl
      (Or.inl rfl) rfl rfl rfl (by decide) (by decide) rfl (by decide) rfl (by decide)
      (by decide)).2.2.2.1,
    (trimmer_step env_short_frame dec_skip_312_at_24000 (some payload_a) 1 312 24000 1 100 rfl
      (Or.inl rfl) rfl rfl rfl (by decide) (by decide) rfl (by decide) rfl (by decide)
      (by decide)).2.2.2.2.2.2⟩⟩

/-- C10: for every `guint32` budget `B`, every allowed rate `R` and every
decoded count, the amount one trim step subtracts is at most `B`: in exact
arithmetic `min m (B * R / 48000) * 48000 / R ≤ B`, and the `guint` value the
code subtracts, `scaled_skip` (equal to that expression for a budget within
16 bits), is at most `B`, so the new budget is `B - scaled_skip` without
wrap-around and lies between 0 and `B`.  When `B = 0` the trim step returns
the element and the output buffer as they are, and the budget is still 0
after any further calls of `opus_dec_chain_parse_data`. -/
theorem budget_never_grows (d : GstOpusDec) (n : Int) (outbuf : OutBuf) (R : Nat)
    (hB32 : d.pre_skip < 4294967296) (hR : d.sample_rate = (R : Int))
    (hRa : R ∈ [8000, 12000, 16000, 24000, 48000]) :
    (∀ m : Nat, min m (d.pre_skip * R / 48000) * 48000 / R ≤ d.pre_skip) ∧
    (∀ m c : Nat, d.pre_skip ≤ 65535 → d.n_channels = (c : Int) → 1 ≤ c →
      m * 2 * c < 2147483648 →
      scaled_skip d (m : Int) = min m (d.pre_skip * R / 48000) * 48000 / R) ∧
    scaled_skip d n ≤ d.pre_skip ∧
    (skip_samples d n outbuf).1.pre_skip = d.pre_skip - scaled_skip d n ∧
    (skip_samples d n outbuf).1.pre_skip ≤ d.pre_skip ∧
    (d.pre_skip = 0 →
      skip_samples d n outbuf = (d, some outbuf) ∧
      ∀ calls : List (Env × Option GstBuffer), (chain_run d calls).pre_skip = 0) := by
  have hle := scaled_skip_le_budget d n R hR hRa
  have hpre : (skip_samples d n outbuf).1.pre_skip = d.pre_skip - scaled_skip d n := by
    rw [skip_samples_pre_skip]
    split_ifs with h
    · omega
    · omega
  refine ⟨fun m => rescaled_skip_le _ R m, ?_, hle, hpre, ?_, ?_⟩
  · intro m c h16 hc hc1 hrep
    exact (trimmer_values d d.pre_skip R c m rfl h16 hR hRa hc hc1 hrep).2.2.1
  · rw [hpre]; exact Nat.sub_le _ _
  · intro h0
    exact ⟨skip_samples_zero d n outbuf h0, fun calls => chain_run_pre_skip_zero d calls h0⟩

theorem budget_never_grows_witness :
    (skip_samples dec_skip_312_at_24000 100 { pcm := [], offset := 0, size := 200 }).1.pre_skip
      ≤ dec_skip_312_at_24000.pre_skip :=
  (budget_never_grows dec_skip_312_at_24000 100 { pcm := [], offset := 0, size := 200 } 24000
    (by decide) rfl (by decide)).2.2.2.2.1

/-! ## The skip budget over a stream -/

/-- C11: for every initial budget `B` (within the 16 bits
`gst_opus_dec_parse_header` stores), every allowed rate `R` and every
sequence of decoded counts `ns` with total `N`, the samples trimmed over the
successive decode cycles add up to `min (B * R / 48000) N`; that is what a
single cycle decoding `N` samples trims, and any other split of `N` into
cycles trims as many. -/
theorem trimmed_total_split_independent (d : GstOpusDec) (B R : Nat) (ns : List Nat)
    (hB : d.pre_skip = B) (hB16 : B ≤ 65535) (hR : d.sample_rate = (R : Int))
    (hRa : R ∈ [8000, 12000, 16000, 24000, 48000]) (hns : ∀ n ∈ ns, n < 2147483648) :
    (trim_run d (ns.map (fun n : Nat => (n : Int)))).1 = min (B * R / 48000) ns.sum ∧
    (ns.sum < 2147483648 →
      (trim_run d [((ns.sum : Nat) : Int)]).1 =
        (trim_run d (ns.map (fun n : Nat => (n : Int)))).1) ∧
    (∀ ns2 : List Nat, (∀ n ∈ ns2, n < 2147483648) → ns2.sum = ns.sum →
      (trim_run d (ns2.map (fun n : Nat => (n : Int)))).1 =
        (trim_run d (ns.map (fun n : Nat => (n : Int)))).1) := by
  have h1 := (trim_run_values R hRa ns d B hB hB16 hR hns).1
  refine ⟨h1, ?_, ?_⟩
  · intro hsum
    have h := (trim_run_values R hRa [ns.sum] d B hB hB16 hR
      (by intro n hn; rw [List.mem_singleton] at hn; rw [hn]; exact hsum)).1
    simp only [List.map_cons, List.map_nil, List.sum_cons, List.sum_nil, Nat.add_zero] at h
    rw [h, h1]
  · intro ns2 hns2 hsum
    rw [(trim_run_values R hRa ns2 d B hB hB16 hR hns2).1, h1, hsum]

theorem trimmed_total_split_independent_witness :
    (trim_run dec_skip_312_at_24000 [100, 30, 500]).1 = 156 ∧
    (trim_run dec_skip_312_at_24000 [630]).1 = (trim_run dec_skip_312_at_24000 [100, 30, 500]).1 :=
  ⟨(trimmed_total_split_independent dec_skip_312_at_24000 312 24000 [100, 30, 500] rfl
      (by decide) rfl (by decide) (by decide)).1,
   (trimmed_total_split_independent dec_skip_312_at_24000 312 24000 [100, 30, 500] rfl
      (by decide) rfl (by decide) (by decide)).2.1 (by decide)⟩

/-- C12, as stated, fails at rates below 48000 Hz: an identification packet
announcing a pre-skip of 313 is handled, then a packet is decoded to 960
samples at 24000 Hz, more than the rescaled budget of 156; the skip budget is
then 1, not 0, and it is still 1 after the next decode cycle. -/
theorem budget_stuck_above_zero :
    (gst_opus_dec_handle_frame env_24000 gst_opus_dec_init (some ident_packet_313)).dec.pre_skip
      = 313 ∧
    (opus_dec_chain_parse_data env_24000
      (gst_opus_dec_handle_frame env_24000 gst_opus_dec_init (some ident_packet_313)).dec
      (some payload_a)).dec.pre_skip = 1 ∧
    (chain_run
      (gst_opus_dec_handle_frame env_24000 gst_opus_dec_init (some ident_packet_313)).dec
      [(env_24000, some payload_a), (env_24000, some payload_b)]).pre_skip = 1 ∧
    ¬ ((chain_run
      (gst_opus_dec_handle_frame env_24000 gst_opus_dec_init (some ident_packet_313)).dec
      [(env_24000, some payload_a), (env_24000, some payload_b)]).pre_skip = 0) := by
  refine ⟨rfl, rfl, rfl, ?_⟩
  decide

/-- C12, amended: for every initial budget `B` within 16 bits and every
allowed rate `R`, once the decoded counts add up to the rescaled budget
`B * R / 48000` or more, the skip budget is `B % (48000 / R)`: it is 0 exactly
when `48000 / R` divides `B`, hence always at 48000 Hz.  After every later
decode cycle it still has that value and no further sample is trimmed. -/
theorem budget_settles_at_remainder (d : GstOpusDec) (B R : Nat) (ns : List Nat)
    (hB : d.pre_skip = B) (hB16 : B ≤ 65535) (hR : d.sample_rate = (R : Int))
    (hRa : R ∈ [8000, 12000, 16000, 24000, 48000]) (hns : ∀ n ∈ ns, n < 2147483648)
    (hreach : B * R / 48000 ≤ ns.sum) :
    (trim_run d (ns.map (fun n : Nat => (n : Int)))).2.pre_skip = B % (48000 / R) ∧
    ((trim_run d (ns.map (fun n : Nat => (n : Int)))).2.pre_skip = 0 ↔ (48000 / R) ∣ B) ∧
    (R = 48000 → (trim_run d (ns.map (fun n : Nat => (n : Int)))).2.pre_skip = 0) ∧
    (∀ more : List Nat, (∀ n ∈ more, n < 2147483648) →
      (trim_run (trim_run d (ns.map (fun n : Nat => (n : Int)))).2
        (more.map (fun n : Nat => (n : Int)))).2.pre_skip = B % (48000 / R) ∧
      (trim_run (trim_run d (ns.map (fun n : Nat => (n : Int)))).2
        (more.map (fun n : Nat => (n : Int)))).1 = 0) := by
  obtain ⟨_, h2, h3⟩ := trim_run_values R hRa ns d B hB hB16 hR hns
  have hk : B * R / 48000 = B / (48000 / R) ∧ 0 < 48000 / R := by
    simp only [List.mem_cons, List.mem_singleton, List.not_mem_nil, or_false] at hRa
    rcases hRa with h | h | h | h | h <;> subst h <;> omega
  have hmod : (trim_run d (ns.map (fun n : Nat => (n : Int)))).2.pre_skip = B % (48000 / R) := by
    rw [h2, min_eq_left hreach, hk.1, Nat.mod_def, Nat.mul_comm]
  have hlt : B % (48000 / R) < 48000 / R := Nat.mod_lt _ hk.2
  have hle : B % (48000 / R) ≤ B := Nat.mod_le _ _
  refine ⟨hmod, ?_, ?_, ?_⟩
  · rw [hmod]; exact Nat.dvd_iff_mod_eq_zero.symm
  · intro h48
    rw [hmod, h48]
    omega
  · intro more hmore
    obtain ⟨m1, m2, _⟩ := trim_run_values R hRa more _ _ hmod (le_trans hle hB16)
      (h3.trans hR) hmore
    have hzero : B % (48000 / R) * R / 48000 = 0 := by
      simp only [List.mem_cons, List.mem_singleton, List.not_mem_nil, or_false] at hRa
      rcases hRa with h | h | h | h | h <;> subst h <;> omega
    rw [m1, m2, hzero]
    simp

theorem budget_settles_at_remainder_witness :
    (trim_run dec_skip_312_at_24000 [100, 30, 500]).2.pre_skip = 0 :=
  (budget_settles_at_remainder dec_skip_312_at_24000 312 24000 [100, 30, 500] rfl
    (by decide) rfl (by decide) (by decide) (by decide)).1

/-! ## Decode errors and the plain decode path -/

/-- C13, as stated, fails on a first payload packet: the element has no
session, `opus_dec_chain_parse_data` creates session 1 at the rate and
channels of the peer caps, the engine then rejects the packet, and the
function returns `GST_FLOW_ERROR` without calling `finish_frame`.  The
session handle is then session 1, not the absent handle from before the
call, and the element is not the one from before the call. -/
theorem decode_error_after_creation_keeps_new_session :
    gst_opus_dec_init.state = none ∧
    (opus_dec_chain_parse_data env_decode_error gst_opus_dec_init (some payload_a)).res =
      GST_FLOW_ERROR ∧
    (opus_dec_chain_parse_data env_decode_error gst_opus_dec_init (some payload_a)).trace =
      [Event.decoder_create 48000 2, Event.pad_alloc_buffer 23040,
       Event.opus_decode 1 (some payload_a.data) 4 5760 0, Event.element_error (-4)] ∧
    (opus_dec_chain_parse_data env_decode_error gst_opus_dec_init (some payload_a)).dec.state =
      some 1 ∧
    (opus_dec_chain_parse_data env_decode_error gst_opus_dec_init
      (some payload_a)).dec.sample_rate = 48000 ∧
    ¬ ((opus_dec_chain_parse_data env_decode_error gst_opus_dec_init (some payload_a)).dec.state =
        gst_opus_dec_init.state) ∧
    ¬ ((opus_dec_chain_parse_data env_decode_error gst_opus_dec_init (some payload_a)).dec =
        gst_opus_dec_init) := by
  refine ⟨rfl, rfl, rfl, rfl, rfl, ?_, ?_⟩
  · decide
  · decide

/-- C13, amended: when the decode engine answers a negative value to the
call of `opus_dec_chain_parse_data`, the function returns `GST_FLOW_ERROR`,
posts the error with that value, and never calls `finish_frame`.  The
pending packet, `primed` and the skip budget are exactly as before the
invocation.  The session handle is the one the failing decode was given: the
one present before the invocation, in which case the whole element is
unchanged, or the one this invocation created, in which case the element is
as the session block left it.  The handle is not destroyed: the next
invocation finds session `st`, creates none and gives `st` to the engine. -/
theorem decode_error_keeps_session (env : Env) (dec : GstOpusDec) (buffer : Option GstBuffer)
    (st : Nat) (hs : session_ok env dec st)
    (hgo : dec.use_inband_fec = false ∨ dec.primed = true)
    (halloc : env.pad_alloc_buffer (packet_size (after_session_block env dec)) = GST_FLOW_OK)
    (hn : (decode_reply env (after_session_block env dec) st buffer).n < 0) :
    (opus_dec_chain_parse_data env dec buffer).res = GST_FLOW_ERROR ∧
    (opus_dec_chain_parse_data env dec buffer).res ≠ GST_FLOW_OK ∧
    (opus_dec_chain_parse_data env dec buffer).trace.filter Event.is_finish = [] ∧
    Event.element_error (decode_reply env (after_session_block env dec) st buffer).n ∈
      (opus_dec_chain_parse_data env dec buffer).trace ∧
    (opus_dec_chain_parse_data env dec buffer).dec = after_session_block env dec ∧
    (opus_dec_chain_parse_data env dec buffer).dec.state = some st ∧
    (dec.state ≠ none → (opus_dec_chain_parse_data env dec buffer).dec = dec) ∧
    (opus_dec_chain_parse_data env dec buffer).dec.last_buffer = dec.last_buffer ∧
    (opus_dec_chain_parse_data env dec buffer).dec.primed = dec.primed ∧
    (opus_dec_chain_parse_data env dec buffer).dec.pre_skip = dec.pre_skip ∧
    (∀ (env2 : Env) (buffer2 : Option GstBuffer),
      (opus_dec_chain_parse_data env2 (opus_dec_chain_parse_data env dec buffer).dec
        buffer2).trace.filter Event.is_create = [] ∧
      ∀ e ∈ (opus_dec_chain_parse_data env2 (opus_dec_chain_parse_data env dec buffer).dec
          buffer2).trace, e.is_decode = true →
        ∃ data len frame_size fec, e = Event.opus_decode st data len frame_size fec) := by
  have hfr := after_session_block_frame env dec
  have hgo2 : (after_session_block env dec).use_inband_fec = false ∨
      (after_session_block env dec).primed = true := by
    rw [hfr.2.2.2.2.1, hfr.2.2.2.2.2.2]; exact hgo
  have hstate := after_session_block_state env dec st hs
  have hfin := ((chain_decode_calls env dec buffer hgo).2 st hs halloc).2.1 hn
  have hnext := fun env2 buffer2 =>
    chain_with_session env2 (opus_dec_chain_parse_data env dec buffer).dec buffer2 st
      (by rw [(chain_fields env dec buffer).1]; exact hstate)
  have hdec : (opus_dec_chain_parse_data env dec buffer).dec = after_session_block env dec := by
    rw [chain_of_session_ok env dec buffer st hs,
      chain_decode_error env _ st buffer _ hgo2 halloc hn]
  have hres : (opus_dec_chain_parse_data env dec buffer).res = GST_FLOW_ERROR := by
    rw [chain_of_session_ok env dec buffer st hs,
      chain_decode_error env _ st buffer _ hgo2 halloc hn]
  have hmem : Event.element_error (decode_reply env (after_session_block env dec) st buffer).n ∈
      (opus_dec_chain_parse_data env dec buffer).trace := by
    rw [chain_of_session_ok env dec buffer st hs,
      chain_decode_error env _ st buffer _ hgo2 halloc hn]
    simp
  refine ⟨hres, ?_, hfin, hmem, hdec, ?_, ?_, ?_, ?_, ?_, ?_⟩
  · rw [hres]; exact fun h => flow_ok_ne_error h.symm
  · rw [hdec]; exact hstate
  · intro hsome
    rw [hdec]
    cases h : dec.state with
    | none => exact absurd h hsome
    | some s0 => exact (session_present env dec s0 h).1
  · rw [hdec]; exact hfr.2.2.2.2.2.1
  · rw [hdec]; exact hfr.2.2.2.2.2.2
  · rw [hdec]; exact hfr.2.2.2.1
  · intro env2 buffer2
    exact ⟨(hnext env2 buffer2).2.1, (hnext env2 buffer2).2.2⟩

theorem decode_error_keeps_session_witness :
    (opus_dec_chain_parse_data env_decode_error dec_fec_ready (some payload_b)).res =
      GST_FLOW_ERROR ∧
    (opus_dec_chain_parse_data env_decode_error dec_fec_ready (some payload_b)).dec =
      dec_fec_ready :=
  ⟨(decode_error_keeps_session env_decode_error dec_fec_ready (some payload_b) 1 rfl
      (Or.inr rfl) rfl (by decide)).1,
   (decode_error_keeps_session env_decode_error dec_fec_ready (some payload_b) 1 rfl
      (Or.inr rfl) rfl (by decide)).2.2.2.2.2.2.1 (by decide)⟩

/-- C15: with `use_inband_fec` false, for a payload packet `b`, with the
session present or created and the allocation granted,
`opus_dec_chain_parse_data` calls the engine exactly once in that invocation,
on the bytes of `b` with FEC flag 0; on a non-negative result it calls
`finish_frame` exactly once, with the trimmed output of that decode, and
returns what `finish_frame` answers.  Nothing is buffered: `last_buffer` and
`primed` are what they were, so absent and false stay absent and false. -/
theorem plain_decode_is_immediate (env : Env) (dec : GstOpusDec) (b : GstBuffer) (st : Nat)
    (hfec : dec.use_inband_fec = false) (hs : session_ok env dec st)
    (halloc : env.pad_alloc_buffer (packet_size (after_session_block env dec)) = GST_FLOW_OK) :
    (opus_dec_chain_parse_data env dec (some b)).trace.filter Event.is_decode =
      [Event.opus_decode st (some b.data) (b.size : Int)
        (frame_samples (after_session_block env dec)) 0] ∧
    (0 ≤ (env.opus_decode st (some b.data) (b.size : Int)
        (frame_samples (after_session_block env dec)) 0).n →
      (opus_dec_chain_parse_data env dec (some b)).trace.filter Event.is_finish =
        [Event.finish_frame
          (skip_samples (after_session_block env dec)
            (env.opus_decode st (some b.data) (b.size : Int)
              (frame_samples (after_session_block env dec)) 0).n
            { pcm := (env.opus_decode st (some b.data) (b.size : Int)
                (frame_samples (after_session_block env dec)) 0).pcm,
              offset := 0,
              size := to_guint ((env.opus_decode st (some b.data) (b.size : Int)
                (frame_samples (after_session_block env dec)) 0).n
                * 2 * (after_session_block env dec).n_channels) }).2 1] ∧
      (opus_dec_chain_parse_data env dec (some b)).res =
        env.finish_frame
          (skip_samples (after_session_block env dec)
            (env.opus_decode st (some b.data) (b.size : Int)
              (frame_samples (after_session_block env dec)) 0).n
            { pcm := (env.opus_decode st (some b.data) (b.size : Int)
                (frame_samples (after_session_block env dec)) 0).pcm,
              offset := 0,
              size := to_guint ((env.opus_decode st (some b.data) (b.size : Int)
                (frame_samples (after_session_block env dec)) 0).n
                * 2 * (after_session_block env dec).n_channels) }).2 1) ∧
    (opus_dec_chain_parse_data env dec (some b)).dec.last_buffer = dec.last_buffer ∧
    (opus_dec_chain_parse_data env dec (some b)).dec.primed = dec.primed ∧
    (dec.last_buffer = none → dec.primed = false →
      (opus_dec_chain_parse_data env dec (some b)).dec.last_buffer = none ∧
      (opus_dec_chain_parse_data env dec (some b)).dec.primed = false) := by
  have hfr := after_session_block_frame env dec
  have hfec2 : (after_session_block env dec).use_inband_fec = false := by
    rw [hfr.2.2.2.2.1]; exact hfec
  have hcall : decode_call (after_session_block env dec) st (some b) =
        Event.opus_decode st (some b.data) (b.size : Int)
          (frame_samples (after_session_block env dec)) 0 ∧
      decode_reply env (after_session_block env dec) st (some b) =
        env.opus_decode st (some b.data) (b.size : Int)
          (frame_samples (after_session_block env dec)) 0 := by
    simp [decode_call, decode_reply, decode_buffer, decode_data, decode_fec, hfec2]
  have core := (chain_decode_calls env dec (some b) (Or.inl hfec)).2 st hs halloc
  have hbuf := chain_no_fec_buffers env dec (some b) hfec
  rw [hcall.1, hcall.2] at core
  refine ⟨core.1, ?_, hbuf.1, hbuf.2, ?_⟩
  · intro hn
    refine ⟨core.2.2 hn, ?_⟩
    rw [chain_of_session_ok env dec (some b) st hs,
      chain_decode_finished env _ st (some b) _ (Or.inl hfec2) halloc (by rw [hcall.2]; exact hn),
      (chain_done_proj _ _ _ _).1, hcall.2]
  · intro hl hp
    rw [hbuf.1, hbuf.2]
    exact ⟨hl, hp⟩

theorem plain_decode_is_immediate_witness :
    (opus_dec_chain_parse_data env_ok dec_skip_312 (some payload_a)).trace.filter
        Event.is_decode = [Event.opus_decode 1 (some payload_a.data) 4 5760 0] ∧
    (opus_dec_chain_parse_data env_ok dec_skip_312 (some payload_a)).dec.last_buffer = none :=
  ⟨(plain_decode_is_immediate env_ok dec_skip_312 payload_a 1 rfl rfl rfl).1,
   ((plain_decode_is_immediate env_ok dec_skip_312 payload_a 1 rfl rfl rfl).2.2.2.2 rfl
      rfl).1⟩

/-! ## Header failures, the session and reset -/

/-- C14 at the failing input: `short_ident_packet` carries the magic but has
12 bytes, so `gst_opus_dec_parse_header` fails on it.  Sent as packet 0,
`gst_opus_dec_handle_frame` returns `GST_FLOW_ERROR`.  Given as the
identification buffer of the `streamheader` array,
`gst_opus_dec_set_format` leaves at `goto done` without storing either buffer
and returns `TRUE`, the value `ret` has had since its initialisation. -/
theorem set_format_swallows_parse_failure :
    (gst_opus_dec_parse_header gst_opus_dec_init short_ident_packet).res = GST_FLOW_ERROR ∧
    (gst_opus_dec_handle_frame env_ok gst_opus_dec_init (some short_ident_packet)).res =
      GST_FLOW_ERROR ∧
    (gst_opus_dec_set_format gst_opus_dec_init streamheader_short_ident).1 = true ∧
    (gst_opus_dec_set_format gst_opus_dec_init streamheader_short_ident).2 =
      gst_opus_dec_init := by
  refine ⟨rfl, rfl, rfl, rfl⟩

/-- C16: from a reset element, over a run of payload packets whose first
finds the engine willing to create session `st`: the run has exactly one
`opus_decoder_create` call, made by the first invocation; `st` is the handle
given to every engine call of the run and the handle the element holds at
its end.  `gst_opus_dec_reset` then destroys `st` and leaves no handle, and
the next payload packet for which creation succeeds makes exactly one
creation and leaves the new handle. -/
theorem session_created_once (dec0 : GstOpusDec) (env1 : Env) (b1 : Option GstBuffer)
    (rest : List (Env × Option GstBuffer)) (st : Nat)
    (hs : session_ok env1 (gst_opus_dec_reset dec0).1 st) :
    (chain_run_trace (gst_opus_dec_reset dec0).1 ((env1, b1) :: rest)).filter Event.is_create =
      [Event.decoder_create
        (gst_opus_dec_setup_from_peer_caps env1 (gst_opus_dec_reset dec0).1).sample_rate
        (gst_opus_dec_setup_from_peer_caps env1 (gst_opus_dec_reset dec0).1).n_channels] ∧
    (opus_dec_chain_parse_data env1 (gst_opus_dec_reset dec0).1 b1).trace.filter
        Event.is_create =
      [Event.decoder_create
        (gst_opus_dec_setup_from_peer_caps env1 (gst_opus_dec_reset dec0).1).sample_rate
        (gst_opus_dec_setup_from_peer_caps env1 (gst_opus_dec_reset dec0).1).n_channels] ∧
    (∀ e ∈ chain_run_trace (gst_opus_dec_reset dec0).1 ((env1, b1) :: rest),
      e.is_decode = true →
      ∃ data len frame_size fec, e = Event.opus_decode st data len frame_size fec) ∧
    (chain_run (gst_opus_dec_reset dec0).1 ((env1, b1) :: rest)).state = some st ∧
    (gst_opus_dec_reset (chain_run (gst_opus_dec_reset dec0).1 ((env1, b1) :: rest))).1.state =
      none ∧
    (gst_opus_dec_reset (chain_run (gst_opus_dec_reset dec0).1 ((env1, b1) :: rest))).2 =
      [Event.decoder_destroy st] ∧
    (∀ (env2 : Env) (b2 : Option GstBuffer) (st2 : Nat),
      session_ok env2
        (gst_opus_dec_reset (chain_run (gst_opus_dec_reset dec0).1 ((env1, b1) :: rest))).1
        st2 →
      ((opus_dec_chain_parse_data env2
        (gst_opus_dec_reset (chain_run (gst_opus_dec_reset dec0).1 ((env1, b1) :: rest))).1
        b2).trace.filter Event.is_create).length = 1 ∧
      (opus_dec_chain_parse_data env2
        (gst_opus_dec_reset (chain_run (gst_opus_dec_reset dec0).1 ((env1, b1) :: rest))).1
        b2).dec.state = some st2) := by
  have hnone : (gst_opus_dec_reset dec0).1.state = none := rfl
  have hcre := chain_creations env1 (gst_opus_dec_reset dec0).1 b1
  have hsess : session_trace env1 (gst_opus_dec_reset dec0).1 =
      [Event.decoder_create
        (gst_opus_dec_setup_from_peer_caps env1 (gst_opus_dec_reset dec0).1).sample_rate
        (gst_opus_dec_setup_from_peer_caps env1 (gst_opus_dec_reset dec0).1).n_channels] := rfl
  have hstate : (opus_dec_chain_parse_data env1 (gst_opus_dec_reset dec0).1 b1).dec.state =
      some st := by
    rw [(chain_fields env1 _ b1).1]
    exact after_session_block_state env1 _ st hs
  obtain ⟨r1, r2, r3⟩ := chain_run_with_session st rest _ hstate
  have hfirst : ∀ e ∈ (opus_dec_chain_parse_data env1 (gst_opus_dec_reset dec0).1 b1).trace,
      e.is_decode = true →
      ∃ data len frame_size fec, e = Event.opus_decode st data len frame_size fec := by
    intro e he hd
    by_cases hgo : (gst_opus_dec_reset dec0).1.use_inband_fec = false ∨
        (gst_opus_dec_reset dec0).1.primed = true
    · obtain ⟨s2, hs2, hcall⟩ := (chain_decode_calls env1 _ b1 hgo).1 e he hd
      have := session_ok_unique env1 _ st s2 hs hs2
      subst this
      rw [hcall]
      exact decode_call_handle _ _ _
    · obtain ⟨e2, he2, hd2⟩ : ∃ e2 ∈ session_trace env1 (gst_opus_dec_reset dec0).1,
          e2.is_decode = true := by
        have hfec : (after_session_block env1 (gst_opus_dec_reset dec0).1).use_inband_fec =
            true := by
          rw [(after_session_block_frame env1 _).2.2.2.2.1]
          cases h : (gst_opus_dec_reset dec0).1.use_inband_fec
          · exact absurd (Or.inl h) hgo
          · rfl
        have hprimed : (after_session_block env1 (gst_opus_dec_reset dec0).1).primed =
            false := by
          rw [(after_session_block_frame env1 _).2.2.2.2.2.2]
          rfl
        rw [chain_of_session_ok env1 _ b1 st hs,
          chain_decode_priming env1 _ st b1 _ hfec hprimed] at he
        exact ⟨e, he, hd⟩
      rw [(mem_session_trace env1 _ e2 he2).1] at hd2
      cases hd2
  have hend : (chain_run (gst_opus_dec_reset dec0).1 ((env1, b1) :: rest)).state = some st := r1
  refine ⟨?_, ?_, ?_, hend, rfl, ?_, ?_⟩
  · simp only [chain_run_trace]
    rw [List.filter_append, hcre, r2, hsess]
    rfl
  · rw [hcre, hsess]
  · intro e he hd
    simp only [chain_run_trace, List.mem_append] at he
    rcases he with he | he
    · exact hfirst e he hd
    · exact r3 e he hd
  · exact reset_destroys _ st hend
  · intro env2 b2 st2 hs2
    refine ⟨?_, ?_⟩
    · rw [chain_creations]
      rfl
    · rw [(chain_fields env2 _ b2).1]
      exact after_session_block_state env2 _ st2 hs2

theorem session_created_once_witness :
    (chain_run_trace (gst_opus_dec_reset gst_opus_dec_init).1
        [(env_ok, some payload_a), (env_ok, some payload_b)]).filter Event.is_create =
      [Event.decoder_create 48000 2] ∧
    (chain_run (gst_opus_dec_reset gst_opus_dec_init).1
        [(env_ok, some payload_a), (env_ok, some payload_b)]).state = some 1 :=
  ⟨(session_created_once gst_opus_dec_init env_ok (some payload_a)
      [(env_ok, some payload_b)] 1 rfl).1,
   (session_created_once gst_opus_dec_init env_ok (some payload_a)
      [(env_ok, some payload_b)] 1 rfl).2.2.2.1⟩

/-- C17: from every state, `gst_opus_dec_reset` leaves no session, packet
index 0, no pending packet, `primed` false, skip budget 0 and no stored
out-of-band buffers, and leaves `use_inband_fec`, `sample_rate` and
`n_channels` as they were; it destroys the session it found, if any.  A
second reset changes nothing more.  `gst_opus_dec_start` and
`gst_opus_dec_stop` return `TRUE` and leave the element as reset does. -/
theorem reset_clears_stream_state (dec : GstOpusDec) :
    (gst_opus_dec_reset dec).1.state = none ∧
    (gst_opus_dec_reset dec).1.packetno = 0 ∧
    (gst_opus_dec_reset dec).1.last_buffer = none ∧
    (gst_opus_dec_reset dec).1.primed = false ∧
    (gst_opus_dec_reset dec).1.pre_skip = 0 ∧
    (gst_opus_dec_reset dec).1.streamheader = none ∧
    (gst_opus_dec_reset dec).1.vorbiscomment = none ∧
    (gst_opus_dec_reset dec).1.use_inband_fec = dec.use_inband_fec ∧
    (gst_opus_dec_reset dec).1.sample_rate = dec.sample_rate ∧
    (gst_opus_dec_reset dec).1.n_channels = dec.n_channels ∧
    (∀ st, dec.state = some st → (gst_opus_dec_reset dec).2 = [Event.decoder_destroy st]) ∧
    (dec.state = none → (gst_opus_dec_reset dec).2 = []) ∧
    (gst_opus_dec_reset (gst_opus_dec_reset dec).1).1 = (gst_opus_dec_reset dec).1 ∧
    (gst_opus_dec_reset (gst_opus_dec_reset dec).1).2 = [] ∧
    (gst_opus_dec_start dec).1 = true ∧
    (gst_opus_dec_start dec).2.1 = (gst_opus_dec_reset dec).1 ∧
    (gst_opus_dec_stop dec).1 = true ∧
    (gst_opus_dec_stop dec).2.1 = (gst_opus_dec_reset dec).1 := by
  refine ⟨rfl, rfl, rfl, rfl, rfl, rfl, rfl, rfl, rfl, rfl, ?_, ?_, rfl, rfl, rfl, rfl, rfl, rfl⟩
  · intro st hst
    unfold gst_opus_dec_reset
    simp only
    rw [hst]
  · intro hst
    unfold gst_opus_dec_reset
    simp only
    rw [hst]

/-! ## A stream from its headers on -/

/-- C18: from a reset element with FEC off and no out-of-band headers, fed
through `gst_opus_dec_handle_frame` an identification packet of at least 19
bytes announcing a pre-skip of 312, then a comment packet, then a payload
packet `p1`: packets 0 and 1 each make the single call `finish_frame (NULL, 1)`
(no engine call), return `GST_FLOW_OK` and leave the skip budget at 312.
Packet `p1` is decoded on its own bytes with FEC flag 0, and when it decodes
to `m` samples at rate `R` with `c` channels the frame finished has its
leading `min m (312 * R / 48000)` samples removed (`NULL` if none is left). -/
theorem headers_then_trimmed_payload (dec0 d1 d2 : GstOpusDec) (env0 env1 env2 : Env)
    (head tags p1 : GstBuffer) (st R c m : Nat)
    (hfec : dec0.use_inband_fec = false)
    (hlen : 19 ≤ head.size) (hmagic : head.data.take 8 = OpusHead)
    (h312 : GST_READ_UINT16_LE head.data 10 = 312)
    (htags : tags.data.take 8 = OpusTags)
    (hd1 : d1 = (gst_opus_dec_handle_frame env0 (gst_opus_dec_reset dec0).1 (some head)).dec)
    (hd2 : d2 = (gst_opus_dec_handle_frame env1 d1 (some tags)).dec)
    (hs : session_ok env2 d2 st)
    (halloc : env2.pad_alloc_buffer (packet_size (after_session_block env2 d2)) = GST_FLOW_OK)
    (hn : (decode_reply env2 (after_session_block env2 d2) st (some p1)).n = (m : Int))
    (hR : (after_session_block env2 d2).sample_rate = (R : Int))
    (hRa : R ∈ [8000, 12000, 16000, 24000, 48000])
    (hc : (after_session_block env2 d2).n_channels = (c : Int)) (hc1 : 1 ≤ c)
    (hrep : m * 2 * c < 2147483648) :
    (gst_opus_dec_handle_frame env0 (gst_opus_dec_reset dec0).1 (some head)).trace =
      [Event.finish_frame none 1] ∧
    (gst_opus_dec_handle_frame env0 (gst_opus_dec_reset dec0).1 (some head)).res =
      GST_FLOW_OK ∧
    d1.pre_skip = 312 ∧
    (gst_opus_dec_handle_frame env1 d1 (some tags)).trace = [Event.finish_frame none 1] ∧
    (gst_opus_dec_handle_frame env1 d1 (some tags)).res = GST_FLOW_OK ∧
    d2.pre_skip = 312 ∧
    (gst_opus_dec_handle_frame env2 d2 (some p1)).trace.filter Event.is_decode =
      [Event.opus_decode st (some p1.data) (p1.size : Int)
        (frame_samples (after_session_block env2 d2)) 0] ∧
    (gst_opus_dec_handle_frame env2 d2 (some p1)).trace.filter Event.is_finish =
      [Event.finish_frame
        (if (m - min m (312 * R / 48000)) * 2 * c = 0 then none
         else some { pcm := (decode_reply env2 (after_session_block env2 d2) st (some p1)).pcm,
                     offset := min m (312 * R / 48000) * 2 * c,
                     size := (m - min m (312 * R / 48000)) * 2 * c }) 1] := by
  have e0 := handle_frame_ident env0 (gst_opus_dec_reset dec0).1 head (Or.inl rfl) rfl hlen
    hmagic
  rw [e0] at hd1
  have hd1s : d1.streamheader = none := by rw [hd1]; rfl
  have hd1p : d1.packetno = 1 := by rw [hd1]
  have e1 := handle_frame_comment env1 d1 tags (Or.inl hd1s) hd1p htags
  rw [e1] at hd2
  have hd2s : d2.streamheader = none := by rw [hd2]; exact hd1s
  have hd2p : d2.packetno = 2 := by rw [hd2]
  have hd1k : d1.pre_skip = 312 := by rw [hd1]; exact h312
  have hd2k : d2.pre_skip = 312 := by rw [hd2]; exact hd1k
  have hd2f : d2.use_inband_fec = false := by rw [hd2, hd1]; exact hfec
  have e2 := handle_frame_payload env2 d2 p1 (Or.inl hd2s) (by omega)
  have hfec2 : (after_session_block env2 d2).use_inband_fec = false := by
    rw [(after_session_block_frame env2 d2).2.2.2.2.1]; exact hd2f
  have hcall : decode_call (after_session_block env2 d2) st (some p1) =
      Event.opus_decode st (some p1.data) (p1.size : Int)
        (frame_samples (after_session_block env2 d2)) 0 := by
    simp [decode_call, decode_buffer, decode_data, decode_fec, hfec2]
  have core := (chain_decode_calls env2 d2 (some p1) (Or.inl hd2f)).2 st hs halloc
  have htrim := chain_finished_trim env2 d2 (some p1) st 312 R c m hs (Or.inl hd2f) halloc hn
    hd2k (by omega) (by omega) hR hRa hc hc1 hrep
  refine ⟨by rw [e0], by rw [e0], hd1k, by rw [e1], by rw [e1], hd2k, ?_, ?_⟩
  · rw [e2, (packetno_incr_proj _).2.1, core.1, hcall]
  · rw [e2, (packetno_incr_proj _).2.1, htrim.2.1]

theorem headers_then_trimmed_payload_witness :
    (gst_opus_dec_handle_frame env_ok
      (gst_opus_dec_handle_frame env_ok
        (gst_opus_dec_handle_frame env_ok (gst_opus_dec_reset gst_opus_dec_init).1
          (some ident_packet_312)).dec
        (some comment_packet)).dec
      (some payload_a)).trace.filter Event.is_finish =
      [Event.finish_frame (some { pcm := [], offset := 1248, size := 2592 }) 1] :=
  (headers_then_trimmed_payload gst_opus_dec_init _ _ env_ok env_ok env_ok ident_packet_312
    comment_packet payload_a 1 48000 2 960 rfl (by decide) (by decide) rfl (by decide) rfl rfl
    rfl rfl rfl rfl (by decide) rfl (by decide) (by decide)).2.2.2.2.2.2.2

/-! ## What `finish_frame` is handed -/

/-- C19: after a decode of `m ≥ 0` samples (budget `B` within 16 bits,
allowed rate, `c ≥ 1` channels), `opus_dec_chain_parse_data` calls
`finish_frame` once, with frame count 1.  The buffer is `NULL` exactly when
the budget was above 0 and the trimmer skipped all `m` samples
(`min m (B * R / 48000) = m`); otherwise it is a buffer of
`(m - skip) * 2 * c` bytes, the whole output when the budget was 0.  In both
cases the function returns what `finish_frame` answers. -/
theorem finish_frame_null_iff_fully_trimmed (env : Env) (dec : GstOpusDec)
    (buffer : Option GstBuffer) (st : Nat) (B R c m : Nat) (hs : session_ok env dec st)
    (hgo : dec.use_inband_fec = false ∨ dec.primed = true)
    (halloc : env.pad_alloc_buffer (packet_size (after_session_block env dec)) = GST_FLOW_OK)
    (hn : (decode_reply env (after_session_block env dec) st buffer).n = (m : Int))
    (hB : dec.pre_skip = B) (hB16 : B ≤ 65535)
    (hR : (after_session_block env dec).sample_rate = (R : Int))
    (hRa : R ∈ [8000, 12000, 16000, 24000, 48000])
    (hc : (after_session_block env dec).n_channels = (c : Int)) (hc1 : 1 ≤ c)
    (hrep : m * 2 * c < 2147483648) :
    (B = 0 →
      (opus_dec_chain_parse_data env dec buffer).trace.filter Event.is_finish =
        [Event.finish_frame
          (some { pcm := (decode_reply env (after_session_block env dec) st buffer).pcm,
                  offset := 0, size := m * 2 * c }) 1]) ∧
    (0 < B →
      (opus_dec_chain_parse_data env dec buffer).trace.filter Event.is_finish =
        [Event.finish_frame
          (if min m (B * R / 48000) = m then none
           else some { pcm := (decode_reply env (after_session_block env dec) st buffer).pcm,
                       offset := min m (B * R / 48000) * 2 * c,
                       size := (m - min m (B * R / 48000)) * 2 * c }) 1]) ∧
    (Event.finish_frame none 1 ∈ (opus_dec_chain_parse_data env dec buffer).trace ↔
      (0 < B ∧ min m (B * R / 48000) = m)) ∧
    (∃ buf, (opus_dec_chain_parse_data env dec buffer).trace.filter Event.is_finish =
        [Event.finish_frame buf 1] ∧
      (opus_dec_chain_parse_data env dec buffer).res = env.finish_frame buf 1) := by
  have hn0 : 0 ≤ (decode_reply env (after_session_block env dec) st buffer).n := by
    rw [hn]; exact Int.natCast_nonneg m
  have hsize : to_guint ((decode_reply env (after_session_block env dec) st buffer).n * 2 *
      (after_session_block env dec).n_channels) = m * 2 * c := by
    rw [hn, hc]
    have : ((m : Int) * 2 * (c : Int)) = ((m * 2 * c : Nat) : Int) := by push_cast; ring
    rw [this]
    exact to_guint_natCast _ (by omega)
  have hmem : ∀ e : Event, e.is_finish = true →
      (e ∈ (opus_dec_chain_parse_data env dec buffer).trace ↔
        e ∈ (opus_dec_chain_parse_data env dec buffer).trace.filter Event.is_finish) := by
    intro e he
    rw [List.mem_filter]
    exact ⟨fun h => ⟨h, he⟩, fun h => h.1⟩
  have hskm : min m (B * R / 48000) ≤ m := min_le_left _ _
  have hcond : (m - min m (B * R / 48000)) * 2 * c = 0 ↔ min m (B * R / 48000) = m := by
    constructor
    · intro h
      rcases Nat.mul_eq_zero.mp h with h2 | h2
      · omega
      · omega
    · intro h
      rw [h]; simp
  by_cases hB0 : B = 0
  · have hun := chain_finished_untrimmed env dec buffer st hs hgo halloc hn0 (hB.trans hB0)
    rw [hsize] at hun
    refine ⟨fun _ => hun.1, fun h => by omega, ?_, ⟨_, hun.1, hun.2⟩⟩
    rw [hmem (Event.finish_frame none 1) rfl, hun.1, List.mem_singleton]
    constructor
    · intro h; cases h
    · intro h; omega
  · have htr := chain_finished_trim env dec buffer st B R c m hs hgo halloc hn hB (by omega)
      hB16 hR hRa hc hc1 hrep
    have hfin : (opus_dec_chain_parse_data env dec buffer).trace.filter Event.is_finish =
        [Event.finish_frame
          (if min m (B * R / 48000) = m then none
           else some { pcm := (decode_reply env (after_session_block env dec) st buffer).pcm,
                       offset := min m (B * R / 48000) * 2 * c,
                       size := (m - min m (B * R / 48000)) * 2 * c }) 1] := by
      rw [htr.2.1]
      by_cases hfull : min m (B * R / 48000) = m
      · rw [if_pos (hcond.mpr hfull), if_pos hfull]
      · rw [if_neg (fun h => hfull (hcond.mp h)), if_neg hfull]
    refine ⟨fun h => absurd h hB0, fun _ => hfin, ?_, ⟨_, htr.2.1, htr.2.2⟩⟩
    rw [hmem (Event.finish_frame none 1) rfl, hfin, List.mem_singleton]
    by_cases hfull : min m (B * R / 48000) = m
    · rw [if_pos hfull]
      exact ⟨fun _ => ⟨by omega, hfull⟩, fun _ => rfl⟩
    · rw [if_neg hfull]
      constructor
      · intro h; cases h
      · intro h; exact absurd h.2 hfull

theorem finish_frame_null_iff_fully_trimmed_witness :
    Event.finish_frame none 1 ∈
      (opus_dec_chain_parse_data env_short_frame dec_skip_312_at_24000 (some payload_a)).trace :=
  ((finish_frame_null_iff_fully_trimmed env_short_frame dec_skip_312_at_24000 (some payload_a)
    1 312 24000 1 100 rfl (Or.inl rfl) rfl rfl rfl (by decide) rfl (by decide) rfl (by decide)
    (by decide)).2.2.1).mpr ⟨by decide, by decide⟩

/-- C20: for every rate `R` among 8000, 12000, 16000, 24000, 48000 and
`c` in 1, 2: the capacity `samples = 120 * R / 1000` passed to the engine is
exactly 120 ms of samples (`120 * R` is a multiple of 1000, and the value is
`3 * R / 25` with `3 * R` a multiple of 25); the size asked of the allocator
is `samples * c * 2` bytes; and after a decode returning `m` the byte length
of the output is set to `m * 2 * c`, which is the length of the frame
finished when nothing is left to skip. -/
theorem decode_capacity_is_120ms (env : Env) (dec : GstOpusDec) (buffer : Option GstBuffer)
    (st : Nat) (R c m : Nat) (hs : session_ok env dec st)
    (hgo : dec.use_inband_fec = false ∨ dec.primed = true)
    (halloc : env.pad_alloc_buffer (packet_size (after_session_block env dec)) = GST_FLOW_OK)
    (hn : (decode_reply env (after_session_block env dec) st buffer).n = (m : Int))
    (hR : (after_session_block env dec).sample_rate = (R : Int))
    (hRa : R ∈ [8000, 12000, 16000, 24000, 48000])
    (hc : (after_session_block env dec).n_channels = (c : Int)) (hc12 : c = 1 ∨ c = 2)
    (hrep : m * 2 * c < 2147483648) :
    120 * R % 1000 = 0 ∧ 120 * R / 1000 = 3 * R / 25 ∧ 3 * R % 25 = 0 ∧
    frame_samples (after_session_block env dec) = ((120 * R / 1000 : Nat) : Int) ∧
    packet_size (after_session_block env dec) = 120 * R / 1000 * c * 2 ∧
    Event.pad_alloc_buffer (120 * R / 1000 * c * 2) ∈
      (opus_dec_chain_parse_data env dec buffer).trace ∧
    (opus_dec_chain_parse_data env dec buffer).trace.filter Event.is_decode =
      [Event.opus_decode st (decode_data (decode_buffer (after_session_block env dec) buffer)).1
        (decode_data (decode_buffer (after_session_block env dec) buffer)).2
        ((120 * R / 1000 : Nat) : Int) (decode_fec (after_session_block env dec))] ∧
    to_guint ((decode_reply env (after_session_block env dec) st buffer).n * 2 *
      (after_session_block env dec).n_channels) = m * 2 * c ∧
    (dec.pre_skip = 0 →
      (opus_dec_chain_parse_data env dec buffer).trace.filter Event.is_finish =
        [Event.finish_frame
          (some { pcm := (decode_reply env (after_session_block env dec) st buffer).pcm,
                  offset := 0, size := m * 2 * c }) 1]) := by
  have hRb := allowed_rate_bounds R hRa
  have harith : 120 * R % 1000 = 0 ∧ 120 * R / 1000 = 3 * R / 25 ∧ 3 * R % 25 = 0 := by
    simp only [List.mem_cons, List.mem_singleton, List.not_mem_nil, or_false] at hRa
    rcases hRa with h | h | h | h | h <;> subst h <;> decide
  have hfs : frame_samples (after_session_block env dec) = ((120 * R / 1000 : Nat) : Int) := by
    unfold frame_samples
    rw [hR]
    simp only [List.mem_cons, List.mem_singleton, List.not_mem_nil, or_false] at hRa
    rcases hRa with h | h | h | h | h <;> subst h <;> decide
  have hcap : 120 * R / 1000 ≤ 5760 := by omega
  have hps : packet_size (after_session_block env dec) = 120 * R / 1000 * c * 2 := by
    unfold packet_size
    rw [hfs, hc]
    have : (((120 * R / 1000 : Nat) : Int) * (c : Int) * 2) =
        ((120 * R / 1000 * c * 2 : Nat) : Int) := by push_cast; ring
    rw [this]
    apply to_guint_natCast
    rcases hc12 with h | h <;> subst h <;> omega
  have hn0 : 0 ≤ (decode_reply env (after_session_block env dec) st buffer).n := by
    rw [hn]; exact Int.natCast_nonneg m
  have hsize : to_guint ((decode_reply env (after_session_block env dec) st buffer).n * 2 *
      (after_session_block env dec).n_channels) = m * 2 * c := by
    rw [hn, hc]
    have : ((m : Int) * 2 * (c : Int)) = ((m * 2 * c : Nat) : Int) := by push_cast; ring
    rw [this]
    exact to_guint_natCast _ (by omega)
  have hfr := after_session_block_frame env dec
  have hgo2 : (after_session_block env dec).use_inband_fec = false ∨
      (after_session_block env dec).primed = true := by
    rw [hfr.2.2.2.2.1, hfr.2.2.2.2.2.2]; exact hgo
  have core := (chain_decode_calls env dec buffer hgo).2 st hs halloc
  refine ⟨harith.1, harith.2.1, harith.2.2, hfs, hps, ?_, ?_, hsize, ?_⟩
  · rw [chain_of_session_ok env dec buffer st hs,
      chain_decode_finished env _ st buffer _ hgo2 halloc hn0, (chain_done_proj _ _ _ _).2.1,
      hps]
    simp
  · rw [core.1]
    unfold decode_call
    rw [hfs]
  · intro hB
    have hun := chain_finished_untrimmed env dec buffer st hs hgo halloc hn0 hB
    rw [hsize] at hun
    exact hun.1

theorem decode_capacity_is_120ms_witness :
    Event.pad_alloc_buffer 23040 ∈
      (opus_dec_chain_parse_data env_ok dec_skip_312 (some payload_a)).trace ∧
    packet_size (after_session_block env_ok dec_skip_312) = 23040 :=
  ⟨(decode_capacity_is_120ms env_ok dec_skip_312 (some payload_a) 1 48000 2 960 rfl
      (Or.inl rfl) rfl rfl rfl (by decide) rfl (Or.inr rfl) (by decide)).2.2.2.2.2.1,
   (decode_capacity_is_120ms env_ok dec_skip_312 (some payload_a) 1 48000 2 960 rfl
      (Or.inl rfl) rfl rfl rfl (by decide) rfl (Or.inr rfl) (by decide)).2.2.2.2.1⟩

/-! ## The budget in units of `48000 / R` -/

/-- C22: for every allowed rate `R`, with `k = 48000 / R`, every budget `B`
(within the 16 bits `gst_opus_dec_parse_header` stores) and every decoded
count `m ≥ 0`, one trim step removes `skip = min m (B / k)` samples and
lowers the budget by exactly `skip * k`; so `B % k` is kept, the rescaled
budget `B / k` drops by exactly `skip`, and a budget with `0 < B < k` is left
as it is by the step and by every later run of decode cycles of the
session. -/
theorem budget_drops_by_multiples (d : GstOpusDec) (B R m : Nat) (outbuf : OutBuf)
    (hB : d.pre_skip = B) (hB16 : B ≤ 65535) (hR : d.sample_rate = (R : Int))
    (hRa : R ∈ [8000, 12000, 16000, 24000, 48000]) (hm : m < 2147483648) :
    samples_trimmed d (m : Int) = min m (B / (48000 / R)) ∧
    min m (B / (48000 / R)) * (48000 / R) ≤ B ∧
    (skip_samples d (m : Int) outbuf).1.pre_skip =
      B - min m (B / (48000 / R)) * (48000 / R) ∧
    (skip_samples d (m : Int) outbuf).1.pre_skip % (48000 / R) = B % (48000 / R) ∧
    (skip_samples d (m : Int) outbuf).1.pre_skip / (48000 / R) =
      B / (48000 / R) - min m (B / (48000 / R)) ∧
    (0 < B → B < 48000 / R →
      (skip_samples d (m : Int) outbuf).1.pre_skip = B ∧
      ∀ st, d.state = some st → ∀ calls : List (Env × Option GstBuffer),
        (chain_run d calls).pre_skip = B) := by
  obtain ⟨h1, h2, h3, h4, h5, h6, h7⟩ := trim_step_values d B R m outbuf hB hB16 hR hRa hm
  have hk : 0 < 48000 / R := by
    simp only [List.mem_cons, List.mem_singleton, List.not_mem_nil, or_false] at hRa
    rcases hRa with h | h | h | h | h <;> subst h <;> omega
  have hle : min m (B / (48000 / R)) * (48000 / R) ≤ B :=
    le_trans (Nat.mul_le_mul_right _ (min_le_right _ _)) (Nat.div_mul_le_self _ _)
  have hdiv : (skip_samples d (m : Int) outbuf).1.pre_skip / (48000 / R) =
      B / (48000 / R) - min m (B / (48000 / R)) := by
    rw [h3, h1]
    simp only [List.mem_cons, List.mem_singleton, List.not_mem_nil, or_false] at hRa
    rcases hRa with h | h | h | h | h <;> subst h <;> omega
  refine ⟨by rw [h2, h1], hle, by rw [h3, h1], h6, hdiv, ?_⟩
  intro _ hlt
  refine ⟨skip_samples_below_unit d _ outbuf B R hB hR hRa hlt, ?_⟩
  intro st hst calls
  exact chain_run_below_unit st B R hRa hlt calls d hst hB hR

theorem budget_drops_by_multiples_witness :
    (skip_samples dec_skip_312_at_24000 100 { pcm := [], offset := 0, size := 200 }).1.pre_skip
      = 112 :=
  (budget_drops_by_multiples dec_skip_312_at_24000 312 24000 100
    { pcm := [], offset := 0, size := 200 } rfl (by decide) rfl (by decide) (by decide)).2.2.1

/-- C23: for every pre-skip `B ≤ 65535`, every allowed rate `R` and every
decoded count `m ≥ 0` (with `c ≥ 1` channels and `m * 2 * c` fitting an
`int`), the products `B * R` and `skip * 48000` of the trimmer are below
`2^32`, so the `guint` values `scaled_pre_skip` and `scaled_skip` are the
exact floor quotients, and `skip * 2 * c`, computed without wrap-around, is
at most the buffer size `m * 2 * c` it is subtracted from. -/
theorem trimmer_products_fit_guint (d : GstOpusDec) (B R c m : Nat) (hB : d.pre_skip = B)
    (hB16 : B ≤ 65535) (hR : d.sample_rate = (R : Int))
    (hRa : R ∈ [8000, 12000, 16000, 24000, 48000]) (hc : d.n_channels = (c : Int))
    (hc1 : 1 ≤ c) (hrep : m * 2 * c < 2147483648) :
    R ≤ 48000 ∧
    B * R < 4294967296 ∧
    skip d (m : Int) * 48000 < 4294967296 ∧
    scaled_pre_skip d = B * R / 48000 ∧
    skip d (m : Int) = min m (B * R / 48000) ∧
    scaled_skip d (m : Int) = skip d (m : Int) * 48000 / R ∧
    skip_bytes d (m : Int) = skip d (m : Int) * 2 * c ∧
    skip_bytes d (m : Int) ≤ to_guint ((m : Int) * 2 * d.n_channels) ∧
    to_guint ((m : Int) * 2 * d.n_channels) = m * 2 * c := by
  obtain ⟨h1, h2, h3, h4, h5⟩ := trimmer_values d B R c m hB hB16 hR hRa hc hc1 hrep
  have hRb := allowed_rate_bounds R hRa
  have hBR : B * R ≤ 65535 * 48000 := Nat.mul_le_mul hB16 hRb.2
  have hsk : min m (B * R / 48000) * 48000 ≤ B * R :=
    le_trans (Nat.mul_le_mul_right _ (min_le_right _ _)) (Nat.div_mul_le_self _ _)
  have hbytes : min m (B * R / 48000) * 2 * c ≤ m * 2 * c :=
    Nat.mul_le_mul_right _ (Nat.mul_le_mul_right _ (min_le_left _ _))
  refine ⟨hRb.2, by omega, by rw [h2]; omega, h1, h2, by rw [h3, h2], by rw [h4, h2], ?_, h5⟩
  rw [h4, h5]
  exact hbytes

theorem trimmer_products_fit_guint_witness :
    scaled_pre_skip dec_skip_312_at_24000 = 156 ∧ scaled_skip dec_skip_312_at_24000 100 = 200 :=
  ⟨(trimmer_products_fit_guint dec_skip_312_at_24000 312 24000 1 100 rfl (by decide) rfl
      (by decide) rfl (by decide) (by decide)).2.2.2.1,
   (trimmer_products_fit_guint dec_skip_312_at_24000 312 24000 1 100 rfl (by decide) rfl
      (by decide) rfl (by decide) (by decide)).2.2.2.2.2.1⟩

/-! ## The pending packet on every run -/

/-- C21: in every state reached from a reset element by any sequence of
`gst_opus_dec_handle_frame` calls (with or without a buffer), caps changes,
settings of `use-inband-fec` and resets, `primed` true implies that
`last_buffer` is present; and no engine call of such a run carries FEC
flag 1: every one carries flag 0. -/
theorem primed_implies_pending_on_every_run (dec0 : GstOpusDec) (ops : List Op) :
    ((run_ops (gst_opus_dec_reset dec0).1 ops).1.primed = true →
      (run_ops (gst_opus_dec_reset dec0).1 ops).1.last_buffer ≠ none) ∧
    (∀ e ∈ (run_ops (gst_opus_dec_reset dec0).1 ops).2,
      ∀ (st : Nat) (data : Option (List guint8)) (len frame_size fec : Int),
        e = Event.opus_decode st data len frame_size fec → fec = 0) ∧
    (∀ e ∈ (run_ops (gst_opus_dec_reset dec0).1 ops).2,
      ∀ (st : Nat) (data : Option (List guint8)) (len frame_size : Int),
        e ≠ Event.opus_decode st data len frame_size 1) := by
  have hreset : pending_when_primed (gst_opus_dec_reset dec0).1 := by
    intro h; cases h
  obtain ⟨h1, h2⟩ := run_ops_keeps_pending ops _ hreset
  refine ⟨h1, h2, ?_⟩
  intro e he st data len frame_size heq
  have := h2 e he st data len frame_size 1 heq
  omega

/-! ## Override codes in a subtitle text -/

/-- C24 at the failing input, the text `}{`: the loop finds `'{'` at offset 1
and the first `'}'` of the text at offset 0, the `g_memmove` copies the tail
onto itself and leaves the text as it is, and the function does not return
for any amount of fuel.  On `}a{` one iteration leaves a text of 4 bytes
where there were 3.  More generally the loop never ends on a text whose first
`'}'` comes before its first `'{'`.  A text with its braces in order is
cleaned as expected: `a{x}b` becomes `ab`. -/
theorem remove_override_codes_loops_forever :
    strchr text_close_open 123 = some 1 ∧
    strchr text_close_open 125 = some 0 ∧
    g_memmove_tail text_close_open 1 0 = text_close_open ∧
    (∀ fuel : Nat, gst_ssa_parse_remove_override_codes fuel text_close_open = none) ∧
    text_close_a_open.length = 3 ∧
    (g_memmove_tail text_close_a_open 2 0).length = 4 ∧
    (∀ (fuel : Nat) (txt : List guint8) (t e : Nat),
      strchr txt 123 = some t → strchr txt 125 = some e → e < t →
      gst_ssa_parse_remove_override_codes fuel txt = none) ∧
    gst_ssa_parse_remove_override_codes 3 text_one_code = some (true, [97, 98]) := by
  have hgen : ∀ (fuel : Nat) (txt : List guint8) (t e : Nat),
      strchr txt 123 = some t → strchr txt 125 = some e → e < t →
      gst_ssa_parse_remove_override_codes fuel txt = none := by
    intro fuel txt t e ht he hlt
    unfold gst_ssa_parse_remove_override_codes
    rw [brace_loop_diverges fuel txt false t e ht he hlt]
  refine ⟨by decide, by decide, by decide, ?_, by decide, by decide, hgen, by decide⟩
  intro fuel
  exact hgen fuel text_close_open 1 0 (by decide) (by decide) (by decide)

end GstOpus
